import Mathlib

/-!
# Metadata cache (H5AC): embedding of `H5ACprivate.h`

The header defines the entry-kind enumeration, the descriptor record, the slot and
cache records, the hashing definition `H5AC_HASH` and the inlined lookup `H5AC_find`.
Those are translated definition by definition below.  The out-of-line operations
(`H5AC_find_f`, `H5AC_set`, `H5AC_protect`, ...) are only declared there; where a
statement needs their behaviour it is taken from the prose specification and the
definition says so.

Pointers are natural numbers, `0` being `NULL`.
-/

set_option autoImplicit false

namespace H5AC

/-! ## Data model (H5ACprivate.h, lines 51-102) -/

/-- Enumeration `H5AC_subid_t` (lines 51-57). The last constructor is the
`H5AC_NTYPES` marker, which is not an entry kind. -/
inductive H5AC_subid_t where
  | H5AC_BT_ID
  | H5AC_SNODE_ID
  | H5AC_HEAP_ID
  | H5AC_OHDR_ID
  | H5AC_NTYPES
  deriving DecidableEq, Repr

/-- Integer value of an enumerator, as written in the enumeration. -/
def H5AC_subid_t.val : H5AC_subid_t → Nat
  | .H5AC_BT_ID => 0
  | .H5AC_SNODE_ID => 1
  | .H5AC_HEAP_ID => 2
  | .H5AC_OHDR_ID => 3
  | .H5AC_NTYPES => 4

/-- Address of a `const H5AC_class_t` object; `0` is `NULL`. -/
abbrev ClassPtr := Nat

/-- A `void *` to a cached thing; `0` is `NULL`. -/
abbrev ThingPtr := Nat

/-- Record `H5AC_class_t` (lines 59-65). `load` and `flush` are function pointers,
kept as the addresses of the functions. -/
structure H5AC_class_t where
  id : H5AC_subid_t
  load : Nat
  flush : Nat
  deriving DecidableEq, Repr

/-- Constant `H5AC_NSLOTS` (line 72). -/
def H5AC_NSLOTS : Nat := 10330

/-- Modelled from the spec: the type `haddr_t` comes from `H5Fprivate.h`, which is not
part of the sources. The specification describes an address as an identifier of a
byte offset in the container. -/
structure haddr_t where
  offset : Nat
  deriving DecidableEq, Repr

/-- Record `H5AC_prot_t` (lines 75-79). -/
structure H5AC_prot_t where
  type : ClassPtr
  addr : haddr_t
  thing : ThingPtr
  deriving DecidableEq, Repr

/-- Record `H5AC_slot_t` (lines 81-90), with the `H5AC_DEBUG` members. The live part
of the `prot` array (its first `nprots` elements) is the list `prot`, oldest record
first; `nprots` is its length and `aprots`, the allocated capacity, is not kept. -/
structure H5AC_slot_t where
  type : ClassPtr
  addr : haddr_t
  thing : ThingPtr
  prot : List H5AC_prot_t
  deriving DecidableEq, Repr

/-- The anonymous record of four `uintn` counters inside `H5AC_t` (lines 96-101). -/
structure H5AC_diag_t where
  nhits : Nat
  nmisses : Nat
  ninits : Nat
  nflushes : Nat
  deriving DecidableEq, Repr

/-- Record `H5AC_t` (lines 92-102). `slot` points to an array meant to have `nslots`
elements; `diagnostics` is declared with `H5AC_NTYPES` elements. -/
structure H5AC_t where
  nslots : Nat
  slot : List H5AC_slot_t
  nprots : Nat
  diagnostics : List H5AC_diag_t
  deriving DecidableEq, Repr

/-- The part of `H5F_t` that the cache code touches: `disk` stands for everything the
load and flush callbacks can read or write in the container, `cache` is
`f->shared->cache`. -/
structure H5F_t (σ : Type) where
  disk : σ
  cache : H5AC_t
  deriving DecidableEq

/-- What the header leaves to other files: the width of `uintn` (`H5private.h`), the
address hash behind `H5F_addr_hash` (`H5Fprivate.h`), the memory holding the descriptor
objects, the list of the registered descriptors, and the effect of calling a load or
a flush function pointer. -/
structure Env (σ : Type) where
  uintn_bits : Nat
  hash : haddr_t → Nat
  class_mem : ClassPtr → Option H5AC_class_t
  registry : List ClassPtr
  call_load : Nat → σ → haddr_t → Nat → Nat → ThingPtr × σ
  call_flush : Nat → σ → Bool → haddr_t → ThingPtr → Int × σ

/-- Outcome of a cache call: it returns `v` leaving the file in state `f`, or it
stops the process on a failed assertion in state `f`, or its behaviour is undefined
(a `NULL` dereference or an index outside an array). -/
inductive Result (σ : Type) (α : Type) where
  | ret (v : α) (f : H5F_t σ)
  | fatal (f : H5F_t σ)
  | undefined
  deriving DecidableEq

variable {σ : Type}

/-- Reading `*p` for a descriptor pointer `p`: `NULL` cannot be dereferenced. -/
def Env.class_of (env : Env σ) (p : ClassPtr) : Option H5AC_class_t :=
  if p = 0 then none else env.class_mem p

/-- The post-increment `++` on a `uintn`: unsigned arithmetic wraps. -/
def uintn_incr (env : Env σ) (n : Nat) : Nat :=
  (n + 1) % 2 ^ env.uintn_bits

/-- Modelled from the spec: `H5F_addr_eq` comes from `H5Fprivate.h`, which is not part
of the sources. Two addresses are equal iff they are the same byte offset. -/
def H5F_addr_eq (a b : haddr_t) : Bool :=
  a.offset == b.offset

/-- Modelled from the spec: `H5F_addr_hash` comes from `H5Fprivate.h`, which is not part
of the sources. The specification gives `slot_index(addr) = hash(addr) mod nslots`. -/
def H5F_addr_hash (env : Env σ) (addr_p : haddr_t) (mod : Nat) : Nat :=
  env.hash addr_p % mod

/-- Definition `H5AC_HASH(F,ADDR_P)` (line 73): the modulus is the `nslots` member of
the cache of `F`. -/
def H5AC_HASH (env : Env σ) (f : H5F_t σ) (addr_p : haddr_t) : Nat :=
  H5F_addr_hash env addr_p f.cache.nslots

/-- Assignment to `diagnostics[id]`; `none` when `id` is outside the array. -/
def diag_update (c : H5AC_t) (id : Nat) (g : H5AC_diag_t → H5AC_diag_t) : Option H5AC_t :=
  match c.diagnostics[id]? with
  | none => none
  | some d => some { c with diagnostics := c.diagnostics.set id (g d) }

/-- The statement `diagnostics[id].nhits++`. -/
def bump_nhits (env : Env σ) (c : H5AC_t) (id : Nat) : Option H5AC_t :=
  diag_update c id (fun d => { d with nhits := uintn_incr env d.nhits })

/-- Type of the out-of-line function `H5AC_find_f` (lines 108-110). -/
abbrev FindF (σ : Type) := H5F_t σ → ClassPtr → haddr_t → Nat → Nat → Result σ ThingPtr

/-- Definition `H5AC_find(F,TYPE,ADDR_P,UDATA1,UDATA2)` (lines 125-131). The condition
reads `slot[H5AC_HASH(F,ADDR_P)]`; when it holds the comma expression increments
`diagnostics[(TYPE)->id].nhits` and yields the `thing` of the slot, otherwise the value
is the call `H5AC_find_f (F, TYPE, ADDR_P, UDATA1, UDATA2)`. -/
def H5AC_find (env : Env σ) (find_f : FindF σ) (f : H5F_t σ) (type : ClassPtr)
    (addr_p : haddr_t) (udata1 udata2 : Nat) : Result σ ThingPtr :=
  match f.cache.slot[H5AC_HASH env f addr_p]? with
  | none => .undefined
  | some s =>
    if s.type = type ∧ H5F_addr_eq s.addr addr_p = true then
      match env.class_of type with
      | none => .undefined
      | some k =>
        match bump_nhits env f.cache k.id.val with
        | none => .undefined
        | some c => .ret s.thing { f with cache := c }
    else
      find_f f type addr_p udata1 udata2

/-! ## Out-of-line operations

`H5AC.c` is not part of the sources; the header only declares these functions
(lines 107-123). Their bodies follow sections 4.2-4.8 of the specification. -/

/-- Modelled from the spec: the registry of descriptors lives in files that are not
part of the sources. A pointer is a registered descriptor when it is one of the
descriptor objects of the registry and that object carries the id of an entry kind
(section 4.2: one immortal descriptor per entry kind, identified by its address). -/
def Env.registered (env : Env σ) (p : ClassPtr) : Bool :=
  env.registry.contains p &&
    (match env.class_of p with
     | some k => decide (k.id.val < H5AC_subid_t.H5AC_NTYPES.val)
     | none => false)

/-- Assignment `slot[i] = s`. -/
def put_slot (f : H5F_t σ) (i : Nat) (s : H5AC_slot_t) : H5F_t σ :=
  { f with cache := { f.cache with slot := f.cache.slot.set i s } }

/-- Modelled from the spec: section 4.3, an empty slot is the sentinel `type = none`.
Emptying clears the descriptor and the object pointer and leaves the rest. -/
def clear_slot (s : H5AC_slot_t) : H5AC_slot_t :=
  { s with type := 0, thing := 0 }

/-- Modelled from the spec: the body of `H5AC_flush` for one entry is in `H5AC.c`,
which is not part of the sources. Section 4.4 (flush): flushing a protected entry with
`destroy` is fatal; otherwise invoke `type.flush(container, destroy, &addr, object)`,
increment `nflushes` of the kind, and with `destroy` mark the slot empty once the
callback has returned success. The value is `true` on success, `false` when the
callback failed. -/
def flush_entry (env : Env σ) (f : H5F_t σ) (i : Nat) (s : H5AC_slot_t) (destroy : Bool) :
    Result σ Bool :=
  if destroy = true ∧ s.prot ≠ [] then .fatal f
  else
    match env.class_of s.type with
    | none => .undefined
    | some k =>
      let r := env.call_flush k.flush f.disk destroy s.addr s.thing
      match diag_update f.cache k.id.val
          (fun d => { d with nflushes := uintn_incr env d.nflushes }) with
      | none => .undefined
      | some c =>
        let g : H5F_t σ := { disk := r.2, cache := c }
        if r.1 < 0 then .ret false g
        else if destroy = true then .ret true (put_slot g i (clear_slot s))
        else .ret true g

/-- Modelled from the spec: displacement is implemented in `H5AC.c`, which is not part
of the sources. Sections 4.5 and 4.8: the occupant is flushed with `destroy = true`
(fatal when it is protected); when its flush fails the error is surfaced and the slot
is left empty all the same. -/
def displace (env : Env σ) (f : H5F_t σ) (i : Nat) (s : H5AC_slot_t) : Result σ Bool :=
  match flush_entry env f i s true with
  | .ret false g => .ret false (put_slot g i (clear_slot s))
  | r => r

/-- Modelled from the spec: step 2 of the slow path, shared by `find`, `set` and
`protect` (section 4.4): a non-empty slot holding a different key is displaced. -/
def make_room (env : Env σ) (f : H5F_t σ) (i : Nat) (s : H5AC_slot_t) (type : ClassPtr)
    (addr : haddr_t) : Result σ Bool :=
  if s.type ≠ 0 ∧ ¬ (s.type = type ∧ H5F_addr_eq s.addr addr = true) then displace env f i s
  else .ret true f

/-- Modelled from the spec: `H5AC_find_f` is only declared in the header (lines
108-110), its body is in `H5AC.c`, which is not part of the sources. Section 4.2
(an unregistered `type` is rejected, fatally) and section 4.4, slow path of `find`:
`nmisses` and `ninits` of the kind are incremented (step 1) and `type.load` is called
(step 3); a failed load (`NULL`) returns not-found with the slot table as it was
(step 3 and section 4.7: the target slot is left unchanged). After a successful load a
non-empty slot holding a different key is displaced (step 2, fatal when it is
protected), a failing displacement flush being surfaced as not-found with the slot left
empty (section 4.8); then the entry is installed and the object returned (step 4). The
loader is called before the displacement: only then does a failed load leave the slot
unaltered, and only then does every miss make exactly one loader call (P4 of
section 8). -/
def H5AC_find_f (env : Env σ) : FindF σ := fun f type addr udata1 udata2 =>
  if env.registered type = false then .fatal f
  else
    match env.class_of type with
    | none => .undefined
    | some k =>
      match f.cache.slot[H5AC_HASH env f addr]? with
      | none => .undefined
      | some s =>
        match diag_update f.cache k.id.val (fun d =>
            { d with nmisses := uintn_incr env d.nmisses, ninits := uintn_incr env d.ninits }) with
        | none => .undefined
        | some c =>
          let r := env.call_load k.load f.disk addr udata1 udata2
          if r.1 = 0 then .ret 0 { disk := r.2, cache := c }
          else
            match make_room env { disk := r.2, cache := c } (H5AC_HASH env f addr) s type
                addr with
            | .undefined => .undefined
            | .fatal g => .fatal g
            | .ret false g => .ret 0 g
            | .ret true g =>
              match g.cache.slot[H5AC_HASH env f addr]? with
              | none => .undefined
              | some t =>
                .ret r.1 (put_slot g (H5AC_HASH env f addr)
                  { t with type := type, addr := addr, thing := r.1 })

/-- Modelled from the spec: `H5AC_set` is only declared in the header (lines 121-122).
Section 4.4 (set): displace the occupant of the slot when it is non-empty and not the
entry itself, install `{type, addr, object}`, increment `ninits`. The value is
`0` (`SUCCEED`) or `-1` (`FAIL`, the displacement flush failed). -/
def H5AC_set (env : Env σ) (f : H5F_t σ) (type : ClassPtr) (addr : haddr_t)
    (thing : ThingPtr) : Result σ Int :=
  if env.registered type = false then .fatal f
  else
    match env.class_of type with
    | none => .undefined
    | some k =>
      match f.cache.slot[H5AC_HASH env f addr]? with
      | none => .undefined
      | some s =>
        match make_room env f (H5AC_HASH env f addr) s type addr with
        | .undefined => .undefined
        | .fatal g => .fatal g
        | .ret false g => .ret (-1) g
        | .ret true g =>
          match g.cache.slot[H5AC_HASH env f addr]?,
              diag_update g.cache k.id.val
                (fun d => { d with ninits := uintn_incr env d.ninits }) with
          | some t, some c =>
            .ret 0 (put_slot { g with cache := c } (H5AC_HASH env f addr)
              { t with type := type, addr := addr, thing := thing })
          | _, _ => .undefined

/-- Modelled from the spec: `H5AC_protect` is only declared in the header (lines
111-113). Section 4.4 (protect): a hit uses the resident object, a miss loads and
displaces exactly as `find`; then a protect record is appended to the protect-set of the
slot and the cache-wide `nprots` is incremented. -/
def H5AC_protect (env : Env σ) (f : H5F_t σ) (type : ClassPtr) (addr : haddr_t)
    (udata1 udata2 : Nat) : Result σ ThingPtr :=
  if env.registered type = false then .fatal f
  else
    match H5AC_find env (H5AC_find_f env) f type addr udata1 udata2 with
    | .undefined => .undefined
    | .fatal g => .fatal g
    | .ret thing g =>
      if thing = 0 then .ret 0 g
      else
        match g.cache.slot[H5AC_HASH env f addr]? with
        | none => .undefined
        | some t =>
          .ret thing (put_slot { g with cache := { g.cache with nprots := g.cache.nprots + 1 } }
            (H5AC_HASH env f addr)
            { t with prot := t.prot ++ [{ type := type, addr := addr, thing := thing }] })

/-- Removal of the most recent (last) occurrence of a record; `none` when there is no
occurrence. -/
def remove_last (r : H5AC_prot_t) (l : List H5AC_prot_t) : Option (List H5AC_prot_t) :=
  if r ∈ l then some (l.reverse.erase r).reverse else none

/-- Modelled from the spec: `H5AC_unprotect` is only declared in the header (lines
114-115). Section 4.4 (unprotect): locate the most recent record equal to
`(type, addr, object)` in the protect-set of the slot, remove it and decrement
`nprots`; a missing record is fatal. The object stays in the slot. -/
def H5AC_unprotect (env : Env σ) (f : H5F_t σ) (type : ClassPtr) (addr : haddr_t)
    (thing : ThingPtr) : Result σ Int :=
  if env.registered type = false then .fatal f
  else
    match f.cache.slot[H5AC_HASH env f addr]? with
    | none => .undefined
    | some s =>
      match remove_last { type := type, addr := addr, thing := thing } s.prot with
      | none => .fatal f
      | some l =>
        .ret 0 (put_slot { f with cache := { f.cache with nprots := f.cache.nprots - 1 } }
          (H5AC_HASH env f addr) { s with prot := l })

/-- Modelled from the spec: the loop of `H5AC_flush` over the slots is in `H5AC.c`,
which is not part of the sources. Section 4.4 (flush): the slots are visited in
ascending index order, every non-empty slot selected by `sel` is flushed, and the first
failing callback ends the call with `FAIL`. -/
def flush_slots (env : Env σ) (sel : H5AC_slot_t → Bool) (destroy : Bool) :
    List Nat → H5F_t σ → Result σ Int
  | [], f => .ret 0 f
  | i :: rest, f =>
    match f.cache.slot[i]? with
    | none => .undefined
    | some s =>
      if s.type ≠ 0 ∧ sel s = true then
        match flush_entry env f i s destroy with
        | .undefined => .undefined
        | .fatal g => .fatal g
        | .ret false g => .ret (-1) g
        | .ret true g => flush_slots env sel destroy rest g
      else flush_slots env sel destroy rest f

/-- Modelled from the spec: `H5AC_flush` is only declared in the header (lines
116-117). Section 4.4 (flush), three call shapes: `type` and `addr` given, flush the one
slot keyed by `(type, addr)`, a no-op when the slot does not hold that key; `type`
given and `addr` absent, every non-empty slot of that descriptor; both absent, the whole
cache. A given `type` has to be registered (section 4.2); an absent `type` with an
address is none of the three shapes and is rejected like an unregistered one. -/
def H5AC_flush (env : Env σ) (f : H5F_t σ) (type : ClassPtr) (addr : Option haddr_t)
    (destroy : Bool) : Result σ Int :=
  if type = 0 then
    match addr with
    | none => flush_slots env (fun _ => true) destroy (List.range f.cache.nslots) f
    | some _ => .fatal f
  else if env.registered type = false then .fatal f
  else
    match addr with
    | none => flush_slots env (fun s => decide (s.type = type)) destroy
        (List.range f.cache.nslots) f
    | some a =>
      match f.cache.slot[H5AC_HASH env f a]? with
      | none => .undefined
      | some s =>
        if s.type = type ∧ H5F_addr_eq s.addr a = true then
          match flush_entry env f (H5AC_HASH env f a) s destroy with
          | .undefined => .undefined
          | .fatal g => .fatal g
          | .ret false g => .ret (-1) g
          | .ret true g => .ret 0 g
        else .ret 0 f

/-- Test used by `rename`: the protect record is one of the entry held by `s`. -/
def prot_of (s : H5AC_slot_t) (p : H5AC_prot_t) : Bool :=
  p.type == s.type && H5F_addr_eq p.addr s.addr && p.thing == s.thing

/-- Modelled from the spec: steps 4 and 5 of `rename` (section 4.4): the source slot is
emptied and `{type, new_addr, object}` is put into the destination slot; the protect
records of the renamed entry leave the source slot and join the destination slot with
their address rewritten. The source is emptied first, so that a rename inside one slot
ends with the slot holding the renamed entry (scenario 5 of section 8). -/
def move_entry (f : H5F_t σ) (i_old i_new : Nat) (s_old : H5AC_slot_t) (new_addr : haddr_t) :
    H5F_t σ :=
  let f1 := put_slot f i_old
    { clear_slot s_old with prot := s_old.prot.filter (fun p => !prot_of s_old p) }
  match f1.cache.slot[i_new]? with
  | none => f1
  | some t =>
    put_slot f1 i_new
      { type := s_old.type, addr := new_addr, thing := s_old.thing,
        prot := t.prot ++ (s_old.prot.filter (prot_of s_old)).map
          (fun p => { p with addr := new_addr }) }

/-- Modelled from the spec: `H5AC_rename` is only declared in the header (lines
119-120). Section 4.4 (rename): 1. compute both indices; 2. a no-op when the old slot
does not hold `(type, old_addr)`; 3. an occupant of the new slot other than the renamed
entry, holding a different key, is displaced as in `find`; 4.-5. the entry and its
protect records move. -/
def H5AC_rename (env : Env σ) (f : H5F_t σ) (type : ClassPtr) (old_addr new_addr : haddr_t) :
    Result σ Int :=
  if env.registered type = false then .fatal f
  else
    match f.cache.slot[H5AC_HASH env f old_addr]?, f.cache.slot[H5AC_HASH env f new_addr]? with
    | some s_old, some s_new =>
      if s_old.type = type ∧ H5F_addr_eq s_old.addr old_addr = true then
        match (if H5AC_HASH env f new_addr ≠ H5AC_HASH env f old_addr then
            make_room env f (H5AC_HASH env f new_addr) s_new type new_addr
          else .ret true f) with
        | .undefined => .undefined
        | .fatal g => .fatal g
        | .ret false g => .ret (-1) g
        | .ret true g =>
          .ret 0 (move_entry g (H5AC_HASH env f old_addr) (H5AC_HASH env f new_addr)
            s_old new_addr)
      else .ret 0 f
    | _, _ => .undefined

/-- Modelled from the spec: rounding of the size hint is done in `H5AC.c`, which is not
part of the sources. Section 3: the slot count is the hint rounded up to a prime. -/
def prime_round (n : Nat) : Nat :=
  Nat.find (Nat.exists_infinite_primes n)

/-- An empty slot of a new table. -/
def empty_slot : H5AC_slot_t :=
  { type := 0, addr := { offset := 0 }, thing := 0, prot := [] }

/-- Modelled from the spec: `H5AC_create` is only declared in the header (line 118).
Section 4.4 (create): allocate the slot table, of the prime-rounded size at least
`size_hint` and of the default `H5AC_NSLOTS` when no positive hint is given, with all
slots empty; set the diagnostics to zero; publish the cache on the file. -/
def H5AC_create (f : H5F_t σ) (size_hint : Int) : Result σ Int :=
  let n := if size_hint < 1 then H5AC_NSLOTS else prime_round size_hint.toNat
  .ret 0 { f with cache :=
    { nslots := n, slot := List.replicate n empty_slot, nprots := 0,
      diagnostics := List.replicate H5AC_subid_t.H5AC_NTYPES.val
        { nhits := 0, nmisses := 0, ninits := 0, nflushes := 0 } } }

/-- The operations of the cache facade with their arguments. -/
inductive Op where
  | create (size_hint : Int)
  | find (type : ClassPtr) (addr : haddr_t) (udata1 udata2 : Nat)
  | set (type : ClassPtr) (addr : haddr_t) (thing : ThingPtr)
  | protect (type : ClassPtr) (addr : haddr_t) (udata1 udata2 : Nat)
  | unprotect (type : ClassPtr) (addr : haddr_t) (thing : ThingPtr)
  | flush (type : ClassPtr) (addr : Option haddr_t) (destroy : Bool)
  | rename (type : ClassPtr) (old_addr new_addr : haddr_t)

/-- Forgetting the returned value of a call. -/
def Result.forget {α : Type} : Result σ α → Result σ Unit
  | .ret _ f => .ret () f
  | .fatal f => .fatal f
  | .undefined => .undefined

/-- One operation applied to a file; `find` is the inlined `H5AC_find` over
`H5AC_find_f`. -/
def apply_op (env : Env σ) (f : H5F_t σ) : Op → Result σ Unit
  | .create h => (H5AC_create f h).forget
  | .find t a u1 u2 => (H5AC_find env (H5AC_find_f env) f t a u1 u2).forget
  | .set t a o => (H5AC_set env f t a o).forget
  | .protect t a u1 u2 => (H5AC_protect env f t a u1 u2).forget
  | .unprotect t a o => (H5AC_unprotect env f t a o).forget
  | .flush t a d => (H5AC_flush env f t a d).forget
  | .rename t a b => (H5AC_rename env f t a b).forget

/-- A sequence of operations applied in program order. A fatal error stops the
process: the remaining operations do not run. -/
def run_ops (env : Env σ) : List Op → H5F_t σ → Result σ Unit
  | [], f => .ret () f
  | op :: rest, f =>
    match apply_op env f op with
    | .ret _ g => run_ops env rest g
    | .fatal g => .fatal g
    | .undefined => .undefined

/-- Representation invariant of a cache with `n` slots: `nslots` is `n`, the table has
`n` slots, `n` is positive, the diagnostics array has its declared length, every
non-empty slot holds a registered descriptor, and (I1) every non-empty slot sits at the
index of its address. -/
structure Inv (env : Env σ) (n : Nat) (c : H5AC_t) : Prop where
  nslots_eq : c.nslots = n
  len : c.slot.length = n
  pos : 1 ≤ n
  dlen : c.diagnostics.length = H5AC_subid_t.H5AC_NTYPES.val
  reg : ∀ (i : Nat) (s : H5AC_slot_t), c.slot[i]? = some s → s.type ≠ 0 →
    env.registered s.type = true
  idx : ∀ (i : Nat) (s : H5AC_slot_t), c.slot[i]? = some s → s.type ≠ 0 →
    env.hash s.addr % n = i

/-- The call came back to its caller or stopped on a fatal error, in a state satisfying
`P`; undefined behaviour is excluded. -/
def Result.good {α : Type} (P : H5F_t σ → Prop) : Result σ α → Prop
  | .ret _ g => P g
  | .fatal g => P g
  | .undefined => False

/-- The operation is the inlined lookup called with the `NULL` descriptor. -/
def Op.null_find : Op → Bool
  | .find t _ _ _ => t == 0
  | _ => false

/-! ## Concrete configurations

The configuration of the end-to-end scenarios of section 8: sixteen slots, the address
hash is the offset, and a kind `K` whose descriptor object sits at address `100`. A
second descriptor object with the same three members sits at address `200` and is not
registered. -/

/-- Environment of the scenarios: 32-bit `uintn`, `hash(a) = a`, descriptor memory with
two objects of equal content, of which only the one at `100` is registered; the loader
of `K` returns the object `1000 + offset` for offsets below 1000 and fails (`NULL`)
above, the flusher succeeds. -/
def demo_env : Env Unit :=
  { uintn_bits := 32
    hash := fun a => a.offset
    class_mem := fun p =>
      if p = 100 ∨ p = 200 then some { id := .H5AC_BT_ID, load := 1, flush := 2 } else none
    registry := [100]
    call_load := fun _ d a _ _ => (if a.offset < 1000 then 1000 + a.offset else 0, d)
    call_flush := fun _ d _ _ _ => (0, d) }

/-- Four zeroed diagnostics records. -/
def demo_diag : List H5AC_diag_t :=
  List.replicate 4 { nhits := 0, nmisses := 0, ninits := 0, nflushes := 0 }

/-- Sixteen empty slots. -/
def demo_empty : H5F_t Unit :=
  { disk := (), cache :=
      { nslots := 16, slot := List.replicate 16 empty_slot, nprots := 0,
        diagnostics := demo_diag } }

/-- The file of the scenario after the cold `find(K, 5)`: slot 5 holds `(K, 5, 1005)`. -/
def demo_file : H5F_t Unit :=
  put_slot demo_empty 5 { type := 100, addr := { offset := 5 }, thing := 1005, prot := [] }

/-- Like `demo_file`, with the hit counter of kind 0 at the largest 32-bit value. -/
def demo_saturated : H5F_t Unit :=
  { demo_file with cache := { demo_file.cache with diagnostics :=
      (demo_diag.set 0 { nhits := 4294967295, nmisses := 0, ninits := 0, nflushes := 0 }) } }

/-- The empty scenario cache with the miss counter of kind 0 at the largest 32-bit
value. -/
def demo_missed : H5F_t Unit :=
  { demo_empty with cache := { demo_empty.cache with diagnostics :=
      (demo_diag.set 0 { nhits := 0, nmisses := 4294967295, ninits := 0, nflushes := 0 }) } }

/-- The scenario cache with slot 7 set to `s7`, `nprots` protected objects and the
counters `d0` for kind 0. -/
def demo_with (s7 : H5AC_slot_t) (nprots : Nat) (d0 : H5AC_diag_t) : H5F_t Unit :=
  { disk := (), cache :=
      { nslots := 16, slot := (List.replicate 16 empty_slot).set 7 s7, nprots := nprots,
        diagnostics := demo_diag.set 0 d0 } }

/-- The protect record of `(K, 7, 1007)`. -/
def demo_rec : H5AC_prot_t :=
  { type := 100, addr := { offset := 7 }, thing := 1007 }

/-- Slot 7 holding `(K, 7, 1007)` with the protect-set `l`. -/
def demo_slot7 (l : List H5AC_prot_t) : H5AC_slot_t :=
  { type := 100, addr := { offset := 7 }, thing := 1007, prot := l }

/-- Scenario 4 after `protect(K, 7)` on the empty cache. -/
def demo_pinned : H5F_t Unit :=
  demo_with (demo_slot7 [demo_rec]) 1 { nhits := 0, nmisses := 1, ninits := 1, nflushes := 0 }

/-- Content of a slot as the specification sees it (section 3): empty, or the tuple
`{type, addr, object}`. The stale address left in an emptied slot is no part of it. -/
def entry_of (s : H5AC_slot_t) : Option (ClassPtr × haddr_t × ThingPtr) :=
  if s.type = 0 then none else some (s.type, s.addr, s.thing)

/-- The scenario cache with slots 3 and 4 set to `s3` and `s4`, no protected object and
the counters `d0` for kind 0. -/
def demo_two (s3 s4 : H5AC_slot_t) (d0 : H5AC_diag_t) : H5F_t Unit :=
  { disk := (), cache :=
      { nslots := 16, slot := ((List.replicate 16 empty_slot).set 3 s3).set 4 s4, nprots := 0,
        diagnostics := demo_diag.set 0 d0 } }

/-- The scenario file after the cold `find(K, 5)` and `2^32 - 1` hits: slot 5 holds
`(K, 5, 1005)` and the counters of kind 0 are 4294967295 hits, 1 miss, 1 load. -/
def demo_hits : H5F_t Unit :=
  { demo_file with cache := { demo_file.cache with diagnostics :=
      (demo_diag.set 0 { nhits := 4294967295, nmisses := 1, ninits := 1, nflushes := 0 }) } }

end H5AC

/-!
# Test utilities: embedding of `H5_api_test_util.c` and `H5_api_test_parallel.c`

The C library (`malloc`, `snprintf`, `rand`), MPI and the HDF5 library proper are outside
these two files. Their calls are kept as calls: what they return is given by the
environment, and nothing is assumed about it beyond the stated C semantics of `malloc`
(`NULL` on failure) and `snprintf` (bounded, NUL-terminated output).
-/

namespace H5_api_test

/-! ## Strings and `prefix_filename` / `remove_test_file` (H5_api_test_util.c, 720-795) -/

/-- Value `SUCCEED` of `herr_t`. -/
def SUCCEED : Int := 0

/-- Value `FAIL` of `herr_t`. -/
def FAIL : Int := -1

/-- A `const char *` argument: `none` is `NULL`, otherwise the characters before the
terminating NUL. -/
abbrev CString := Option (List Char)

/-- A `char *` pointing to an allocated buffer: `none` is `NULL`, otherwise the address
of the buffer and the string it holds. -/
abbrev CBuffer := Option (Nat × List Char)

/-- The call `snprintf(buf, size, "%s%s", a, b)` with `size >= 1`: the buffer receives
the first `size - 1` characters of `a` followed by `b`, then a NUL. -/
def snprintf_ss (size : Nat) (a b : List Char) : List Char :=
  (a ++ b).take (size - 1)

/-- Function `prefix_filename` (lines 725-759). `max_len` is the constant
`H5_API_TEST_FILENAME_MAX_LENGTH` (defined in `H5_api_test.h`, not part of the sources);
`malloc` gives the address returned for a request of that many bytes, `none` being
`NULL`. `filename_out` is `none` for a `NULL` pointer, otherwise the current value of
`*filename_out`. The result is the returned value and the value of `*filename_out`
after the call. -/
def prefix_filename (max_len : Nat) (malloc : Nat → Option Nat) (prefix_p filename : CString)
    (filename_out : Option CBuffer) : Int × Option CBuffer :=
  match prefix_p with
  | none => (FAIL, filename_out)
  | some p =>
    match filename with
    | none => (FAIL, filename_out)
    | some [] => (FAIL, filename_out)
    | some (c :: cs) =>
      match filename_out with
      | none => (FAIL, none)
      | some _ =>
        match malloc max_len with
        | none => (FAIL, filename_out)
        | some out_buf => (SUCCEED, some (some (out_buf, snprintf_ss max_len p (c :: cs))))

/-- Function `remove_test_file` (lines 766-795). `H5Fdelete` gives the value the library
call returns for a file name. The result is the returned value and the list of the
arguments with which `H5Fdelete` was called. -/
def remove_test_file (max_len : Nat) (malloc : Nat → Option Nat) (H5Fdelete : CString → Int)
    (prefix_p filename : CString) : Int × List CString :=
  match prefix_p with
  | some p =>
    let r := prefix_filename max_len malloc (some p) filename (some none)
    if r.1 < 0 then (FAIL, [])
    else
      let test_file : CString := (r.2.bind id).map (fun b => b.2)
      if H5Fdelete test_file < 0 then (FAIL, [test_file]) else (SUCCEED, [test_file])
  | none =>
    if H5Fdelete filename < 0 then (FAIL, [filename]) else (SUCCEED, [filename])

/-! ## `generate_random_parallel_dimensions` (H5_api_test_parallel.c, 135-170) -/

/-- Conversion of a non-wide signed integer to `hsize_t` (64-bit unsigned). -/
def to_hsize (x : Int) : Nat :=
  (x % 2 ^ 64).toNat

/-- What `generate_random_parallel_dimensions` takes from outside: the values returned
by successive `rand()` calls, the constant `MAX_DIM_SIZE` (`H5_api_test.h`, not part of
the sources), the globals `mpi_size` and `MAINPROCESS` (`mpi_rank == 0`), whether
`HDmalloc` succeeds, the content of the fresh buffer, and `MPI_Bcast`: the buffer after
a successful broadcast, `none` for a failed one. -/
structure ParEnv where
  rand : Nat → Nat
  MAX_DIM_SIZE : Nat
  mpi_size : Int
  MAINPROCESS : Bool
  malloc_ok : Bool
  fresh : List Nat
  MPI_Bcast : List Nat → Option (List Nat)

/-- The loop of lines 147-152 from index `i`, with `k` iterations left: `dims` holds the
elements written so far and `pos` counts the `rand()` calls made. -/
def fill_dims (e : ParEnv) : Nat → Nat → List Nat → Nat → List Nat × Nat
  | 0, _, dims, pos => (dims, pos)
  | k + 1, i, dims, pos =>
    if i = 0 then fill_dims e k (i + 1) (dims ++ [to_hsize e.mpi_size]) pos
    else fill_dims e k (i + 1) (dims ++ [e.rand pos % e.MAX_DIM_SIZE + 1]) (pos + 1)

/-- Function `generate_random_parallel_dimensions` (lines 135-170). `dims_out` is the
current value of `*dims_out`; the result is the returned value, the value of
`*dims_out` after the call and the number of `rand()` calls made so far. -/
def generate_random_parallel_dimensions (e : ParEnv) (space_rank : Int)
    (dims_out : Option (List Nat)) (pos : Nat) : Int × Option (List Nat) × Nat :=
  if space_rank ≤ 0 then (-1, dims_out, pos)
  else if e.malloc_ok = false then (-1, dims_out, pos)
  else
    let filled := if e.MAINPROCESS then fill_dims e space_rank.toNat 0 [] pos else (e.fresh, pos)
    match e.MPI_Bcast filled.1 with
    | none => (-1, dims_out, filled.2)
    | some dims => (0, some dims, filled.2)

/-! ## `generate_random_dataspace` (H5_api_test_util.c, 601-637) -/

/-- Constant `H5I_INVALID_HID` of the public header `H5Ipublic.h` of the library (not
part of the sources): `(-1)`. -/
def H5I_INVALID_HID : Int := -1

/-- Constant `COMPACT_SPACE_MAX_DIM_SIZE` (line 76). -/
def COMPACT_SPACE_MAX_DIM_SIZE : Nat := 4

/-- Constant `COMPACT_SPACE_MAX_DIMS` (line 77). -/
def COMPACT_SPACE_MAX_DIMS : Int := 3

/-- What `generate_random_dataspace` takes from outside: `rand()`, the constants
`MAX_DIM_SIZE` (`H5_api_test.h`) and `H5S_MAX_RANK` (`H5Spublic.h`), neither part of the
sources, and the value `H5Screate_simple` returns. -/
structure SpaceEnv where
  rand : Nat → Nat
  MAX_DIM_SIZE : Nat
  H5S_MAX_RANK : Nat
  H5Screate_simple : Int → List Nat → Option (List Nat) → Int

/-- Outcome of `generate_random_dataspace`: undefined behaviour (a write past the end of
an array), or the returned id, the content of the `dims_out` array, the
`H5Screate_simple` calls made (rank, dimensions, `max_dims`) and the number of `rand()`
calls made so far. -/
inductive SpaceOutcome where
  | undefined
  | ret (id : Int) (dims_out : Option (List Nat))
      (calls : List (Int × List Nat × Option (List Nat))) (pos : Nat)
  deriving DecidableEq

/-- The loop of lines 620-628 from index `i`, with `k` iterations left. `dims` holds the
elements of `dataspace_dims` written so far; that array has `H5S_MAX_RANK` elements, and
`dims_out`, when given, is the caller's array: a write past the end of either is
undefined. -/
def space_loop (e : SpaceEnv) (is_compact : Bool) :
    Nat → Nat → List Nat → Option (List Nat) → Nat → Option (List Nat × Option (List Nat) × Nat)
  | 0, _, dims, dims_out, pos => some (dims, dims_out, pos)
  | k + 1, i, dims, dims_out, pos =>
    if e.H5S_MAX_RANK ≤ i then none
    else
      let v := if is_compact then e.rand pos % COMPACT_SPACE_MAX_DIM_SIZE + 1
        else e.rand pos % e.MAX_DIM_SIZE + 1
      match dims_out with
      | none => space_loop e is_compact k (i + 1) (dims ++ [v]) none (pos + 1)
      | some out =>
        if out.length ≤ i then none
        else space_loop e is_compact k (i + 1) (dims ++ [v]) (some (out.set i v)) (pos + 1)

/-- Function `generate_random_dataspace` (lines 601-637). -/
def generate_random_dataspace (e : SpaceEnv) (rank : Int) (max_dims dims_out : Option (List Nat))
    (is_compact : Bool) (pos : Nat) : SpaceOutcome :=
  if rank < 0 then .ret H5I_INVALID_HID dims_out [] pos
  else if is_compact = true ∧ rank > COMPACT_SPACE_MAX_DIMS then
    .ret H5I_INVALID_HID dims_out [] pos
  else
    match space_loop e is_compact rank.toNat 0 [] dims_out pos with
    | none => .undefined
    | some (dims, out, pos2) =>
      let dataspace_id := e.H5Screate_simple rank dims max_dims
      if dataspace_id < 0 then .ret H5I_INVALID_HID out [(rank, dims, max_dims)] pos2
      else .ret dataspace_id out [(rank, dims, max_dims)] pos2

/-! ## Random datatypes (H5_api_test_util.c, 16-595) -/

/-- Constant `GENERATED_DATATYPE_MAX_SIZE` (line 27). -/
def GENERATED_DATATYPE_MAX_SIZE : Nat := 65536

/-- Constant `COMPACT_DATATYPE_MAX_SIZE` (line 34). -/
def COMPACT_DATATYPE_MAX_SIZE : Nat := 1024

/-- Constant `TYPE_GEN_RECURSION_MAX_DEPTH` (line 39). -/
def TYPE_GEN_RECURSION_MAX_DEPTH : Int := 3

/-- Constant `NUM_PREDEFINED_INT_TYPES` (line 43). -/
def NUM_PREDEFINED_INT_TYPES : Nat := 16

/-- Constant `NUM_PREDEFINED_FLOAT_TYPES` (line 47). -/
def NUM_PREDEFINED_FLOAT_TYPES : Nat := 4

/-- Constant `COMPOUND_TYPE_MAX_MEMBERS` (line 53). -/
def COMPOUND_TYPE_MAX_MEMBERS : Nat := 4

/-- Constant `ARRAY_TYPE_MAX_DIMS` (line 58). -/
def ARRAY_TYPE_MAX_DIMS : Nat := 4

/-- Constant `ENUM_TYPE_MAX_MEMBERS` (line 65). -/
def ENUM_TYPE_MAX_MEMBERS : Nat := 16

/-- Constant `STRING_TYPE_MAX_SIZE` (line 70). -/
def STRING_TYPE_MAX_SIZE : Nat := 1024

/-- The enumerators of `H5T_class_t` (public header `H5Tpublic.h`, not part of the
sources) that the file names. -/
inductive H5T_class_t where
  | H5T_NO_CLASS
  | H5T_INTEGER
  | H5T_FLOAT
  | H5T_TIME
  | H5T_STRING
  | H5T_BITFIELD
  | H5T_OPAQUE
  | H5T_COMPOUND
  | H5T_REFERENCE
  | H5T_ENUM
  | H5T_VLEN
  | H5T_ARRAY
  deriving DecidableEq, Repr

/-- The values a `generate_datatype_func` pointer (line 79) can take: the seven
generators declared on lines 81-87. -/
inductive generate_datatype_func where
  | integer
  | float
  | string
  | compound
  | reference
  | enum
  | array
  deriving DecidableEq, Repr

/-- The calls made to the HDF5 library and to `malloc`, with their arguments. Predefined
datatypes are given by name; the member names `compound_member<i>` and `enum_val<i>` are
given by their index `i`. -/
inductive H5Call where
  | H5Tcopy (type_to_copy : String)
  | H5Tcreate (cls : H5T_class_t) (size : Nat)
  | H5Tset_strpad (id : Int)
  | H5Tset_cset (id : Int)
  | H5Tset_size (id : Int) (size : Nat)
  | H5Tinsert (id : Int) (member : Nat) (offset : Nat) (member_id : Int)
  | H5Tenum_create
  | H5Tenum_insert (id : Int) (member : Nat) (value : Nat)
  | H5Tarray_create2 (base : Int) (ndims : Nat) (dims : List Nat)
  | H5Tclose (id : Int)
  | malloc (size : Nat)

/-- What the generators take from outside. `rand n` is the value of the `n`-th `rand()`
call. `roll_class r` is the case label that `switch (r % H5T_NCLASSES)` reaches for the
`rand()` value `r`, `none` for the `default:` label (the values of the enumerators are in
`H5Tpublic.h`). `MAX_DIM_SIZE` is the constant of `H5_api_test.h`, not part of the
sources, and is meant positive. `call` is the effect of a library call on the library
state `L`: the returned value (negative for a failed call, `0` for a failed `malloc`)
and the new state. `H5Tget_size` is a query of the library state. -/
structure TypeEnv (L : Type) where
  rand : Nat → Nat
  roll_class : Nat → Option H5T_class_t
  MAX_DIM_SIZE : Nat
  call : L → H5Call → Int × L
  H5Tget_size : L → Int → Nat

/-- What the generators other than `generate_random_datatype` can change: the number of
`rand()` calls made and the library state. -/
structure World (L : Type) where
  nrand : Nat
  lib : L

/-- State of the generation: the world, the `static int depth` of
`generate_random_datatype` (line 99), and two observers that no code reads:
`depth_max`, the largest value `depth` has taken, and `selected`, the pairs
`(parent_class, gen_func)` of the calls `(gen_func)(parent_class, is_compact)` made on
line 175, oldest first. -/
structure GenState (L : Type) where
  world : World L
  depth : Int
  depth_max : Int
  selected : List (H5T_class_t × generate_datatype_func)

variable {L : Type}

/-- One `rand()` call. -/
def World.rand (e : TypeEnv L) (w : World L) : Nat × World L :=
  (e.rand w.nrand, { w with nrand := w.nrand + 1 })

/-- One library call. -/
def World.call (e : TypeEnv L) (w : World L) (c : H5Call) : Int × World L :=
  ((e.call w.lib c).1, { w with lib := (e.call w.lib c).2 })

/-- The tail `done:` of the generators: `H5Tclose(datatype)` when the datatype was
created (`datatype >= 0`) and the generator fails; the value is `H5I_INVALID_HID`. -/
def fail_closing (e : TypeEnv L) (w : World L) (datatype : Int) : Int × World L :=
  (H5I_INVALID_HID, (w.call e (.H5Tclose datatype)).2)

/-- The `switch` of `generate_random_datatype_integer` (lines 220-272). -/
def predefined_int : Nat → Option String
  | 0 => some "H5T_STD_I8BE"
  | 1 => some "H5T_STD_I8LE"
  | 2 => some "H5T_STD_I16BE"
  | 3 => some "H5T_STD_I16LE"
  | 4 => some "H5T_STD_I32BE"
  | 5 => some "H5T_STD_I32LE"
  | 6 => some "H5T_STD_I64BE"
  | 7 => some "H5T_STD_I64LE"
  | 8 => some "H5T_STD_U8BE"
  | 9 => some "H5T_STD_U8LE"
  | 10 => some "H5T_STD_U16BE"
  | 11 => some "H5T_STD_U16LE"
  | 12 => some "H5T_STD_U32BE"
  | 13 => some "H5T_STD_U32LE"
  | 14 => some "H5T_STD_U64BE"
  | 15 => some "H5T_STD_U64LE"
  | _ => none

/-- The `switch` of `generate_random_datatype_float` (lines 297-314). -/
def predefined_float : Nat → Option String
  | 0 => some "H5T_IEEE_F32BE"
  | 1 => some "H5T_IEEE_F32LE"
  | 2 => some "H5T_IEEE_F64BE"
  | 3 => some "H5T_IEEE_F64LE"
  | _ => none

/-- Lines 274-287, shared by the generators that copy a predefined type. -/
def copy_predefined (e : TypeEnv L) (w : World L) : Option String → Int × World L
  | none => (H5I_INVALID_HID, w)
  | some t =>
    let r := w.call e (.H5Tcopy t)
    if r.1 < 0 then (H5I_INVALID_HID, r.2) else r

/-- Function `generate_random_datatype_integer` (lines 213-288). -/
def generate_random_datatype_integer (e : TypeEnv L) (w : World L) : Int × World L :=
  let r := w.rand e
  copy_predefined e r.2 (predefined_int (r.1 % NUM_PREDEFINED_INT_TYPES))

/-- Function `generate_random_datatype_float` (lines 290-330). -/
def generate_random_datatype_float (e : TypeEnv L) (w : World L) : Int × World L :=
  let r := w.rand e
  copy_predefined e r.2 (predefined_float (r.1 % NUM_PREDEFINED_FLOAT_TYPES))

/-- Function `generate_random_datatype_string` (lines 332-387), the disabled
variable-length branch left out as the preprocessor leaves it out. -/
def generate_random_datatype_string (e : TypeEnv L) (w : World L) : Int × World L :=
  let r := w.rand e
  let c := r.2.call e (.H5Tcreate .H5T_STRING (r.1 % STRING_TYPE_MAX_SIZE + 1))
  if c.1 < 0 then (H5I_INVALID_HID, c.2)
  else
    let p := c.2.call e (.H5Tset_strpad c.1)
    if p.1 < 0 then fail_closing e p.2 c.1
    else
      let q := p.2.call e (.H5Tset_cset c.1)
      if q.1 < 0 then fail_closing e q.2 c.1 else (c.1, q.2)

/-- Function `generate_random_datatype_reference` (lines 457-490), the disabled region
branch left out. -/
def generate_random_datatype_reference (e : TypeEnv L) (w : World L) : Int × World L :=
  copy_predefined e w (some "H5T_STD_REF_OBJ")

/-- The `do ... while (!unique)` loop of lines 519-527: `rand()` values are drawn until
one differs from all earlier member values. `none` when the loop is still running after
`fuel` draws. -/
def unique_enum_val (e : TypeEnv L) (vals : List Nat) : Nat → World L → Option Nat × World L
  | 0, w => (none, w)
  | fuel + 1, w =>
    let r := w.rand e
    if vals.all (fun x => x != r.1) then (some r.1, r.2) else unique_enum_val e vals fuel r.2

/-- The member loop of lines 512-535 from index `i`, with `k` iterations left. The value
is `some true` when all members were inserted, `some false` on a failed insertion,
`none` when the fuel ran out. -/
def enum_loop (e : TypeEnv L) (fuel : Nat) (datatype : Int) :
    Nat → Nat → List Nat → World L → Option Bool × World L
  | 0, _, _, w => (some true, w)
  | k + 1, i, vals, w =>
    match unique_enum_val e vals fuel w with
    | (none, w1) => (none, w1)
    | (some v, w1) =>
      let r := w1.call e (.H5Tenum_insert datatype i v)
      if r.1 < 0 then (some false, r.2) else enum_loop e fuel datatype k (i + 1) (vals ++ [v]) r.2

/-- Function `generate_random_datatype_enum` (lines 492-548); `sizeof(int)` is 4. The
value is `none` when the fuel ran out. -/
def generate_random_datatype_enum (e : TypeEnv L) (fuel : Nat) (w : World L) :
    Option Int × World L :=
  let c := w.call e .H5Tenum_create
  if c.1 < 0 then (some H5I_INVALID_HID, c.2)
  else
    let r := c.2.rand e
    let m := r.2.call e (.malloc ((r.1 % ENUM_TYPE_MAX_MEMBERS + 1) * 4))
    if m.1 = 0 then (some H5I_INVALID_HID, (fail_closing e m.2 c.1).2)
    else
      match enum_loop e fuel c.1 (r.1 % ENUM_TYPE_MAX_MEMBERS + 1) 0 [] m.2 with
      | (none, w1) => (none, w1)
      | (some false, w1) => (some H5I_INVALID_HID, (fail_closing e w1 c.1).2)
      | (some true, w1) => (some c.1, w1)

/-- A change of the world inside a generation state. -/
def GenState.with_world (s : GenState L) (w : World L) : GenState L :=
  { s with world := w }

/-- The member loop of `generate_random_datatype_compound` (lines 409-438) from index
`i`, with `k` iterations left; `gen` is the call
`generate_random_datatype(H5T_COMPOUND, is_compact)`. `csize` is `compound_size`,
`off` is `next_offset` (both `size_t`, 64-bit) and `members` holds the elements of
`compound_members` assigned so far. The value is `some true` when the loop ended,
`some false` on a `goto done`, `none` when the fuel ran out. -/
def compound_loop (e : TypeEnv L) (gen : GenState L → Option Int × GenState L)
    (datatype : Int) :
    Nat → Nat → Nat → Nat → List Int → GenState L → Option Bool × List Int × GenState L
  | 0, _, _, _, members, s => (some true, members, s)
  | k + 1, i, csize, off, members, s =>
    match gen s with
    | (none, s1) => (none, members, s1)
    | (some m, s1) =>
      if m < 0 then (some false, members ++ [m], s1)
      else if e.H5Tget_size s1.world.lib m = 0 then (some false, members ++ [m], s1)
      else
        let r := s1.world.call e
          (.H5Tset_size datatype ((csize + e.H5Tget_size s1.world.lib m) % 2 ^ 64))
        if r.1 < 0 then (some false, members ++ [m], s1.with_world r.2)
        else
          let q := r.2.call e (.H5Tinsert datatype i off m)
          if q.1 < 0 then (some false, members ++ [m], s1.with_world q.2)
          else
            compound_loop e gen datatype k (i + 1)
              ((csize + e.H5Tget_size s1.world.lib m) % 2 ^ 64)
              ((off + e.H5Tget_size s1.world.lib m) % 2 ^ 64) (members ++ [m])
              (s1.with_world q.2)

/-- The loop of lines 443-447: every assigned element of `compound_members` that is
positive is closed. -/
def close_members (e : TypeEnv L) : List Int → World L → World L
  | [], w => w
  | m :: rest, w =>
    if m > 0 then close_members e rest (w.call e (.H5Tclose m)).2 else close_members e rest w

/-- Function `generate_random_datatype_compound` (lines 389-455); `gen` is
`generate_random_datatype`. -/
def generate_random_datatype_compound (e : TypeEnv L)
    (gen : H5T_class_t → Bool → GenState L → Option Int × GenState L)
    (_parent_class : H5T_class_t) (is_compact : Bool) (s : GenState L) :
    Option Int × GenState L :=
  let c := s.world.call e (.H5Tcreate .H5T_COMPOUND 1)
  if c.1 < 0 then (some H5I_INVALID_HID, s.with_world c.2)
  else
    let r := c.2.rand e
    match compound_loop e (gen .H5T_COMPOUND is_compact) c.1
        (r.1 % COMPOUND_TYPE_MAX_MEMBERS + 1) 0 0 0 [] (s.with_world r.2) with
    | (none, _, s1) => (none, s1)
    | (some false, members, s1) =>
      (some H5I_INVALID_HID,
        s1.with_world (fail_closing e (close_members e members s1.world) c.1).2)
    | (some true, members, s1) =>
      (some c.1, s1.with_world (close_members e members s1.world))

/-- The loop of lines 566-567 with `k` iterations left. -/
def array_dims_loop (e : TypeEnv L) : Nat → List Nat → World L → List Nat × World L
  | 0, dims, w => (dims, w)
  | k + 1, dims, w =>
    array_dims_loop e k (dims ++ [(w.rand e).1 % e.MAX_DIM_SIZE + 1]) (w.rand e).2

/-- Function `generate_random_datatype_array` (lines 550-595); `gen` is
`generate_random_datatype`; `sizeof(hsize_t)` is 8. -/
def generate_random_datatype_array (e : TypeEnv L)
    (gen : H5T_class_t → Bool → GenState L → Option Int × GenState L)
    (_parent_class : H5T_class_t) (is_compact : Bool) (s : GenState L) :
    Option Int × GenState L :=
  let r := s.world.rand e
  let m := r.2.call e (.malloc ((r.1 % ARRAY_TYPE_MAX_DIMS + 1) * 8))
  if m.1 = 0 then (some H5I_INVALID_HID, s.with_world m.2)
  else
    let d := array_dims_loop e (r.1 % ARRAY_TYPE_MAX_DIMS + 1) [] m.2
    match gen .H5T_ARRAY is_compact (s.with_world d.2) with
    | (none, s1) => (none, s1)
    | (some base, s1) =>
      if base < 0 then (some H5I_INVALID_HID, s1)
      else
        let a := s1.world.call e (.H5Tarray_create2 base (r.1 % ARRAY_TYPE_MAX_DIMS + 1) d.1)
        let w2 := (a.2.call e (.H5Tclose base)).2
        if a.1 < 0 then (some H5I_INVALID_HID, s1.with_world w2)
        else (some a.1, s1.with_world w2)

/-- Where one pass through the `switch` of lines 107-173 ends: at the call of a
generator, back at the label `roll_datatype`, or at the label `done`. -/
inductive Choice where
  | gen (f : generate_datatype_func)
  | reroll
  | done
  deriving DecidableEq, Repr

/-- The `switch` of `generate_random_datatype` (lines 107-173) for the case label `c`
(`none`: the `default:` label), with the current values of `parent_class` and `depth`. -/
def choose_generator (parent_class : H5T_class_t) (depth : Int) : Option H5T_class_t → Choice
  | some .H5T_INTEGER => .gen .integer
  | some .H5T_FLOAT => .gen .float
  | some .H5T_TIME => .reroll
  | some .H5T_STRING => .gen .string
  | some .H5T_BITFIELD => .reroll
  | some .H5T_OPAQUE => .reroll
  | some .H5T_COMPOUND =>
    if parent_class = .H5T_ARRAY ∨ depth + 1 > TYPE_GEN_RECURSION_MAX_DEPTH then .reroll
    else .gen .compound
  | some .H5T_REFERENCE => .reroll
  | some .H5T_ENUM => if parent_class = .H5T_ARRAY then .reroll else .gen .enum
  | some .H5T_VLEN => .reroll
  | some .H5T_ARRAY =>
    if parent_class = .H5T_ARRAY ∨ depth + 1 > TYPE_GEN_RECURSION_MAX_DEPTH then .reroll
    else .gen .array
  | some .H5T_NO_CLASS => .done
  | none => .done

/-- The call `(gen_func)(parent_class, is_compact)` of line 175; `fuel` bounds the
`do ... while` loop of the enumeration generator. -/
def call_generator (e : TypeEnv L)
    (gen : H5T_class_t → Bool → GenState L → Option Int × GenState L) (fuel : Nat)
    (gen_func : generate_datatype_func) (parent_class : H5T_class_t) (is_compact : Bool)
    (s : GenState L) : Option Int × GenState L :=
  match gen_func with
  | .integer =>
    (some (generate_random_datatype_integer e s.world).1,
      s.with_world (generate_random_datatype_integer e s.world).2)
  | .float =>
    (some (generate_random_datatype_float e s.world).1,
      s.with_world (generate_random_datatype_float e s.world).2)
  | .string =>
    (some (generate_random_datatype_string e s.world).1,
      s.with_world (generate_random_datatype_string e s.world).2)
  | .reference =>
    (some (generate_random_datatype_reference e s.world).1,
      s.with_world (generate_random_datatype_reference e s.world).2)
  | .enum =>
    ((generate_random_datatype_enum e fuel s.world).1,
      s.with_world (generate_random_datatype_enum e fuel s.world).2)
  | .compound => generate_random_datatype_compound e gen parent_class is_compact s
  | .array => generate_random_datatype_array e gen parent_class is_compact s

/-- The label `done:` of `generate_random_datatype` (lines 207-210): `depth--`. -/
def leave (s : GenState L) : GenState L :=
  { s with depth := s.depth - 1 }

/-- The body of `generate_random_datatype` from the label `roll_datatype` (line 106) to
the `return`, `gen` being the function itself for the recursive calls made by the
compound and array generators. Each pass through the label uses one unit of fuel; the
value is `none` when the fuel ran out. -/
def roll_datatype (e : TypeEnv L)
    (gen : H5T_class_t → Bool → GenState L → Option Int × GenState L)
    (parent_class : H5T_class_t) (is_compact : Bool) :
    Nat → GenState L → Option Int × GenState L
  | 0, s => (none, s)
  | fuel + 1, s =>
    match choose_generator parent_class s.depth (e.roll_class (s.world.rand e).1) with
    | .reroll => roll_datatype e gen parent_class is_compact fuel (s.with_world (s.world.rand e).2)
    | .done => (some H5I_INVALID_HID, leave (s.with_world (s.world.rand e).2))
    | .gen gen_func =>
      match call_generator e gen fuel gen_func parent_class is_compact
          { s with world := (s.world.rand e).2,
                   selected := s.selected ++ [(parent_class, gen_func)] } with
      | (none, s1) => (none, s1)
      | (some datatype, s1) =>
        if datatype < 0 then (some H5I_INVALID_HID, leave s1)
        else if s1.depth = 1 then
          if e.H5Tget_size s1.world.lib datatype = 0 then
            (some H5I_INVALID_HID, leave (s1.with_world (s1.world.call e (.H5Tclose datatype)).2))
          else if e.H5Tget_size s1.world.lib datatype > GENERATED_DATATYPE_MAX_SIZE ∨
              (is_compact = true ∧
                e.H5Tget_size s1.world.lib datatype > COMPACT_DATATYPE_MAX_SIZE) then
            roll_datatype e gen parent_class is_compact fuel
              (s1.with_world (s1.world.call e (.H5Tclose datatype)).2)
          else (some datatype, leave s1)
        else (some datatype, leave s1)

/-- Function `generate_random_datatype` (lines 95-211): `depth++`, then the body from
`roll_datatype`. The fuel bounds the nesting of calls and, in each call, the number of
passes through `roll_datatype`; the value is `none` when it ran out. -/
def generate_random_datatype (e : TypeEnv L) :
    Nat → H5T_class_t → Bool → GenState L → Option Int × GenState L
  | 0, _, _, s => (none, s)
  | fuel + 1, parent_class, is_compact, s =>
    roll_datatype e (generate_random_datatype e fuel) parent_class is_compact fuel
      { s with depth := s.depth + 1, depth_max := max s.depth_max (s.depth + 1) }

/-- The generators that the claim on the selection lets a call with parent class `p`
reach: never the reference one, and with an array as parent only the integer, float and
string ones. -/
def allowed (p : H5T_class_t) (g : generate_datatype_func) : Prop :=
  g ≠ .reference ∧ (p = .H5T_ARRAY → g = .integer ∨ g = .float ∨ g = .string)

/-- Every generator call recorded so far was an allowed one. -/
def GoodLog (s : GenState L) : Prop :=
  ∀ x ∈ s.selected, allowed x.1 x.2

/-- What a call that starts in `s` and is in `s'` when it returns (`returned`) or when
the fuel ran out keeps: `depth` is back at its value on entry when the call returned;
`depth` has stayed within `TYPE_GEN_RECURSION_MAX_DEPTH` if it had before and the call
was entered with `depth` at most 2; the recorded generator calls are allowed ones if
they were before. -/
structure Keeps (s s' : GenState L) (returned : Prop) : Prop where
  depth_eq : returned → s'.depth = s.depth
  max_le : s.depth ≤ 2 → s.depth_max ≤ TYPE_GEN_RECURSION_MAX_DEPTH →
    s'.depth_max ≤ TYPE_GEN_RECURSION_MAX_DEPTH
  log_ok : GoodLog s → GoodLog s'

/-- A library for the examples: the sizes of the datatypes created so far (the
identifier of the `n`-th one is `n`, counted from 1) and the identifiers closed so far. -/
structure DemoLib where
  sizes : List Nat
  closed : List Int
  deriving DecidableEq, Repr

/-- A new datatype of the given size. -/
def DemoLib.create (l : DemoLib) (size : Nat) : Int × DemoLib :=
  ((l.sizes.length : Int) + 1, { l with sizes := l.sizes ++ [size] })

/-- The size of a datatype of the example library, 0 for an unknown identifier. -/
def demo_size (l : DemoLib) (id : Int) : Nat :=
  if id ≤ 0 then 0 else l.sizes.getD (id.toNat - 1) 0

/-- The calls of the example library: no call fails, every predefined type has 8 bytes,
an enumeration has 4, an array has the size of its base type times its dimensions. -/
def demo_call (l : DemoLib) : H5Call → Int × DemoLib
  | .H5Tcopy _ => l.create 8
  | .H5Tcreate _ size => l.create size
  | .H5Tset_strpad _ => (0, l)
  | .H5Tset_cset _ => (0, l)
  | .H5Tset_size id size => (0, { l with sizes := l.sizes.set (id.toNat - 1) size })
  | .H5Tinsert _ _ _ _ => (0, l)
  | .H5Tenum_create => l.create 4
  | .H5Tenum_insert _ _ _ => (0, l)
  | .H5Tarray_create2 base _ dims => l.create (demo_size l base * dims.prod)
  | .H5Tclose id => (0, { l with closed := l.closed ++ [id] })
  | .malloc _ => (1, l)

/-- The case labels for the examples, with the enumerator values of the library header:
`H5T_INTEGER` = 0, ..., `H5T_ARRAY` = 10, `H5T_NCLASSES` = 11. -/
def demo_roll_class (r : Nat) : Option H5T_class_t :=
  match r % 11 with
  | 0 => some .H5T_INTEGER
  | 1 => some .H5T_FLOAT
  | 2 => some .H5T_TIME
  | 3 => some .H5T_STRING
  | 4 => some .H5T_BITFIELD
  | 5 => some .H5T_OPAQUE
  | 6 => some .H5T_COMPOUND
  | 7 => some .H5T_REFERENCE
  | 8 => some .H5T_ENUM
  | 9 => some .H5T_VLEN
  | 10 => some .H5T_ARRAY
  | _ => none

/-- The example environment in which `rand()` returns the elements of `stream` in turn
and 0 after its end, with `MAX_DIM_SIZE` 16. -/
def demo_types (stream : List Nat) : TypeEnv DemoLib :=
  { rand := fun n => stream.getD n 0, roll_class := demo_roll_class, MAX_DIM_SIZE := 16,
    call := demo_call, H5Tget_size := demo_size }

/-- The state before the first call: no `rand()` call made, no datatype created,
`depth` 0. -/
def demo_start : GenState DemoLib :=
  { world := { nrand := 0, lib := { sizes := [], closed := [] } }, depth := 0,
    depth_max := 0, selected := [] }

/-- The state of `demo_start` after the `depth++` of a top-level call. -/
def demo_entered : GenState DemoLib :=
  { demo_start with depth := 1, depth_max := 1 }

/-- A `rand()` stream for the examples: a compound of two strings of 1000 bytes each,
then an integer. -/
def demo_oversized : List Nat := [6, 1, 3, 999, 3, 999, 0, 4]

/-- A `rand()` stream for the examples: an array of two dimensions whose base type is
rolled as compound, array and enumeration before a string is accepted. -/
def demo_array_rolls : List Nat := [10, 1, 5, 5, 6, 10, 8, 3, 7]

/-! ## The table of tests and their selection (H5_api_test_parallel.c, 40-105, 183-191) -/

/-- One row `X(a, b, c, d)` of the list `H5_API_PARALLEL_TESTS`: the enumerator, the
name of the test, the test function (`none` for `NULL`, else the name of the function)
and whether the test is enabled by default. -/
structure TestRow where
  type : String
  name : List Char
  func : Option String
  enabled : Int
  deriving DecidableEq, Repr

/-- The list `H5_API_PARALLEL_TESTS` (lines 46-70), in its two variants: with
`H5_API_TEST_HAVE_ASYNC` defined (`have_async`) and without. -/
def H5_API_PARALLEL_TESTS (have_async : Bool) : List TestRow :=
  if have_async then
    [ ⟨"H5_API_TEST_NULL", [], none, 0⟩,
      ⟨"H5_API_TEST_FILE", ['f', 'i', 'l', 'e'], some "H5_api_file_test_parallel", 1⟩,
      ⟨"H5_API_TEST_GROUP", ['g', 'r', 'o', 'u', 'p'], some "H5_api_group_test_parallel", 1⟩,
      ⟨"H5_API_TEST_DATASET", ['d', 'a', 't', 'a', 's', 'e', 't'],
        some "H5_api_dataset_test_parallel", 1⟩,
      ⟨"H5_API_TEST_DATATYPE", ['d', 'a', 't', 'a', 't', 'y', 'p', 'e'],
        some "H5_api_datatype_test_parallel", 1⟩,
      ⟨"H5_API_TEST_ATTRIBUTE", ['a', 't', 't', 'r', 'i', 'b', 'u', 't', 'e'],
        some "H5_api_attribute_test_parallel", 1⟩,
      ⟨"H5_API_TEST_LINK", ['l', 'i', 'n', 'k'], some "H5_api_link_test_parallel", 1⟩,
      ⟨"H5_API_TEST_OBJECT", ['o', 'b', 'j', 'e', 'c', 't'],
        some "H5_api_object_test_parallel", 1⟩,
      ⟨"H5_API_TEST_MISC", ['m', 'i', 's', 'c'], some "H5_api_misc_test_parallel", 1⟩,
      ⟨"H5_API_TEST_ASYNC", ['a', 's', 'y', 'n', 'c'], some "H5_api_async_test_parallel", 1⟩,
      ⟨"H5_API_TEST_MAX", [], none, 0⟩ ]
  else
    [ ⟨"H5_API_TEST_NULL", [], none, 0⟩,
      ⟨"H5_API_TEST_FILE", ['f', 'i', 'l', 'e'], some "H5_api_file_test_parallel", 1⟩,
      ⟨"H5_API_TEST_GROUP", ['g', 'r', 'o', 'u', 'p'], some "H5_api_group_test_parallel", 1⟩,
      ⟨"H5_API_TEST_DATASET", ['d', 'a', 't', 'a', 's', 'e', 't'],
        some "H5_api_dataset_test_parallel", 1⟩,
      ⟨"H5_API_TEST_DATATYPE", ['d', 'a', 't', 'a', 't', 'y', 'p', 'e'],
        some "H5_api_datatype_test_parallel", 1⟩,
      ⟨"H5_API_TEST_ATTRIBUTE", ['a', 't', 't', 'r', 'i', 'b', 'u', 't', 'e'],
        some "H5_api_attribute_test_parallel", 1⟩,
      ⟨"H5_API_TEST_LINK", ['l', 'i', 'n', 'k'], some "H5_api_link_test_parallel", 1⟩,
      ⟨"H5_API_TEST_OBJECT", ['o', 'b', 'j', 'e', 'c', 't'],
        some "H5_api_object_test_parallel", 1⟩,
      ⟨"H5_API_TEST_MISC", ['m', 'i', 's', 'c'], some "H5_api_misc_test_parallel", 1⟩,
      ⟨"H5_API_TEST_MAX", [], none, 0⟩ ]

/-- The value of an enumerator of `enum H5_api_test_type` (lines 72-74): its position
in the list; the length of the list for a name that is no enumerator. -/
def enum_value (have_async : Bool) (enumerator : String) : Nat :=
  ((H5_API_PARALLEL_TESTS have_async).map (fun r => r.type)).indexOf enumerator

/-- Enumerator `H5_API_TEST_NULL`. -/
def H5_API_TEST_NULL (have_async : Bool) : Nat := enum_value have_async "H5_API_TEST_NULL"

/-- Enumerator `H5_API_TEST_FILE`. -/
def H5_API_TEST_FILE (have_async : Bool) : Nat := enum_value have_async "H5_API_TEST_FILE"

/-- Enumerator `H5_API_TEST_MAX`. -/
def H5_API_TEST_MAX (have_async : Bool) : Nat := enum_value have_async "H5_API_TEST_MAX"

/-- Array `H5_api_test_name` (lines 75-77). -/
def H5_api_test_name (have_async : Bool) : List (List Char) :=
  (H5_API_PARALLEL_TESTS have_async).map (fun r => r.name)

/-- Array `H5_api_test_func` (lines 78-80). -/
def H5_api_test_func (have_async : Bool) : List (Option String) :=
  (H5_API_PARALLEL_TESTS have_async).map (fun r => r.func)

/-- Array `H5_api_test_enabled` (lines 81-83), as initialised. -/
def H5_api_test_enabled (have_async : Bool) : List Int :=
  (H5_API_PARALLEL_TESTS have_async).map (fun r => r.enabled)

/-- The C library function `strcmp` on the characters that two strings have before
their terminating NUL, with the sign of the result as the value. -/
def strcmp : List Char → List Char → Int
  | [], [] => 0
  | [], _ :: _ => -1
  | _ :: _, [] => 1
  | a :: as, b :: bs => if a = b then strcmp as bs else if a.toNat < b.toNat then -1 else 1

/-- Outcome of a piece of the driver: a value, or undefined behaviour (an index outside
an array, a call through a `NULL` pointer). -/
inductive Outcome (α : Type) where
  | undefined
  | ret (v : α)
  deriving DecidableEq, Repr

/-- The `while` loop of `H5_api_test_name_to_type` (lines 91-92) on a table `names` with
`max` for `H5_API_TEST_MAX`, from index `i`. Each pass evaluates
`strcmp(H5_api_test_name[i], test_name)` first, which reads element `i` of the table.
The value is the final `i` with the indices read, in order; `none` when the loop is
still running after `fuel` passes. -/
def name_loop (names : List (List Char)) (max : Nat) (test_name : List Char) :
    Nat → Nat → List Nat → Option (Outcome (Nat × List Nat))
  | 0, _, _ => none
  | fuel + 1, i, reads =>
    match names[i]? with
    | none => some .undefined
    | some n =>
      if strcmp n test_name ≠ 0 ∧ i ≠ max then
        name_loop names max test_name fuel (i + 1) (reads ++ [i])
      else some (.ret (i, reads ++ [i]))

/-- Function `H5_api_test_name_to_type` (lines 86-95): the returned enumeration value
and the indices at which the name table was read. -/
def H5_api_test_name_to_type (have_async : Bool) (test_name : List Char) (fuel : Nat) :
    Option (Outcome (Nat × List Nat)) :=
  match name_loop (H5_api_test_name have_async) (H5_API_TEST_MAX have_async) test_name
      fuel 0 [] with
  | none => none
  | some .undefined => some .undefined
  | some (.ret (i, reads)) =>
    some (.ret (if i = H5_API_TEST_MAX have_async then H5_API_TEST_NULL have_async else i,
      reads))

/-- The loop of `H5_api_test_run` (lines 102-104) from index `i` with `k` iterations
left: the test functions called, in order. -/
def run_loop (have_async : Bool) (enabled : List Int) :
    Nat → Nat → List String → Outcome (List String)
  | 0, _, calls => .ret calls
  | k + 1, i, calls =>
    match enabled[i]? with
    | none => .undefined
    | some en =>
      if en ≠ 0 then
        match (H5_api_test_func have_async)[i]? with
        | some (some f) => run_loop have_async enabled k (i + 1) (calls ++ [f])
        | _ => .undefined
      else run_loop have_async enabled k (i + 1) calls

/-- Function `H5_api_test_run` (lines 97-105) on the current contents of
`H5_api_test_enabled`. -/
def H5_api_test_run (have_async : Bool) (enabled : List Int) : Outcome (List String) :=
  run_loop have_async enabled (H5_API_TEST_MAX have_async - H5_API_TEST_FILE have_async)
    (H5_API_TEST_FILE have_async) []

/-- The argument check of `main` (lines 183-191): the contents of `H5_api_test_enabled`
after it, for the argument vector `argv` (`argc` is its length). -/
def main_select (have_async : Bool) (fuel : Nat) (argv : List (List Char)) :
    Option (Outcome (List Int)) :=
  match argv with
  | _ :: arg :: _ =>
    match H5_api_test_name_to_type have_async arg fuel with
    | none => none
    | some .undefined => some .undefined
    | some (.ret (i, _)) =>
      if i ≠ H5_API_TEST_NULL have_async then
        if i < (H5_api_test_enabled have_async).length then
          some (.ret (((H5_api_test_enabled have_async).map (fun _ => 0)).set i 1))
        else some .undefined
      else some (.ret (H5_api_test_enabled have_async))
  | _ => some (.ret (H5_api_test_enabled have_async))

end H5_api_test

namespace H5AC

variable {σ : Type}

/-! ## Lemmas on the inlined lookup -/

theorem registered_class (env : Env σ) (T : ClassPtr) (h : env.registered T = true) :
    ∃ k, env.class_of T = some k ∧ k.id.val < H5AC_subid_t.H5AC_NTYPES.val := by
  unfold Env.registered at h
  cases hk : env.class_of T with
  | none => simp [hk] at h
  | some k =>
    refine ⟨k, rfl, ?_⟩
    simp [hk] at h
    exact h.2

theorem registered_ne_null (env : Env σ) (T : ClassPtr) (h : env.registered T = true) :
    T ≠ 0 := by
  obtain ⟨k, hk, _⟩ := registered_class env T h
  intro h0
  simp [Env.class_of, h0] at hk

theorem addr_eq_iff (a b : haddr_t) : H5F_addr_eq a b = true ↔ a = b := by
  cases a; cases b; simp [H5F_addr_eq]

theorem find_hit_eq (env : Env σ) (find_f : FindF σ) (f : H5F_t σ) (T : ClassPtr)
    (a : haddr_t) (u1 u2 : Nat) (s : H5AC_slot_t) (k : H5AC_class_t) (d : H5AC_diag_t)
    (hs : f.cache.slot[H5AC_HASH env f a]? = some s) (hT : s.type = T) (ha : s.addr = a)
    (hk : env.class_of T = some k) (hd : f.cache.diagnostics[k.id.val]? = some d) :
    H5AC_find env find_f f T a u1 u2 =
      .ret s.thing { f with cache := { f.cache with diagnostics :=
        (f.cache.diagnostics.set k.id.val { d with nhits := uintn_incr env d.nhits }) } } := by
  have hcond : s.type = T ∧ H5F_addr_eq s.addr a = true := ⟨hT, (addr_eq_iff _ _).2 ha⟩
  simp only [H5AC_find, hs, hcond, and_self, if_true, hk, bump_nhits, diag_update, hd]

theorem find_miss_eq (env : Env σ) (find_f : FindF σ) (f : H5F_t σ) (T : ClassPtr)
    (a : haddr_t) (u1 u2 : Nat) (s : H5AC_slot_t)
    (hs : f.cache.slot[H5AC_HASH env f a]? = some s) (hne : s.type ≠ T ∨ s.addr ≠ a) :
    H5AC_find env find_f f T a u1 u2 = find_f f T a u1 u2 := by
  have hcond : ¬ (s.type = T ∧ H5F_addr_eq s.addr a = true) := by
    rintro ⟨h1, h2⟩
    rcases hne with h | h
    · exact h h1
    · exact h ((addr_eq_iff _ _).1 h2)
  simp only [H5AC_find, hs, hcond, if_false]

/-! ## C1 - C3: the inlined lookup -/

/-- C1 (as stated, refuted): in the scenario file with the hit counter of kind 0 at
`2^32 - 1`, slot 5 holds `(K, 5)`, the lookup returns the stored pointer, and the
counter afterwards is `0`, which is not the old value plus one. -/
theorem find_hit_counter_wraps :
    demo_env.registered 100 = true ∧
    demo_saturated.cache.slot[H5AC_HASH demo_env demo_saturated { offset := 5 }]? =
      some { type := 100, addr := { offset := 5 }, thing := 1005, prot := [] } ∧
    demo_saturated.cache.diagnostics[0]? =
      some { nhits := 4294967295, nmisses := 0, ninits := 0, nflushes := 0 } ∧
    H5AC_find demo_env (H5AC_find_f demo_env) demo_saturated 100 { offset := 5 } 0 0 =
      .ret 1005 { demo_file with cache := { demo_file.cache with diagnostics :=
        (demo_diag.set 0 { nhits := 0, nmisses := 0, ninits := 0, nflushes := 0 }) } } ∧
    (0 : Nat) ≠ 4294967295 + 1 := by
  refine ⟨by decide, by decide, by decide, by decide, by decide⟩

/-- C1 (amended): when `slot[H5AC_HASH(f,a)]` holds type `T` and address `a`, with `T` a
registered descriptor, `H5AC_find` returns exactly the `thing` of that slot whatever
`H5AC_find_f` is (it is not called, the container is untouched), and the only change is
that `diagnostics[T.id].nhits` becomes its old value plus one modulo `2^uintn_bits`,
which is the old value plus one unless the counter was at its maximum. -/
theorem find_hit (env : Env σ) (f : H5F_t σ) (T : ClassPtr) (a : haddr_t) (u1 u2 : Nat)
    (s : H5AC_slot_t)
    (hreg : env.registered T = true)
    (hlen : f.cache.diagnostics.length = H5AC_subid_t.H5AC_NTYPES.val)
    (hs : f.cache.slot[H5AC_HASH env f a]? = some s) (hT : s.type = T) (ha : s.addr = a) :
    ∃ k d, env.class_of T = some k ∧ f.cache.diagnostics[k.id.val]? = some d ∧
      (∀ find_f : FindF σ, H5AC_find env find_f f T a u1 u2 =
        .ret s.thing { f with cache := { f.cache with diagnostics :=
          (f.cache.diagnostics.set k.id.val
            { d with nhits := (d.nhits + 1) % 2 ^ env.uintn_bits }) } }) ∧
      (d.nhits + 1 < 2 ^ env.uintn_bits →
        (d.nhits + 1) % 2 ^ env.uintn_bits = d.nhits + 1) := by
  obtain ⟨k, hk, hlt⟩ := registered_class env T hreg
  have hin : k.id.val < f.cache.diagnostics.length := by omega
  refine ⟨k, f.cache.diagnostics[k.id.val], hk, List.getElem?_eq_getElem hin, ?_, ?_⟩
  · intro find_f
    exact find_hit_eq env find_f f T a u1 u2 s k _ hs hT ha hk (List.getElem?_eq_getElem hin)
  · intro h
    exact Nat.mod_eq_of_lt h

/-- Witness of `find_hit` on the warm hit of scenario 2. -/
theorem find_hit_witness :
    (demo_env.registered 100 = true ∧
      demo_file.cache.diagnostics.length = H5AC_subid_t.H5AC_NTYPES.val ∧
      demo_file.cache.slot[H5AC_HASH demo_env demo_file { offset := 5 }]? =
        some { type := 100, addr := { offset := 5 }, thing := 1005, prot := [] }) ∧
    ∃ k d, demo_env.class_of 100 = some k ∧ demo_file.cache.diagnostics[k.id.val]? = some d ∧
      (∀ find_f : FindF Unit, H5AC_find demo_env find_f demo_file 100 { offset := 5 } 0 0 =
        .ret 1005 { demo_file with cache := { demo_file.cache with diagnostics :=
          (demo_file.cache.diagnostics.set k.id.val
            { d with nhits := (d.nhits + 1) % 2 ^ demo_env.uintn_bits }) } }) ∧
      (d.nhits + 1 < 2 ^ demo_env.uintn_bits →
        (d.nhits + 1) % 2 ^ demo_env.uintn_bits = d.nhits + 1) :=
  ⟨⟨by decide, by decide, by decide⟩,
    find_hit demo_env demo_file 100 { offset := 5 } 0 0
      { type := 100, addr := { offset := 5 }, thing := 1005, prot := [] }
      (by decide) (by decide) (by decide) rfl rfl⟩

/-- C2: when `slot[H5AC_HASH(f,a)]` has a type other than `T` or an address other than
`a`, `H5AC_find(f,T,a,u1,u2)` is the call `H5AC_find_f(f,T,a,u1,u2)`: the same file
state (no counter touched before the call) and the same five arguments. -/
theorem find_miss_forwards (env : Env σ) (find_f : FindF σ) (f : H5F_t σ) (T : ClassPtr)
    (a : haddr_t) (u1 u2 : Nat) (s : H5AC_slot_t)
    (hs : f.cache.slot[H5AC_HASH env f a]? = some s) (hne : s.type ≠ T ∨ s.addr ≠ a) :
    H5AC_find env find_f f T a u1 u2 = find_f f T a u1 u2 :=
  find_miss_eq env find_f f T a u1 u2 s hs hne

/-- Witness of `find_miss_forwards`: address 21 collides with the resident address 5 in
slot 5 of the scenario file. -/
theorem find_miss_forwards_witness :
    (demo_file.cache.slot[H5AC_HASH demo_env demo_file { offset := 21 }]? =
        some { type := 100, addr := { offset := 5 }, thing := 1005, prot := [] } ∧
      ((100 : ClassPtr) ≠ 100 ∨ ({ offset := 5 } : haddr_t) ≠ { offset := 21 })) ∧
    H5AC_find demo_env (H5AC_find_f demo_env) demo_file 100 { offset := 21 } 7 9 =
      H5AC_find_f demo_env demo_file 100 { offset := 21 } 7 9 :=
  ⟨⟨by decide, by decide⟩,
    find_miss_forwards demo_env (H5AC_find_f demo_env) demo_file 100 { offset := 21 } 7 9
      { type := 100, addr := { offset := 5 }, thing := 1005, prot := [] }
      (by decide) (by decide)⟩

/-- C3: descriptors are compared by identity. When the slot holds `(T, a, o)` and `T2`
is another descriptor object whose `id`, `load` and `flush` members equal those of `T`,
`H5AC_find(f,T2,a,...)` is not a hit: it is the call of `H5AC_find_f` on the unchanged
file, so no hit is counted and `o` is not returned by the fast path. -/
theorem find_by_identity (env : Env σ) (find_f : FindF σ) (f : H5F_t σ) (T T2 : ClassPtr)
    (a : haddr_t) (o : ThingPtr) (u1 u2 : Nat) (s : H5AC_slot_t) (k : H5AC_class_t)
    (hs : f.cache.slot[H5AC_HASH env f a]? = some s)
    (hT : s.type = T) (_ha : s.addr = a) (_ho : s.thing = o)
    (_hk : env.class_of T = some k) (_hk2 : env.class_of T2 = some k) (hne : T2 ≠ T) :
    H5AC_find env find_f f T2 a u1 u2 = find_f f T2 a u1 u2 :=
  find_miss_eq env find_f f T2 a u1 u2 s hs (Or.inl (by rw [hT]; exact fun h => hne h.symm))

/-- Witness of `find_by_identity`: the descriptor objects at 100 and 200 have equal
members; the slot holds the one at 100 and the lookup asks with the one at 200. -/
theorem find_by_identity_witness :
    (demo_file.cache.slot[H5AC_HASH demo_env demo_file { offset := 5 }]? =
        some { type := 100, addr := { offset := 5 }, thing := 1005, prot := [] } ∧
      demo_env.class_of 100 = some { id := .H5AC_BT_ID, load := 1, flush := 2 } ∧
      demo_env.class_of 200 = some { id := .H5AC_BT_ID, load := 1, flush := 2 } ∧
      (200 : ClassPtr) ≠ 100) ∧
    H5AC_find demo_env (H5AC_find_f demo_env) demo_file 200 { offset := 5 } 0 0 =
      H5AC_find_f demo_env demo_file 200 { offset := 5 } 0 0 :=
  ⟨⟨by decide, by decide, by decide, by decide⟩,
    find_by_identity demo_env (H5AC_find_f demo_env) demo_file 100 200 { offset := 5 } 1005 0 0
      { type := 100, addr := { offset := 5 }, thing := 1005, prot := [] }
      { id := .H5AC_BT_ID, load := 1, flush := 2 }
      (by decide) rfl rfl rfl (by decide) (by decide) (by decide)⟩

/-! ## C4 - C8 -/

theorem diag_update_some (c : H5AC_t) (id : Nat) (g : H5AC_diag_t → H5AC_diag_t)
    (h : id < c.diagnostics.length) :
    diag_update c id g =
      some { c with diagnostics := c.diagnostics.set id (g c.diagnostics[id]) } := by
  simp [diag_update, List.getElem?_eq_getElem h]

theorem find_f_unregistered (env : Env σ) (f : H5F_t σ) (T : ClassPtr) (a : haddr_t)
    (u1 u2 : Nat) (h : env.registered T = false) :
    H5AC_find_f env f T a u1 u2 = .fatal f := by
  simp [H5AC_find_f, h]

/-- In the cache that `H5AC_create` has just made every slot is empty, with address 0;
`H5AC_find` with the `NULL` descriptor at address 0 passes the test of the fast path
and reads `(TYPE)->id` through the null pointer. -/
theorem find_null_new_cache (env : Env σ) (find_f : FindF σ) (f0 : H5F_t σ) (u1 u2 : Nat) :
    env.registered 0 = false ∧
    ∃ g, H5AC_create f0 0 = .ret 0 g ∧
      g.cache.slot[H5AC_HASH env g { offset := 0 }]? = some empty_slot ∧
      H5AC_find env find_f g 0 { offset := 0 } u1 u2 = .undefined := by
  have hnone : env.class_of 0 = none := by simp [Env.class_of]
  have hlt : env.hash { offset := 0 } % H5AC_NSLOTS < H5AC_NSLOTS :=
    Nat.mod_lt _ (by decide)
  have hs : (List.replicate H5AC_NSLOTS empty_slot)[env.hash { offset := 0 } % H5AC_NSLOTS]? =
      some empty_slot := by
    rw [List.getElem?_replicate, if_pos hlt]
  refine ⟨by simp [Env.registered, hnone], _, rfl, ?_, ?_⟩
  · simp only [H5AC_HASH, H5F_addr_hash, Int.reduceLT, if_true]
    exact hs
  · have hcond : empty_slot.type = 0 ∧ H5F_addr_eq empty_slot.addr { offset := 0 } = true :=
      ⟨rfl, rfl⟩
    simp only [H5AC_find, H5AC_HASH, H5F_addr_hash, Int.reduceLT, if_true, hs, hcond,
      and_self, hnone]

/-- C4 (as stated, refuted): in the cache that `H5AC_create` has just made (10330 empty
slots, each with address 0) `H5AC_find` with the `NULL` descriptor, which is not
registered, at address 0 meets the empty slot 0, whose type is `NULL` too, takes the
fast path and reads `(TYPE)->id` through the null pointer: undefined behaviour instead
of a rejection. The same happens on the empty cache of the scenarios. -/
theorem find_null_on_new_cache :
    demo_env.registered 0 = false ∧
    (∃ g, H5AC_create demo_empty 0 = .ret 0 g ∧
      g.cache.slot[H5AC_HASH demo_env g { offset := 0 }]? = some empty_slot ∧
      H5AC_find demo_env (H5AC_find_f demo_env) g 0 { offset := 0 } 0 0 = .undefined) ∧
    H5AC_find demo_env (H5AC_find_f demo_env) demo_empty 0 { offset := 0 } 0 0 =
      .undefined :=
  ⟨by decide, (find_null_new_cache demo_env (H5AC_find_f demo_env) demo_empty 0 0).2,
    by decide⟩

theorem find_unregistered_cases (env : Env σ) (f : H5F_t σ) (T : ClassPtr) (a : haddr_t)
    (u1 u2 : Nat) (s : H5AC_slot_t)
    (hslots : ∀ (i : Nat) (t : H5AC_slot_t), f.cache.slot[i]? = some t → t.type = 0 ∨ env.registered t.type = true)
    (hs : f.cache.slot[H5AC_HASH env f a]? = some s)
    (hT : env.registered T = false) :
    H5AC_find env (H5AC_find_f env) f T a u1 u2 = .fatal f ∨
      (T = 0 ∧ s.type = 0 ∧ s.addr = a ∧
        H5AC_find env (H5AC_find_f env) f T a u1 u2 = .undefined) := by
  by_cases hc : s.type = T ∧ s.addr = a
  · obtain ⟨h1, h2⟩ := hc
    have h0 : T = 0 := by
      rcases hslots _ _ hs with h | h
      · rw [← h1]; exact h
      · rw [h1, hT] at h; cases h
    right
    refine ⟨h0, by rw [h1]; exact h0, h2, ?_⟩
    have hcond : s.type = T ∧ H5F_addr_eq s.addr a = true := ⟨h1, (addr_eq_iff _ _).2 h2⟩
    have hnone : env.class_of T = none := by simp [Env.class_of, h0]
    simp only [H5AC_find, hs, hcond, and_self, if_true, hnone]
  · left
    rw [find_miss_eq env _ f T a u1 u2 s hs (by tauto)]
    exact find_f_unregistered env f T a u1 u2 hT

/-- C4 (amended): `H5AC_find` makes no registration check of its own. In a cache whose
slots hold only registered descriptors or the empty sentinel, a lookup with an
unregistered `type` never returns an object and never touches a counter: it is rejected
fatally (by `H5AC_find_f`) in the unchanged state, except that a `NULL` type meeting an
empty slot with the requested address makes the inlined code dereference `NULL`, which
is undefined behaviour. -/
theorem find_unregistered (env : Env σ) (f : H5F_t σ) (T : ClassPtr) (a : haddr_t)
    (u1 u2 : Nat) (s : H5AC_slot_t)
    (hslots : ∀ (i : Nat) (t : H5AC_slot_t), f.cache.slot[i]? = some t → t.type = 0 ∨ env.registered t.type = true)
    (hs : f.cache.slot[H5AC_HASH env f a]? = some s)
    (hT : env.registered T = false) :
    H5AC_find env (H5AC_find_f env) f T a u1 u2 = .fatal f ∨
      (T = 0 ∧ s.type = 0 ∧ s.addr = a ∧
        H5AC_find env (H5AC_find_f env) f T a u1 u2 = .undefined) :=
  find_unregistered_cases env f T a u1 u2 s hslots hs hT

/-- Witness of `find_unregistered`: the unregistered descriptor at 200 on the scenario
file, whose only resident entry has the registered descriptor at 100. -/
theorem find_unregistered_witness :
    ((∀ (i : Nat) (t : H5AC_slot_t), demo_file.cache.slot[i]? = some t →
        t.type = 0 ∨ demo_env.registered t.type = true) ∧
      demo_file.cache.slot[H5AC_HASH demo_env demo_file { offset := 5 }]? =
        some { type := 100, addr := { offset := 5 }, thing := 1005, prot := [] } ∧
      demo_env.registered 200 = false) ∧
    (H5AC_find demo_env (H5AC_find_f demo_env) demo_file 200 { offset := 5 } 0 0 =
        .fatal demo_file ∨
      ((200 : ClassPtr) = 0 ∧ (100 : ClassPtr) = 0 ∧
        ({ offset := 5 } : haddr_t) = { offset := 5 } ∧
        H5AC_find demo_env (H5AC_find_f demo_env) demo_file 200 { offset := 5 } 0 0 =
          .undefined)) := by
  have hslots : ∀ (i : Nat) (t : H5AC_slot_t), demo_file.cache.slot[i]? = some t →
      t.type = 0 ∨ demo_env.registered t.type = true := by
    intro i t h
    have hmem : t ∈ demo_file.cache.slot := List.getElem?_mem h
    have hall : ∀ x ∈ demo_file.cache.slot, x.type = 0 ∨ demo_env.registered x.type = true := by
      decide
    exact hall t hmem
  exact ⟨⟨hslots, by decide, by decide⟩,
    find_unregistered demo_env demo_file 200 { offset := 5 } 0 0
      { type := 100, addr := { offset := 5 }, thing := 1005, prot := [] }
      hslots (by decide) (by decide)⟩

/-- C5 (as stated, refuted): on the empty scenario cache whose miss counter of kind 0 is
`2^32 - 1`, `find(K, 5)` misses (the loader runs and the entry is installed), the hit
counter stays 0 and the miss counter afterwards is `0`, not the old value plus one. -/
theorem find_on_empty_counter_wraps :
    (∀ s ∈ demo_missed.cache.slot, s.type = 0) ∧
    demo_env.registered 100 = true ∧
    demo_missed.cache.diagnostics[0]? =
      some { nhits := 0, nmisses := 4294967295, ninits := 0, nflushes := 0 } ∧
    H5AC_find demo_env (H5AC_find_f demo_env) demo_missed 100 { offset := 5 } 0 0 =
      .ret 1005 { demo_file with cache := { demo_file.cache with diagnostics :=
        (demo_diag.set 0 { nhits := 0, nmisses := 0, ninits := 1, nflushes := 0 }) } } ∧
    (0 : Nat) ≠ 4294967295 + 1 := by
  refine ⟨by decide, by decide, by decide, by decide, by decide⟩

/-- C5 (amended): on a cache whose slots are all empty, `find(T, a)` with a registered
`T` is a miss that returns to its caller: `nhits` of the kind is unchanged and `nmisses`
of the kind becomes its old value plus one modulo `2^uintn_bits`, which is the old value
plus one unless the counter was at its maximum. -/
theorem find_on_empty (env : Env σ) (f : H5F_t σ) (T : ClassPtr) (a : haddr_t) (u1 u2 : Nat)
    (hempty : ∀ (i : Nat) (s : H5AC_slot_t), f.cache.slot[i]? = some s → s.type = 0)
    (hreg : env.registered T = true)
    (hlen : f.cache.diagnostics.length = H5AC_subid_t.H5AC_NTYPES.val)
    (hn : f.cache.slot.length = f.cache.nslots) (hpos : 1 ≤ f.cache.nslots) :
    ∃ k d v g d2, env.class_of T = some k ∧ f.cache.diagnostics[k.id.val]? = some d ∧
      H5AC_find env (H5AC_find_f env) f T a u1 u2 = .ret v g ∧
      g.cache.diagnostics[k.id.val]? = some d2 ∧
      d2.nhits = d.nhits ∧
      d2.nmisses = (d.nmisses + 1) % 2 ^ env.uintn_bits ∧
      (d.nmisses + 1 < 2 ^ env.uintn_bits → d2.nmisses = d.nmisses + 1) := by
  obtain ⟨k, hk, hlt⟩ := registered_class env T hreg
  have hT0 : T ≠ 0 := registered_ne_null env T hreg
  have hin : k.id.val < f.cache.diagnostics.length := by omega
  have hidx : H5AC_HASH env f a < f.cache.slot.length := by
    rw [hn]; exact Nat.mod_lt _ hpos
  have hs : f.cache.slot[H5AC_HASH env f a]? = some f.cache.slot[H5AC_HASH env f a] :=
    List.getElem?_eq_getElem hidx
  have hs0 : (f.cache.slot[H5AC_HASH env f a]).type = 0 := hempty _ _ hs
  have hmiss := find_miss_eq env (H5AC_find_f env) f T a u1 u2 _ hs
    (Or.inl (by rw [hs0]; exact fun h => hT0 h.symm))
  have hreg2 : ¬ (env.registered T = false) := by simp [hreg]
  have hdiag : ∀ l : List H5AC_diag_t, ∀ x, k.id.val < l.length →
      (l.set k.id.val x)[k.id.val]? = some x := by
    intro l x hl
    simp [List.getElem?_set, hl]
  refine ⟨k, f.cache.diagnostics[k.id.val], ?_⟩
  rw [hmiss]
  simp only [H5AC_find_f, hreg2, if_false, hk, hs, diag_update_some _ _ _ hin, make_room, hs0,
    ne_eq, not_true_eq_false, false_and]
  by_cases hl : (env.call_load k.load f.disk a u1 u2).1 = 0
  · simp only [hl, if_true]
    exact ⟨_, _, _, trivial, List.getElem?_eq_getElem hin, rfl, hdiag _ _ hin, rfl, rfl,
      fun h => Nat.mod_eq_of_lt h⟩
  · simp only [hl, if_false, hs]
    exact ⟨_, _, _, trivial, List.getElem?_eq_getElem hin, rfl, hdiag _ _ hin, rfl, rfl,
      fun h => Nat.mod_eq_of_lt h⟩

/-- Witness of `find_on_empty`: the cold find of scenario 1 on the empty cache. -/
theorem find_on_empty_witness :
    ((∀ (i : Nat) (s : H5AC_slot_t), demo_empty.cache.slot[i]? = some s → s.type = 0) ∧
      demo_env.registered 100 = true ∧
      demo_empty.cache.diagnostics.length = H5AC_subid_t.H5AC_NTYPES.val ∧
      demo_empty.cache.slot.length = demo_empty.cache.nslots ∧
      1 ≤ demo_empty.cache.nslots) ∧
    ∃ k d v g d2, demo_env.class_of 100 = some k ∧
      demo_empty.cache.diagnostics[k.id.val]? = some d ∧
      H5AC_find demo_env (H5AC_find_f demo_env) demo_empty 100 { offset := 5 } 0 0 = .ret v g ∧
      g.cache.diagnostics[k.id.val]? = some d2 ∧
      d2.nhits = d.nhits ∧
      d2.nmisses = (d.nmisses + 1) % 2 ^ demo_env.uintn_bits ∧
      (d.nmisses + 1 < 2 ^ demo_env.uintn_bits → d2.nmisses = d.nmisses + 1) := by
  have hempty : ∀ (i : Nat) (s : H5AC_slot_t), demo_empty.cache.slot[i]? = some s → s.type = 0 := by
    intro i s h
    have hall : ∀ x ∈ demo_empty.cache.slot, x.type = 0 := by decide
    exact hall s (List.getElem?_mem h)
  exact ⟨⟨hempty, by decide, by decide, by decide, by decide⟩,
    find_on_empty demo_env demo_empty 100 { offset := 5 } 0 0 hempty
      (by decide) (by decide) (by decide) (by decide)⟩

/-- C6: the enumeration is closed, its four kinds have the values 0, 1, 2, 3, which are
pairwise distinct (the value map is injective) and below `H5AC_NTYPES = 4`; with the
diagnostics array of its declared length `H5AC_NTYPES`, `diagnostics[k]` is inside the
array for each of the four kinds and `diagnostics[T->id]` for each registered `T`. -/
theorem entry_kinds (env : Env σ) (c : H5AC_t) (T : ClassPtr)
    (hlen : c.diagnostics.length = H5AC_subid_t.H5AC_NTYPES.val)
    (hreg : env.registered T = true) :
    (H5AC_subid_t.H5AC_BT_ID.val = 0 ∧ H5AC_subid_t.H5AC_SNODE_ID.val = 1 ∧
      H5AC_subid_t.H5AC_HEAP_ID.val = 2 ∧ H5AC_subid_t.H5AC_OHDR_ID.val = 3 ∧
      H5AC_subid_t.H5AC_NTYPES.val = 4) ∧
    (∀ x : H5AC_subid_t, x = .H5AC_BT_ID ∨ x = .H5AC_SNODE_ID ∨ x = .H5AC_HEAP_ID ∨
      x = .H5AC_OHDR_ID ∨ x = .H5AC_NTYPES) ∧
    (∀ x y : H5AC_subid_t, x.val = y.val → x = y) ∧
    (∀ x : H5AC_subid_t, x ≠ .H5AC_NTYPES →
      x.val < H5AC_subid_t.H5AC_NTYPES.val ∧ ∃ d, c.diagnostics[x.val]? = some d) ∧
    (∃ k d, env.class_of T = some k ∧ k.id ≠ .H5AC_NTYPES ∧
      c.diagnostics[k.id.val]? = some d) := by
  refine ⟨⟨rfl, rfl, rfl, rfl, rfl⟩, ?_, ?_, ?_, ?_⟩
  · intro x; cases x <;> simp
  · intro x y h; cases x <;> cases y <;> first | rfl | (simp [H5AC_subid_t.val] at h)
  · intro x hx
    have hx4 : x.val < H5AC_subid_t.H5AC_NTYPES.val := by
      cases x <;> first | (exact absurd rfl hx) | (simp [H5AC_subid_t.val])
    exact ⟨hx4, _, List.getElem?_eq_getElem (by omega)⟩
  · obtain ⟨k, hk, hlt⟩ := registered_class env T hreg
    refine ⟨k, _, hk, ?_, List.getElem?_eq_getElem (by omega : k.id.val < c.diagnostics.length)⟩
    intro h
    rw [h] at hlt
    exact absurd hlt (lt_irrefl _)

/-- Witness of `entry_kinds` on the scenario cache and its registered descriptor. -/
theorem entry_kinds_witness :
    (demo_file.cache.diagnostics.length = H5AC_subid_t.H5AC_NTYPES.val ∧
      demo_env.registered 100 = true) ∧
    ((H5AC_subid_t.H5AC_BT_ID.val = 0 ∧ H5AC_subid_t.H5AC_SNODE_ID.val = 1 ∧
      H5AC_subid_t.H5AC_HEAP_ID.val = 2 ∧ H5AC_subid_t.H5AC_OHDR_ID.val = 3 ∧
      H5AC_subid_t.H5AC_NTYPES.val = 4) ∧
    (∀ x : H5AC_subid_t, x = .H5AC_BT_ID ∨ x = .H5AC_SNODE_ID ∨ x = .H5AC_HEAP_ID ∨
      x = .H5AC_OHDR_ID ∨ x = .H5AC_NTYPES) ∧
    (∀ x y : H5AC_subid_t, x.val = y.val → x = y) ∧
    (∀ x : H5AC_subid_t, x ≠ .H5AC_NTYPES →
      x.val < H5AC_subid_t.H5AC_NTYPES.val ∧
        ∃ d, demo_file.cache.diagnostics[x.val]? = some d) ∧
    (∃ k d, demo_env.class_of 100 = some k ∧ k.id ≠ .H5AC_NTYPES ∧
      demo_file.cache.diagnostics[k.id.val]? = some d)) :=
  ⟨⟨by decide, by decide⟩, entry_kinds demo_env demo_file.cache 100 (by decide) (by decide)⟩

/-- C7 (the code departs from it): the constant `H5AC_NSLOTS` is 10330, which is
`2 * 5 * 1033` and therefore not a prime number. -/
theorem H5AC_NSLOTS_not_prime :
    H5AC_NSLOTS = 10330 ∧ H5AC_NSLOTS = 2 * 5 * 1033 ∧ ¬ Nat.Prime H5AC_NSLOTS := by
  refine ⟨rfl, rfl, ?_⟩
  intro h
  have h2 : (2 : Nat) ∣ H5AC_NSLOTS := ⟨5165, rfl⟩
  rcases (Nat.dvd_prime h).1 h2 with h1 | h1
  · exact absurd h1 (by decide)
  · exact absurd h1 (by decide)

/-- C8: in a cache with `nslots >= 1` whose table has `nslots` slots, `H5AC_HASH(f, a)`
is `hash(a) mod nslots` with the `nslots` member of that cache, it is below `nslots`,
the slot it designates exists (so `H5AC_find` reads inside the table), and it depends
on the file only through `nslots`: any file with the same `nslots` gives the same
index for the same address. -/
theorem hash_in_table (env : Env σ) (f : H5F_t σ) (a : haddr_t)
    (hpos : 1 ≤ f.cache.nslots) (hn : f.cache.slot.length = f.cache.nslots) :
    H5AC_HASH env f a = env.hash a % f.cache.nslots ∧
    H5AC_HASH env f a < f.cache.nslots ∧
    (∃ s, f.cache.slot[H5AC_HASH env f a]? = some s) ∧
    (∀ find_f T u1 u2, H5AC_find env find_f f T a u1 u2 = .undefined →
      ∃ s, f.cache.slot[H5AC_HASH env f a]? = some s ∧
        (s.type = T ∧ s.addr = a ∨ find_f f T a u1 u2 = .undefined)) ∧
    (∀ g : H5F_t σ, g.cache.nslots = f.cache.nslots → ∀ b : haddr_t, b = a →
      H5AC_HASH env g b = H5AC_HASH env f a) := by
  have hlt : H5AC_HASH env f a < f.cache.nslots := Nat.mod_lt _ hpos
  have hs : f.cache.slot[H5AC_HASH env f a]? = some f.cache.slot[H5AC_HASH env f a] :=
    List.getElem?_eq_getElem (by omega)
  refine ⟨rfl, hlt, ⟨_, hs⟩, ?_, ?_⟩
  · intro find_f T u1 u2 hu
    refine ⟨_, hs, ?_⟩
    by_cases hc : (f.cache.slot[H5AC_HASH env f a]).type = T ∧
        (f.cache.slot[H5AC_HASH env f a]).addr = a
    · exact Or.inl hc
    · right
      rw [find_miss_eq env find_f f T a u1 u2 _ hs (by tauto)] at hu
      exact hu
  · intro g hg b hb
    simp [H5AC_HASH, H5F_addr_hash, hg, hb]

/-- Witness of `hash_in_table` on the scenario file: address 21 maps to slot 5 of 16. -/
theorem hash_in_table_witness :
    (1 ≤ demo_file.cache.nslots ∧ demo_file.cache.slot.length = demo_file.cache.nslots) ∧
    (H5AC_HASH demo_env demo_file { offset := 21 } =
        demo_env.hash { offset := 21 } % demo_file.cache.nslots ∧
      H5AC_HASH demo_env demo_file { offset := 21 } < demo_file.cache.nslots ∧
      (∃ s, demo_file.cache.slot[H5AC_HASH demo_env demo_file { offset := 21 }]? = some s) ∧
      (∀ find_f T u1 u2, H5AC_find demo_env find_f demo_file T { offset := 21 } u1 u2 = .undefined →
        ∃ s, demo_file.cache.slot[H5AC_HASH demo_env demo_file { offset := 21 }]? = some s ∧
          (s.type = T ∧ s.addr = { offset := 21 } ∨
            find_f demo_file T { offset := 21 } u1 u2 = .undefined)) ∧
      (∀ g : H5F_t Unit, g.cache.nslots = demo_file.cache.nslots →
        ∀ b : haddr_t, b = { offset := 21 } →
          H5AC_HASH demo_env g b = H5AC_HASH demo_env demo_file { offset := 21 })) :=
  ⟨⟨by decide, by decide⟩,
    hash_in_table demo_env demo_file { offset := 21 } (by decide) (by decide)⟩

/-! ## C9: the slot-placement invariant -/

theorem good_mono {α : Type} {P Q : H5F_t σ → Prop} (h : ∀ g, P g → Q g) (r : Result σ α)
    (hr : r.good P) : r.good Q := by
  cases r with
  | ret v g => exact h g hr
  | fatal g => exact h g hr
  | undefined => exact hr

theorem good_forget {α : Type} {P : H5F_t σ → Prop} (r : Result σ α) (hr : r.good P) :
    r.forget.good P := by
  cases r <;> exact hr

theorem inv_slot_at (env : Env σ) (n : Nat) (c : H5AC_t) (h : Inv env n c) (x : Nat) :
    ∃ s, c.slot[x % n]? = some s := by
  have hlt : x % n < c.slot.length := by rw [h.len]; exact Nat.mod_lt _ h.pos
  exact ⟨_, List.getElem?_eq_getElem hlt⟩

theorem inv_diag_update (env : Env σ) (n : Nat) (c : H5AC_t) (h : Inv env n c) (id : Nat)
    (g : H5AC_diag_t → H5AC_diag_t) (hid : id < H5AC_subid_t.H5AC_NTYPES.val) :
    ∃ c2, diag_update c id g = some c2 ∧ Inv env n c2 ∧ c2.slot = c.slot := by
  have hin : id < c.diagnostics.length := by rw [h.dlen]; exact hid
  refine ⟨_, diag_update_some c id g hin, ?_, rfl⟩
  exact ⟨h.nslots_eq, h.len, h.pos, by simp [h.dlen], h.reg, h.idx⟩

theorem inv_put_slot (env : Env σ) (n : Nat) (f : H5F_t σ) (h : Inv env n f.cache) (i : Nat)
    (s : H5AC_slot_t)
    (hs : s.type ≠ 0 → env.registered s.type = true ∧ env.hash s.addr % n = i) :
    Inv env n (put_slot f i s).cache := by
  refine ⟨h.nslots_eq, by simp [put_slot, h.len], h.pos, h.dlen, ?_, ?_⟩
  · intro j t ht h0
    simp only [put_slot, List.getElem?_set] at ht
    by_cases hij : i = j
    · simp only [hij, if_true] at ht
      split at ht
      · cases ht; exact (hs h0).1
      · cases ht
    · simp only [hij, if_false] at ht
      exact h.reg j t ht h0
  · intro j t ht h0
    simp only [put_slot, List.getElem?_set] at ht
    by_cases hij : i = j
    · simp only [hij, if_true] at ht
      split at ht
      · cases ht; rw [← hij]; exact (hs h0).2
      · cases ht
    · simp only [hij, if_false] at ht
      exact h.idx j t ht h0

theorem inv_put_clear (env : Env σ) (n : Nat) (f : H5F_t σ) (h : Inv env n f.cache) (i : Nat)
    (s : H5AC_slot_t) (l : List H5AC_prot_t) :
    Inv env n (put_slot f i { clear_slot s with prot := l }).cache :=
  inv_put_slot env n f h i _ (fun h0 => absurd rfl h0)

theorem inv_put_prot (env : Env σ) (n : Nat) (f : H5F_t σ) (h : Inv env n f.cache) (i : Nat)
    (s : H5AC_slot_t) (hs : f.cache.slot[i]? = some s) (l : List H5AC_prot_t) :
    Inv env n (put_slot f i { s with prot := l }).cache :=
  inv_put_slot env n f h i _ (fun h0 => ⟨h.reg i s hs h0, h.idx i s hs h0⟩)

theorem flush_entry_good (env : Env σ) (n : Nat) (f : H5F_t σ) (h : Inv env n f.cache)
    (i : Nat) (s : H5AC_slot_t) (hs : f.cache.slot[i]? = some s) (h0 : s.type ≠ 0)
    (destroy : Bool) :
    (flush_entry env f i s destroy).good (fun g => Inv env n g.cache) := by
  obtain ⟨k, hk, hlt⟩ := registered_class env s.type (h.reg i s hs h0)
  obtain ⟨c2, hc2, hinv2, _⟩ := inv_diag_update env n f.cache h k.id.val
    (fun d => { d with nflushes := uintn_incr env d.nflushes }) hlt
  unfold flush_entry
  split
  · exact h
  · simp only [hk, hc2]
    split
    · exact hinv2
    · split
      · exact inv_put_clear env n ⟨_, c2⟩ hinv2 i s s.prot
      · exact hinv2

theorem displace_good (env : Env σ) (n : Nat) (f : H5F_t σ) (h : Inv env n f.cache)
    (i : Nat) (s : H5AC_slot_t) (hs : f.cache.slot[i]? = some s) (h0 : s.type ≠ 0) :
    (displace env f i s).good (fun g => Inv env n g.cache) := by
  have hf := flush_entry_good env n f h i s hs h0 true
  unfold displace
  cases hr : flush_entry env f i s true with
  | undefined => rw [hr] at hf; exact hf
  | fatal g => rw [hr] at hf; exact hf
  | ret b g =>
    rw [hr] at hf
    cases b
    · exact inv_put_clear env n g hf i s s.prot
    · exact hf

theorem make_room_good (env : Env σ) (n : Nat) (f : H5F_t σ) (h : Inv env n f.cache)
    (i : Nat) (s : H5AC_slot_t) (hs : f.cache.slot[i]? = some s) (T : ClassPtr) (a : haddr_t) :
    (make_room env f i s T a).good (fun g => Inv env n g.cache) := by
  unfold make_room
  split
  · rename_i hc
    exact displace_good env n f h i s hs hc.1
  · exact h

theorem find_f_good (env : Env σ) (n : Nat) (f : H5F_t σ) (h : Inv env n f.cache)
    (T : ClassPtr) (a : haddr_t) (u1 u2 : Nat) :
    (H5AC_find_f env f T a u1 u2).good (fun g => Inv env n g.cache) := by
  unfold H5AC_find_f
  by_cases hreg : env.registered T = false
  · simp only [hreg, if_true]; exact h
  · have hreg2 : env.registered T = true := by simpa using hreg
    obtain ⟨k, hk, hlt⟩ := registered_class env T hreg2
    have hidx : H5AC_HASH env f a = env.hash a % n := by
      simp [H5AC_HASH, H5F_addr_hash, h.nslots_eq]
    obtain ⟨s, hs⟩ := inv_slot_at env n f.cache h (env.hash a)
    obtain ⟨c2, hc2, hinv2, hslot2⟩ := inv_diag_update env n f.cache h k.id.val (fun d =>
      { d with nmisses := uintn_incr env d.nmisses, ninits := uintn_incr env d.ninits }) hlt
    have hs2 : c2.slot[env.hash a % n]? = some s := by rw [hslot2]; exact hs
    simp only [hreg, if_false, hk, hidx, hs, hc2]
    by_cases hl : (env.call_load k.load f.disk a u1 u2).1 = 0
    · simp only [hl, if_true]; exact hinv2
    · have hm := make_room_good env n
        { disk := (env.call_load k.load f.disk a u1 u2).2, cache := c2 } hinv2
        (env.hash a % n) s hs2 T a
      simp only [hl, if_false]
      cases hr : make_room env { disk := (env.call_load k.load f.disk a u1 u2).2, cache := c2 }
          (env.hash a % n) s T a with
      | undefined => rw [hr] at hm; exact hm
      | fatal g => rw [hr] at hm; exact hm
      | ret b g =>
        rw [hr] at hm
        cases b
        · exact hm
        · obtain ⟨t, ht⟩ := inv_slot_at env n g.cache hm (env.hash a)
          simp only [ht]
          exact inv_put_slot env n g hm _ _ (fun _ => ⟨hreg2, rfl⟩)

theorem find_good (env : Env σ) (n : Nat) (f : H5F_t σ) (h : Inv env n f.cache)
    (T : ClassPtr) (a : haddr_t) (u1 u2 : Nat) (hT : T ≠ 0) :
    (H5AC_find env (H5AC_find_f env) f T a u1 u2).good (fun g => Inv env n g.cache) := by
  have hidx : H5AC_HASH env f a = env.hash a % n := by
    simp [H5AC_HASH, H5F_addr_hash, h.nslots_eq]
  obtain ⟨s, hs⟩ := inv_slot_at env n f.cache h (env.hash a)
  rw [← hidx] at hs
  by_cases hc : s.type = T ∧ s.addr = a
  · have h0 : s.type ≠ 0 := by rw [hc.1]; exact hT
    have hreg : env.registered T = true := by rw [← hc.1]; exact h.reg _ s hs h0
    obtain ⟨k, hk, hlt⟩ := registered_class env T hreg
    obtain ⟨c2, hc2, hinv2, _⟩ := inv_diag_update env n f.cache h k.id.val
      (fun d => { d with nhits := uintn_incr env d.nhits }) hlt
    have hcond : s.type = T ∧ H5F_addr_eq s.addr a = true := ⟨hc.1, (addr_eq_iff _ _).2 hc.2⟩
    simp only [H5AC_find, hs, hcond, and_self, if_true, hk, bump_nhits, hc2]
    exact hinv2
  · rw [find_miss_eq env _ f T a u1 u2 s hs (by tauto)]
    exact find_f_good env n f h T a u1 u2

theorem set_good (env : Env σ) (n : Nat) (f : H5F_t σ) (h : Inv env n f.cache)
    (T : ClassPtr) (a : haddr_t) (o : ThingPtr) :
    (H5AC_set env f T a o).good (fun g => Inv env n g.cache) := by
  unfold H5AC_set
  by_cases hreg : env.registered T = false
  · simp only [hreg, if_true]; exact h
  · have hreg2 : env.registered T = true := by simpa using hreg
    obtain ⟨k, hk, hlt⟩ := registered_class env T hreg2
    have hidx : H5AC_HASH env f a = env.hash a % n := by
      simp [H5AC_HASH, H5F_addr_hash, h.nslots_eq]
    obtain ⟨s, hs⟩ := inv_slot_at env n f.cache h (env.hash a)
    have hm := make_room_good env n f h (env.hash a % n) s hs T a
    simp only [hreg, if_false, hk, hidx, hs]
    cases hr : make_room env f (env.hash a % n) s T a with
    | undefined => rw [hr] at hm; exact hm
    | fatal g => rw [hr] at hm; exact hm
    | ret b g =>
      rw [hr] at hm
      cases b
      · exact hm
      · obtain ⟨t, ht⟩ := inv_slot_at env n g.cache hm (env.hash a)
        obtain ⟨c2, hc2, hinv2, _⟩ := inv_diag_update env n g.cache hm k.id.val
          (fun d => { d with ninits := uintn_incr env d.ninits }) hlt
        simp only [ht, hc2]
        exact inv_put_slot env n ⟨_, c2⟩ hinv2 _ _ (fun _ => ⟨hreg2, rfl⟩)

theorem protect_good (env : Env σ) (n : Nat) (f : H5F_t σ) (h : Inv env n f.cache)
    (T : ClassPtr) (a : haddr_t) (u1 u2 : Nat) :
    (H5AC_protect env f T a u1 u2).good (fun g => Inv env n g.cache) := by
  unfold H5AC_protect
  by_cases hreg : env.registered T = false
  · simp only [hreg, if_true]; exact h
  · have hreg2 : env.registered T = true := by simpa using hreg
    have hidx : H5AC_HASH env f a = env.hash a % n := by
      simp [H5AC_HASH, H5F_addr_hash, h.nslots_eq]
    have hf := find_good env n f h T a u1 u2 (registered_ne_null env T hreg2)
    simp only [hreg, if_false]
    cases hr : H5AC_find env (H5AC_find_f env) f T a u1 u2 with
    | undefined => rw [hr] at hf; exact hf
    | fatal g => rw [hr] at hf; exact hf
    | ret v g =>
      rw [hr] at hf
      by_cases hv : v = 0
      · simp only [hv, if_true]; exact hf
      · obtain ⟨t, ht⟩ := inv_slot_at env n g.cache hf (env.hash a)
        simp only [hv, if_false, hidx, ht]
        have hinv3 : Inv env n ({ g with cache :=
            { g.cache with nprots := g.cache.nprots + 1 } } : H5F_t σ).cache :=
          ⟨hf.nslots_eq, hf.len, hf.pos, hf.dlen, hf.reg, hf.idx⟩
        exact inv_put_prot env n _ hinv3 _ t ht _

theorem unprotect_good (env : Env σ) (n : Nat) (f : H5F_t σ) (h : Inv env n f.cache)
    (T : ClassPtr) (a : haddr_t) (o : ThingPtr) :
    (H5AC_unprotect env f T a o).good (fun g => Inv env n g.cache) := by
  unfold H5AC_unprotect
  by_cases hreg : env.registered T = false
  · simp only [hreg, if_true]; exact h
  · have hidx : H5AC_HASH env f a = env.hash a % n := by
      simp [H5AC_HASH, H5F_addr_hash, h.nslots_eq]
    obtain ⟨s, hs⟩ := inv_slot_at env n f.cache h (env.hash a)
    simp only [hreg, if_false, hidx, hs]
    cases hr : remove_last { type := T, addr := a, thing := o } s.prot with
    | none => exact h
    | some l =>
      have hinv3 : Inv env n ({ f with cache :=
          { f.cache with nprots := f.cache.nprots - 1 } } : H5F_t σ).cache :=
        ⟨h.nslots_eq, h.len, h.pos, h.dlen, h.reg, h.idx⟩
      exact inv_put_prot env n _ hinv3 _ s hs _

theorem flush_slots_good (env : Env σ) (n : Nat) (sel : H5AC_slot_t → Bool) (destroy : Bool)
    (l : List Nat) (hl : ∀ i ∈ l, i < n) :
    ∀ f : H5F_t σ, Inv env n f.cache →
      (flush_slots env sel destroy l f).good (fun g => Inv env n g.cache) := by
  induction l with
  | nil => intro f h; exact h
  | cons i rest ih =>
    intro f h
    have hi : i < f.cache.slot.length := by rw [h.len]; exact hl i (List.mem_cons_self _ _)
    have hs : f.cache.slot[i]? = some f.cache.slot[i] := List.getElem?_eq_getElem hi
    have ih2 := ih (fun j hj => hl j (List.mem_cons_of_mem _ hj))
    simp only [flush_slots, hs]
    split
    · rename_i hc
      have hf := flush_entry_good env n f h i _ hs hc.1 destroy
      cases hr : flush_entry env f i f.cache.slot[i] destroy with
      | undefined => rw [hr] at hf; exact hf
      | fatal g => rw [hr] at hf; exact hf
      | ret b g =>
        rw [hr] at hf
        cases b
        · exact hf
        · exact ih2 g hf
    · exact ih2 f h

theorem flush_good (env : Env σ) (n : Nat) (f : H5F_t σ) (h : Inv env n f.cache)
    (T : ClassPtr) (a : Option haddr_t) (destroy : Bool) :
    (H5AC_flush env f T a destroy).good (fun g => Inv env n g.cache) := by
  have hrange : ∀ i ∈ List.range f.cache.nslots, i < n := by
    intro i hi
    rw [← h.nslots_eq]
    exact List.mem_range.1 hi
  unfold H5AC_flush
  split
  · cases a with
    | none => exact flush_slots_good env n _ destroy _ hrange f h
    | some a => exact h
  · split
    · exact h
    · cases a with
      | none => exact flush_slots_good env n _ destroy _ hrange f h
      | some a =>
        have hidx : H5AC_HASH env f a = env.hash a % n := by
          simp [H5AC_HASH, H5F_addr_hash, h.nslots_eq]
        obtain ⟨s, hs⟩ := inv_slot_at env n f.cache h (env.hash a)
        simp only [hidx, hs]
        split
        · rename_i hT0 _ hc
          have h0 : s.type ≠ 0 := by rw [hc.1]; exact hT0
          have hf := flush_entry_good env n f h _ s hs h0 destroy
          cases hr : flush_entry env f (env.hash a % n) s destroy with
          | undefined => rw [hr] at hf; exact hf
          | fatal g => rw [hr] at hf; exact hf
          | ret b g =>
            rw [hr] at hf
            cases b <;> exact hf
        · exact h

theorem move_entry_inv (env : Env σ) (n : Nat) (g : H5F_t σ) (h : Inv env n g.cache)
    (i_old : Nat) (s_old : H5AC_slot_t) (new_addr : haddr_t)
    (hreg : env.registered s_old.type = true) :
    Inv env n (move_entry g i_old (env.hash new_addr % n) s_old new_addr).cache := by
  have h1 := inv_put_clear env n g h i_old s_old
    (s_old.prot.filter (fun p => !prot_of s_old p))
  unfold move_entry
  obtain ⟨t, ht⟩ := inv_slot_at env n _ h1 (env.hash new_addr)
  simp only [ht]
  exact inv_put_slot env n _ h1 _ _ (fun _ => ⟨hreg, rfl⟩)

theorem rename_good (env : Env σ) (n : Nat) (f : H5F_t σ) (h : Inv env n f.cache)
    (T : ClassPtr) (a b : haddr_t) :
    (H5AC_rename env f T a b).good (fun g => Inv env n g.cache) := by
  unfold H5AC_rename
  by_cases hreg : env.registered T = false
  · simp only [hreg, if_true]; exact h
  · have hreg2 : env.registered T = true := by simpa using hreg
    have hia : H5AC_HASH env f a = env.hash a % n := by
      simp [H5AC_HASH, H5F_addr_hash, h.nslots_eq]
    have hib : H5AC_HASH env f b = env.hash b % n := by
      simp [H5AC_HASH, H5F_addr_hash, h.nslots_eq]
    obtain ⟨s, hs⟩ := inv_slot_at env n f.cache h (env.hash a)
    obtain ⟨t, ht⟩ := inv_slot_at env n f.cache h (env.hash b)
    rw [if_neg hreg]
    simp only [hia, hib, hs, ht]
    by_cases hc : s.type = T ∧ H5F_addr_eq s.addr a = true
    · rw [if_pos hc]
      have hsreg : env.registered s.type = true := by rw [hc.1]; exact hreg2
      have hm : (if env.hash b % n ≠ env.hash a % n then
            make_room env f (env.hash b % n) t T b
          else Result.ret true f).good (fun g => Inv env n g.cache) := by
        split
        · exact make_room_good env n f h _ t ht T b
        · exact h
      cases hr : (if env.hash b % n ≠ env.hash a % n then
            make_room env f (env.hash b % n) t T b
          else Result.ret true f) with
      | undefined => rw [hr] at hm; exact hm
      | fatal g => rw [hr] at hm; exact hm
      | ret v g =>
        rw [hr] at hm
        cases v
        · exact hm
        · exact move_entry_inv env n g hm _ s b hsreg
    · rw [if_neg hc]
      exact h

theorem create_good (env : Env σ) (f : H5F_t σ) (size_hint : Int) :
    (H5AC_create f size_hint).good (fun g => ∃ n, Inv env n g.cache) := by
  have hrep : ∀ (m i : Nat) (s : H5AC_slot_t),
      (List.replicate m empty_slot)[i]? = some s → s.type = 0 := by
    intro m i s hs
    rw [List.eq_of_mem_replicate (List.getElem?_mem hs)]
    rfl
  have hpos : 1 ≤ (if size_hint < 1 then H5AC_NSLOTS else prime_round size_hint.toNat) := by
    split
    · decide
    · exact le_of_lt (Nat.find_spec (Nat.exists_infinite_primes size_hint.toNat)).2.one_lt
  refine ⟨_, rfl, by simp, hpos, by simp, ?_, ?_⟩
  · intro i s hs h0; exact absurd (hrep _ i s hs) h0
  · intro i s hs h0; exact absurd (hrep _ i s hs) h0

theorem apply_op_good (env : Env σ) (f : H5F_t σ) (h : ∃ n, Inv env n f.cache) (op : Op)
    (hop : op.null_find = false) :
    (apply_op env f op).good (fun g => ∃ n, Inv env n g.cache) := by
  obtain ⟨n, hn⟩ := h
  have hw : ∀ g : H5F_t σ, Inv env n g.cache → ∃ m, Inv env m g.cache := fun g hg => ⟨n, hg⟩
  cases op with
  | create sh => exact good_forget _ (create_good env f sh)
  | find T a u1 u2 =>
    have hT : T ≠ 0 := by simpa [Op.null_find] using hop
    exact good_forget _ (good_mono hw _ (find_good env n f hn T a u1 u2 hT))
  | set T a o => exact good_forget _ (good_mono hw _ (set_good env n f hn T a o))
  | protect T a u1 u2 =>
    exact good_forget _ (good_mono hw _ (protect_good env n f hn T a u1 u2))
  | unprotect T a o => exact good_forget _ (good_mono hw _ (unprotect_good env n f hn T a o))
  | flush T a d => exact good_forget _ (good_mono hw _ (flush_good env n f hn T a d))
  | rename T a b => exact good_forget _ (good_mono hw _ (rename_good env n f hn T a b))

theorem null_find_result (env : Env σ) (f : H5F_t σ) (h : ∃ n, Inv env n f.cache)
    (a : haddr_t) (u1 u2 : Nat) :
    H5AC_find env (H5AC_find_f env) f 0 a u1 u2 = .undefined ∨
      H5AC_find env (H5AC_find_f env) f 0 a u1 u2 = .fatal f := by
  obtain ⟨n, hn⟩ := h
  have hidx : H5AC_HASH env f a = env.hash a % n := by
    simp [H5AC_HASH, H5F_addr_hash, hn.nslots_eq]
  obtain ⟨s, hs⟩ := inv_slot_at env n f.cache hn (env.hash a)
  rw [← hidx] at hs
  have hunreg : env.registered 0 = false := by
    cases hr : env.registered 0 with
    | false => rfl
    | true => exact absurd rfl (registered_ne_null env 0 hr)
  rcases find_unregistered_cases env f 0 a u1 u2 s
    (fun i t ht => by
      by_cases h0 : t.type = 0
      · exact Or.inl h0
      · exact Or.inr (hn.reg i t ht h0)) hs hunreg with h1 | h1
  · exact Or.inr h1
  · exact Or.inl h1.2.2.2

theorem apply_op_null_find (env : Env σ) (f : H5F_t σ) (h : ∃ n, Inv env n f.cache) (op : Op)
    (hop : op.null_find = true) :
    apply_op env f op = .undefined ∨ apply_op env f op = .fatal f := by
  cases op with
  | find T a u1 u2 =>
    have hT : T = 0 := by simpa [Op.null_find] using hop
    subst hT
    rcases null_find_result env f h a u1 u2 with h1 | h1
    · left; simp [apply_op, h1, Result.forget]
    · right; simp [apply_op, h1, Result.forget]
  | create sh => simp [Op.null_find] at hop
  | set T a o => simp [Op.null_find] at hop
  | protect T a u1 u2 => simp [Op.null_find] at hop
  | unprotect T a o => simp [Op.null_find] at hop
  | flush T a d => simp [Op.null_find] at hop
  | rename T a b => simp [Op.null_find] at hop

theorem run_ops_reach (env : Env σ) (ops : List Op) :
    ∀ f : H5F_t σ, (∃ n, Inv env n f.cache) →
      ∀ g, run_ops env ops f = .ret () g ∨ run_ops env ops f = .fatal g →
        ∃ n, Inv env n g.cache := by
  induction ops with
  | nil =>
    intro f h g hg
    rcases hg with hg | hg
    · simp only [run_ops] at hg; cases hg; exact h
    · simp [run_ops] at hg
  | cons op rest ih =>
    intro f h g hg
    cases hop : op.null_find with
    | false =>
      have hgood := apply_op_good env f h op hop
      cases hr : apply_op env f op with
      | undefined => rw [hr] at hgood; exact hgood.elim
      | fatal g1 =>
        rw [hr] at hgood
        simp only [run_ops, hr] at hg
        rcases hg with hg | hg
        · cases hg
        · cases hg; exact hgood
      | ret v g1 =>
        rw [hr] at hgood
        simp only [run_ops, hr] at hg
        exact ih g1 hgood g hg
    | true =>
      rcases apply_op_null_find env f h op hop with hr | hr
      · simp [run_ops, hr] at hg
      · simp only [run_ops, hr] at hg
        rcases hg with hg | hg
        · cases hg
        · cases hg; exact h

theorem run_ops_defined (env : Env σ) (ops : List Op) :
    ∀ f : H5F_t σ, (∃ n, Inv env n f.cache) → (∀ op ∈ ops, op.null_find = false) →
      ∃ g, run_ops env ops f = .ret () g ∨ run_ops env ops f = .fatal g := by
  induction ops with
  | nil => intro f _ _; exact ⟨f, Or.inl rfl⟩
  | cons op rest ih =>
    intro f h hops
    have hgood := apply_op_good env f h op (hops op (List.mem_cons_self _ _))
    cases hr : apply_op env f op with
    | undefined => rw [hr] at hgood; exact hgood.elim
    | fatal g1 => exact ⟨g1, Or.inr (by simp [run_ops, hr])⟩
    | ret v g1 =>
      rw [hr] at hgood
      obtain ⟨g, hg⟩ := ih g1 hgood (fun o ho => hops o (List.mem_cons_of_mem _ ho))
      exact ⟨g, by simpa [run_ops, hr] using hg⟩

/-- C9: on a freshly created cache, after any finite sequence of `create`, `find`,
`set`, `protect`, `unprotect`, `flush` and `rename`, whether the sequence ran to its end
or stopped on a fatal error, every non-empty slot sits at the index that `H5AC_HASH`
gives for its address (so a key can only be resident in the slot `H5AC_find` reads).
Such a state is always reached unless some `find` is given the `NULL` descriptor, the
one call on which the inlined lookup can dereference `NULL`. -/
theorem placement_invariant (env : Env σ) (f0 : H5F_t σ) (size_hint : Int) (ops : List Op) :
    (∀ g, run_ops env (Op.create size_hint :: ops) f0 = .ret () g ∨
        run_ops env (Op.create size_hint :: ops) f0 = .fatal g →
      ∀ (i : Nat) (s : H5AC_slot_t), g.cache.slot[i]? = some s → s.type ≠ 0 →
        H5AC_HASH env g s.addr = i) ∧
    ((∀ op ∈ ops, op.null_find = false) →
      ∃ g, run_ops env (Op.create size_hint :: ops) f0 = .ret () g ∨
        run_ops env (Op.create size_hint :: ops) f0 = .fatal g) := by
  have hstart : ∃ n, Inv env n (({ f0 with cache :=
      { nslots := if size_hint < 1 then H5AC_NSLOTS else prime_round size_hint.toNat,
        slot := List.replicate
          (if size_hint < 1 then H5AC_NSLOTS else prime_round size_hint.toNat) empty_slot,
        nprots := 0,
        diagnostics := List.replicate H5AC_subid_t.H5AC_NTYPES.val
          { nhits := 0, nmisses := 0, ninits := 0, nflushes := 0 } } } : H5F_t σ)).cache :=
    create_good env f0 size_hint
  have hrun : run_ops env (Op.create size_hint :: ops) f0 = run_ops env ops
      { f0 with cache :=
        { nslots := if size_hint < 1 then H5AC_NSLOTS else prime_round size_hint.toNat,
          slot := List.replicate
            (if size_hint < 1 then H5AC_NSLOTS else prime_round size_hint.toNat) empty_slot,
          nprots := 0,
          diagnostics := List.replicate H5AC_subid_t.H5AC_NTYPES.val
            { nhits := 0, nmisses := 0, ninits := 0, nflushes := 0 } } } := rfl
  rw [hrun]
  constructor
  · intro g hg i s hs h0
    obtain ⟨n, hn⟩ := run_ops_reach env ops _ hstart g hg
    have := hn.idx i s hs h0
    simpa [H5AC_HASH, H5F_addr_hash, hn.nslots_eq] using this
  · intro hops
    exact run_ops_defined env ops _ hstart hops

/-! ## C10: pinning -/

theorem find_f_load_fails (env : Env σ) (f : H5F_t σ) (T : ClassPtr) (a : haddr_t)
    (u1 u2 : Nat) (s : H5AC_slot_t) (k : H5AC_class_t) (d : H5AC_diag_t)
    (hreg : env.registered T = true) (hk : env.class_of T = some k)
    (hd : f.cache.diagnostics[k.id.val]? = some d)
    (hs : f.cache.slot[H5AC_HASH env f a]? = some s)
    (hl : (env.call_load k.load f.disk a u1 u2).1 = 0) :
    H5AC_find_f env f T a u1 u2 = .ret 0
      { disk := (env.call_load k.load f.disk a u1 u2).2,
        cache := { f.cache with diagnostics := (f.cache.diagnostics.set k.id.val
          { d with nmisses := uintn_incr env d.nmisses,
                   ninits := uintn_incr env d.ninits }) } } := by
  have hreg2 : ¬ (env.registered T = false) := by simp [hreg]
  unfold H5AC_find_f
  rw [if_neg hreg2]
  simp only [hk, hs, diag_update, hd, hl, if_true]

theorem slot_set_same (l : List H5AC_slot_t) (i : Nat) (s x : H5AC_slot_t)
    (h : l[i]? = some s) : (l.set i x)[i]? = some x := by
  obtain ⟨hi, _⟩ := List.getElem?_eq_some.1 h
  simp [List.getElem?_set, hi]

theorem find_miss_load_fails (env : Env σ) (f : H5F_t σ) (T : ClassPtr) (a : haddr_t)
    (u1 u2 : Nat) (s : H5AC_slot_t) (k : H5AC_class_t) (d : H5AC_diag_t)
    (hreg : env.registered T = true) (hk : env.class_of T = some k)
    (hd : f.cache.diagnostics[k.id.val]? = some d)
    (hs : f.cache.slot[H5AC_HASH env f a]? = some s)
    (hmiss : s.type ≠ T ∨ s.addr ≠ a)
    (hl : (env.call_load k.load f.disk a u1 u2).1 = 0) :
    H5AC_find env (H5AC_find_f env) f T a u1 u2 = .ret 0
        { disk := (env.call_load k.load f.disk a u1 u2).2,
          cache := { f.cache with diagnostics := (f.cache.diagnostics.set k.id.val
            { d with nmisses := uintn_incr env d.nmisses,
                     ninits := uintn_incr env d.ninits }) } } ∧
      H5AC_protect env f T a u1 u2 = .ret 0
        { disk := (env.call_load k.load f.disk a u1 u2).2,
          cache := { f.cache with diagnostics := (f.cache.diagnostics.set k.id.val
            { d with nmisses := uintn_incr env d.nmisses,
                     ninits := uintn_incr env d.ninits }) } } := by
  have hreg2 : ¬ (env.registered T = false) := by simp [hreg]
  have hfind : H5AC_find env (H5AC_find_f env) f T a u1 u2 = .ret 0
      { disk := (env.call_load k.load f.disk a u1 u2).2,
        cache := { f.cache with diagnostics := (f.cache.diagnostics.set k.id.val
          { d with nmisses := uintn_incr env d.nmisses,
                   ninits := uintn_incr env d.ninits }) } } := by
    rw [find_miss_eq env _ f T a u1 u2 s hs hmiss]
    exact find_f_load_fails env f T a u1 u2 s k d hreg hk hd hs hl
  refine ⟨hfind, ?_⟩
  unfold H5AC_protect
  rw [if_neg hreg2]
  simp only [hfind, if_true]

theorem prot_filter_own (s : H5AC_slot_t)
    (h : ∀ p ∈ s.prot, p = { type := s.type, addr := s.addr, thing := s.thing }) :
    s.prot.filter (prot_of s) = s.prot ∧ s.prot.filter (fun p => !prot_of s p) = [] := by
  have hall : ∀ p ∈ s.prot, prot_of s p = true := by
    intro p hp
    rw [h p hp]
    simp [prot_of, H5F_addr_eq]
  constructor
  · exact List.filter_eq_self.2 hall
  · rw [List.filter_eq_nil_iff]
    intro p hp
    simp [hall p hp]

theorem move_entry_eq (f : H5F_t σ) (i1 i2 : Nat) (s t : H5AC_slot_t) (a2 : haddr_t)
    (hs : f.cache.slot[i1]? = some s) (ht : f.cache.slot[i2]? = some t)
    (hI3 : ∀ p ∈ s.prot, p = { type := s.type, addr := s.addr, thing := s.thing })
    (hdest : i2 = i1 ∨ t.prot = []) :
    move_entry f i1 i2 s a2 = { f with cache := { f.cache with slot :=
      ((f.cache.slot.set i1 { type := 0, addr := s.addr, thing := 0, prot := [] }).set i2
        { type := s.type, addr := a2, thing := s.thing,
          prot := s.prot.map (fun p => { p with addr := a2 }) }) } } := by
  obtain ⟨hf1, hf2⟩ := prot_filter_own s hI3
  unfold move_entry
  simp only [hf1, hf2, put_slot, clear_slot]
  by_cases hi : i2 = i1
  · subst hi
    simp only [slot_set_same _ _ s _ hs, List.nil_append]
  · have hne : i1 ≠ i2 := fun e => hi e.symm
    rcases hdest with h | h
    · exact absurd h hi
    · simp only [List.getElem?_set_ne hne, ht, h, List.nil_append]

theorem rename_step (env : Env σ) (f : H5F_t σ) (k : ClassPtr) (a1 a2 : haddr_t)
    (s t : H5AC_slot_t)
    (hreg : env.registered k = true)
    (hs : f.cache.slot[H5AC_HASH env f a1]? = some s)
    (hk : s.type = k) (ha : s.addr = a1)
    (hI3 : ∀ p ∈ s.prot, p = { type := k, addr := a1, thing := s.thing })
    (ht : f.cache.slot[H5AC_HASH env f a2]? = some t)
    (hdest : H5AC_HASH env f a2 = H5AC_HASH env f a1 ∨ (t.type = 0 ∧ t.prot = [])) :
    H5AC_rename env f k a1 a2 = .ret 0 { f with cache := { f.cache with slot :=
      ((f.cache.slot.set (H5AC_HASH env f a1)
        { type := 0, addr := a1, thing := 0, prot := [] }).set (H5AC_HASH env f a2)
        { type := k, addr := a2, thing := s.thing,
          prot := s.prot.map (fun p => { p with addr := a2 }) }) } } := by
  subst hk ha
  have hreg2 : ¬ (env.registered s.type = false) := by simp [hreg]
  have hc : s.type = s.type ∧ H5F_addr_eq s.addr s.addr = true :=
    ⟨rfl, (addr_eq_iff _ _).2 rfl⟩
  have hroom : (if H5AC_HASH env f a2 ≠ H5AC_HASH env f s.addr then
        make_room env f (H5AC_HASH env f a2) t s.type a2
      else Result.ret true f) = Result.ret true f := by
    by_cases hi : H5AC_HASH env f a2 = H5AC_HASH env f s.addr
    · rw [if_neg (not_not.2 hi)]
    · rw [if_pos hi]
      rcases hdest with h | h
      · exact absurd h hi
      · unfold make_room
        rw [if_neg (fun hcond => hcond.1 h.1)]
  have hmove := move_entry_eq f (H5AC_HASH env f s.addr) (H5AC_HASH env f a2) s t a2 hs ht hI3
    (hdest.imp id (fun h => h.2))
  unfold H5AC_rename
  rw [if_neg hreg2]
  simp only [hs, ht, hc.2, and_self, if_true, hroom, hmove]

/-- C12 (as stated, refuted): with `(K, 3)` in slot 3 and `(K, 4)` in slot 4, the rename
of `(K, 3)` to address 20 (slot 4) displaces `(K, 4)`; after the rename back, slot 4 is
empty and the entry `(K, 4, 1004)` is gone. And with `(K, 3)` not resident but `(K, 20)`
resident, the first rename is a no-op and the second moves `(K, 20)` to slot 3. -/
theorem rename_round_trip_fails :
    H5AC_rename demo_env
        (demo_two { type := 100, addr := { offset := 3 }, thing := 1003, prot := [] }
          { type := 100, addr := { offset := 4 }, thing := 1004, prot := [] }
          { nhits := 0, nmisses := 0, ninits := 0, nflushes := 0 })
        100 { offset := 3 } { offset := 20 } =
      .ret 0 (demo_two { type := 0, addr := { offset := 3 }, thing := 0, prot := [] }
        { type := 100, addr := { offset := 20 }, thing := 1003, prot := [] }
        { nhits := 0, nmisses := 0, ninits := 0, nflushes := 1 }) ∧
    H5AC_rename demo_env
        (demo_two { type := 0, addr := { offset := 3 }, thing := 0, prot := [] }
          { type := 100, addr := { offset := 20 }, thing := 1003, prot := [] }
          { nhits := 0, nmisses := 0, ninits := 0, nflushes := 1 })
        100 { offset := 20 } { offset := 3 } =
      .ret 0 (demo_two { type := 100, addr := { offset := 3 }, thing := 1003, prot := [] }
        { type := 0, addr := { offset := 20 }, thing := 0, prot := [] }
        { nhits := 0, nmisses := 0, ninits := 0, nflushes := 1 }) ∧
    entry_of { type := 100, addr := { offset := 4 }, thing := 1004, prot := [] } ≠
      entry_of { type := 0, addr := { offset := 20 }, thing := 0, prot := [] } ∧
    H5AC_rename demo_env
        (demo_two empty_slot
          { type := 100, addr := { offset := 20 }, thing := 1020, prot := [] }
          { nhits := 0, nmisses := 0, ninits := 0, nflushes := 0 })
        100 { offset := 3 } { offset := 20 } =
      .ret 0 (demo_two empty_slot
        { type := 100, addr := { offset := 20 }, thing := 1020, prot := [] }
        { nhits := 0, nmisses := 0, ninits := 0, nflushes := 0 }) ∧
    H5AC_rename demo_env
        (demo_two empty_slot
          { type := 100, addr := { offset := 20 }, thing := 1020, prot := [] }
          { nhits := 0, nmisses := 0, ninits := 0, nflushes := 0 })
        100 { offset := 20 } { offset := 3 } =
      .ret 0 (demo_two { type := 100, addr := { offset := 3 }, thing := 1020, prot := [] }
        { type := 0, addr := { offset := 20 }, thing := 0, prot := [] }
        { nhits := 0, nmisses := 0, ninits := 0, nflushes := 0 }) := by
  refine ⟨by decide, by decide, by decide, by decide, by decide⟩

/-- C12 (amended): let `(k, a1)` be resident, `k` registered, the protect records of its
slot being records of that entry (I3), and let the slot of `a2` be the slot of `a1`
itself or an empty slot without protect records. Then `rename(k, a1, a2)` followed by
`rename(k, a2, a1)` both return `SUCCEED` and restore the cache: every slot has the same
content (empty, or the same `{type, addr, object}`) and the same protect-set as before,
and `nprots`, `nslots`, the diagnostics and the container are unchanged. -/
theorem rename_round_trip (env : Env σ) (f : H5F_t σ) (k : ClassPtr) (a1 a2 : haddr_t)
    (s t : H5AC_slot_t)
    (hreg : env.registered k = true)
    (hs : f.cache.slot[H5AC_HASH env f a1]? = some s)
    (hk : s.type = k) (ha : s.addr = a1)
    (hI3 : ∀ p ∈ s.prot, p = { type := k, addr := a1, thing := s.thing })
    (ht : f.cache.slot[H5AC_HASH env f a2]? = some t)
    (hdest : H5AC_HASH env f a2 = H5AC_HASH env f a1 ∨ (t.type = 0 ∧ t.prot = [])) :
    ∃ g h, H5AC_rename env f k a1 a2 = .ret 0 g ∧ H5AC_rename env g k a2 a1 = .ret 0 h ∧
      (∀ j : Nat, (h.cache.slot[j]?).map entry_of = (f.cache.slot[j]?).map entry_of ∧
        (h.cache.slot[j]?).map (fun x => x.prot) =
          (f.cache.slot[j]?).map (fun x => x.prot)) ∧
      h.cache.nprots = f.cache.nprots ∧ h.cache.nslots = f.cache.nslots ∧
      h.cache.diagnostics = f.cache.diagnostics ∧ h.disk = f.disk := by
  obtain ⟨hi1, hs1⟩ := List.getElem?_eq_some.1 hs
  obtain ⟨hi2, ht2⟩ := List.getElem?_eq_some.1 ht
  have hstep1 := rename_step env f k a1 a2 s t hreg hs hk ha hI3 ht hdest
  -- the state after the first rename
  generalize hg : ({ f with cache := { f.cache with slot :=
      ((f.cache.slot.set (H5AC_HASH env f a1)
        { type := 0, addr := a1, thing := 0, prot := [] }).set (H5AC_HASH env f a2)
        { type := k, addr := a2, thing := s.thing,
          prot := s.prot.map (fun p => { p with addr := a2 }) }) } } : H5F_t σ) = g at hstep1
  have hgslot : g.cache.slot = (f.cache.slot.set (H5AC_HASH env f a1)
        { type := 0, addr := a1, thing := 0, prot := [] }).set (H5AC_HASH env f a2)
        { type := k, addr := a2, thing := s.thing,
          prot := s.prot.map (fun p => { p with addr := a2 }) } := by rw [← hg]
  have hgn : g.cache.nslots = f.cache.nslots := by rw [← hg]
  have hgh : ∀ x, H5AC_HASH env g x = H5AC_HASH env f x := by
    intro x; simp [H5AC_HASH, hgn]
  have hs' : g.cache.slot[H5AC_HASH env g a2]? = some
      { type := k, addr := a2, thing := s.thing,
        prot := s.prot.map (fun p => { p with addr := a2 }) } := by
    rw [hgh, hgslot]
    simp [List.getElem?_set, hi2]
  have hI3' : ∀ p ∈ s.prot.map (fun p : H5AC_prot_t => { p with addr := a2 }),
      p = { type := k, addr := a2, thing := s.thing } := by
    intro p hp
    obtain ⟨q, hq, rfl⟩ := List.mem_map.1 hp
    rw [hI3 q hq]
  have hback : (s.prot.map (fun p : H5AC_prot_t => { p with addr := a2 })).map
      (fun p : H5AC_prot_t => { p with addr := a1 }) = s.prot := by
    rw [List.map_map]
    have : ∀ q ∈ s.prot, ((fun p : H5AC_prot_t => { p with addr := a1 }) ∘
        (fun p : H5AC_prot_t => { p with addr := a2 })) q = id q := by
      intro q hq
      rw [hI3 q hq]
      rfl
    rw [List.map_congr_left this, List.map_id]
  have hsame : ({ type := k, addr := a1, thing := s.thing, prot := s.prot } : H5AC_slot_t) = s := by
    cases s
    simp only at hk ha
    simp [hk, ha]
  by_cases hi : H5AC_HASH env f a2 = H5AC_HASH env f a1
  · -- rename inside one slot
    have ht' : g.cache.slot[H5AC_HASH env g a1]? = some
        { type := k, addr := a2, thing := s.thing,
          prot := s.prot.map (fun p => { p with addr := a2 }) } := by
      rw [hgh, ← hi, ← hgh]; exact hs'
    have hstep2 := rename_step env g k a2 a1 _ _ hreg hs' rfl rfl hI3' ht'
      (Or.inl (by rw [hgh, hgh, hi]))
    refine ⟨g, _, hstep1, hstep2, ?_, by simp [← hg], by simp [← hg], by simp [← hg],
      by simp [← hg]⟩
    intro j
    simp only [hgh, hgslot, hback, hsame, hi, List.set_set]
    by_cases hj : H5AC_HASH env f a1 = j
    · subst hj
      simp [List.getElem?_set, hi1, hs]
    · simp [List.getElem?_set, hj]
  · -- rename to an empty slot
    have ht0 : t.type = 0 ∧ t.prot = [] := by
      rcases hdest with h | h
      · exact absurd h hi
      · exact h
    have hne : H5AC_HASH env f a1 ≠ H5AC_HASH env f a2 := fun e => hi e.symm
    have ht' : g.cache.slot[H5AC_HASH env g a1]? = some
        { type := 0, addr := a1, thing := 0, prot := [] } := by
      rw [hgh, hgslot]
      simp [List.getElem?_set, hi, hi1]
    have hstep2 := rename_step env g k a2 a1 _ _ hreg hs' rfl rfl hI3' ht'
      (Or.inr ⟨rfl, rfl⟩)
    refine ⟨g, _, hstep1, hstep2, ?_, by simp [← hg], by simp [← hg], by simp [← hg],
      by simp [← hg]⟩
    intro j
    simp only [hgh, hgslot, hback, hsame, List.set_set]
    by_cases hj1 : H5AC_HASH env f a1 = j
    · subst hj1
      simp [List.getElem?_set, hi1, hs, hi, hne]
    · by_cases hj2 : H5AC_HASH env f a2 = j
      · subst hj2
        simp [List.getElem?_set, hi2, ht, hi, hne, entry_of, ht0.1, ht0.2]
      · simp [List.getElem?_set, hj1, hj2]

/-- Witness of `rename_round_trip`: the protected entry `(K, 7, 1007)` of scenario 4 is
renamed to address 23, which maps to the same slot, and back (compare scenario 5). -/
theorem rename_round_trip_witness :
    (demo_env.registered 100 = true ∧
      demo_pinned.cache.slot[H5AC_HASH demo_env demo_pinned { offset := 7 }]? =
        some (demo_slot7 [demo_rec]) ∧
      (∀ p ∈ (demo_slot7 [demo_rec]).prot,
        p = { type := 100, addr := { offset := 7 }, thing := (demo_slot7 [demo_rec]).thing }) ∧
      demo_pinned.cache.slot[H5AC_HASH demo_env demo_pinned { offset := 23 }]? =
        some (demo_slot7 [demo_rec]) ∧
      H5AC_HASH demo_env demo_pinned { offset := 23 } =
        H5AC_HASH demo_env demo_pinned { offset := 7 }) ∧
    ∃ g h, H5AC_rename demo_env demo_pinned 100 { offset := 7 } { offset := 23 } = .ret 0 g ∧
      H5AC_rename demo_env g 100 { offset := 23 } { offset := 7 } = .ret 0 h ∧
      (∀ j : Nat,
        (h.cache.slot[j]?).map entry_of = (demo_pinned.cache.slot[j]?).map entry_of ∧
        (h.cache.slot[j]?).map (fun x => x.prot) =
          (demo_pinned.cache.slot[j]?).map (fun x => x.prot)) ∧
      h.cache.nprots = demo_pinned.cache.nprots ∧ h.cache.nslots = demo_pinned.cache.nslots ∧
      h.cache.diagnostics = demo_pinned.cache.diagnostics ∧ h.disk = demo_pinned.disk :=
  ⟨⟨by decide, by decide, by decide, by decide, by decide⟩,
    rename_round_trip demo_env demo_pinned 100 { offset := 7 } { offset := 23 }
      (demo_slot7 [demo_rec]) (demo_slot7 [demo_rec])
      (by decide) (by decide) rfl rfl (by decide) (by decide) (Or.inl (by decide))⟩

/-! ## C13: a failing loader -/

/-- C13 (as stated, refuted): slot 7 holds the unprotected `(K, 7, 1007)` and the miss
counter of kind 0 is at `2^32 - 1` (one successful and `2^32 - 2` failed loads);
`find(K, 1031)` maps to slot 7, misses, and the loader of `K` fails for address 1031.
The caller gets `NULL` and slot 7 is as before the call, but the miss counter afterwards
is `0`, not the old value plus one. -/
theorem load_failure_counter_wraps :
    H5AC_HASH demo_env (demo_with (demo_slot7 []) 0
        { nhits := 0, nmisses := 4294967295, ninits := 4294967295, nflushes := 0 })
      { offset := 1031 } = 7 ∧
    (demo_env.call_load 1 () { offset := 1031 } 0 0).1 = 0 ∧
    H5AC_find demo_env (H5AC_find_f demo_env) (demo_with (demo_slot7 []) 0
        { nhits := 0, nmisses := 4294967295, ninits := 4294967295, nflushes := 0 })
        100 { offset := 1031 } 0 0 =
      .ret 0 (demo_with (demo_slot7 []) 0
        { nhits := 0, nmisses := 0, ninits := 0, nflushes := 0 }) ∧
    (0 : Nat) ≠ 4294967295 + 1 := by
  refine ⟨by decide, by decide, by decide, by decide⟩

/-- C13 (amended): in every cache state, let `find(T, a)` (or `protect`) miss with a
registered `T` whose loader fails. The caller receives not-found (`NULL`); the slot table
is as before the call, the target slot included, whatever it held and whether or not
its entry was protected: no entry is installed or displaced and no protect record is
added (`nprots` is unchanged); `nhits` of the kind is unchanged and `nmisses` of the
kind becomes its old value plus one modulo `2^uintn_bits`, which is the old value plus
one unless the counter was at its maximum. -/
theorem load_failure (env : Env σ) (f : H5F_t σ) (T : ClassPtr) (a : haddr_t)
    (u1 u2 : Nat) (s : H5AC_slot_t) (k2 : H5AC_class_t) (d : H5AC_diag_t)
    (hreg : env.registered T = true) (hk2 : env.class_of T = some k2)
    (hd : f.cache.diagnostics[k2.id.val]? = some d)
    (hs : f.cache.slot[H5AC_HASH env f a]? = some s)
    (hmiss : s.type ≠ T ∨ s.addr ≠ a)
    (hl : (env.call_load k2.load f.disk a u1 u2).1 = 0) :
    ∃ g d2, H5AC_find env (H5AC_find_f env) f T a u1 u2 = .ret 0 g ∧
      H5AC_protect env f T a u1 u2 = .ret 0 g ∧
      g.cache.slot = f.cache.slot ∧ g.cache.nprots = f.cache.nprots ∧
      g.cache.nslots = f.cache.nslots ∧
      g.cache.diagnostics[k2.id.val]? = some d2 ∧ d2.nhits = d.nhits ∧
      d2.nmisses = (d.nmisses + 1) % 2 ^ env.uintn_bits ∧
      (d.nmisses + 1 < 2 ^ env.uintn_bits → d2.nmisses = d.nmisses + 1) := by
  obtain ⟨hf1, hf2⟩ := find_miss_load_fails env f T a u1 u2 s k2 d hreg hk2 hd hs hmiss hl
  obtain ⟨hin, _⟩ := List.getElem?_eq_some.1 hd
  refine ⟨_, { d with nmisses := uintn_incr env d.nmisses, ninits := uintn_incr env d.ninits },
    hf1, hf2, rfl, rfl, rfl, ?_, rfl, rfl, fun h => Nat.mod_eq_of_lt h⟩
  simp only [List.getElem?_set_self hin]

/-- Witness of `load_failure`: slot 7 of the scenario cache holds `(K, 7, 1007)` and
the loader of `K` fails for address 1031, which maps to slot 7; the find and the protect
return `NULL` and leave the slot table as it was. -/
theorem load_failure_witness :
    (demo_env.registered 100 = true ∧
      demo_env.class_of 100 = some { id := .H5AC_BT_ID, load := 1, flush := 2 } ∧
      (demo_with (demo_slot7 []) 0
        { nhits := 0, nmisses := 1, ninits := 1, nflushes := 0 }).cache.diagnostics[
          H5AC_subid_t.H5AC_BT_ID.val]? =
        some { nhits := 0, nmisses := 1, ninits := 1, nflushes := 0 } ∧
      (demo_with (demo_slot7 []) 0
        { nhits := 0, nmisses := 1, ninits := 1, nflushes := 0 }).cache.slot[
          H5AC_HASH demo_env (demo_with (demo_slot7 []) 0
            { nhits := 0, nmisses := 1, ninits := 1, nflushes := 0 }) { offset := 1031 }]? =
        some (demo_slot7 []) ∧
      ((demo_slot7 []).type ≠ 100 ∨ (demo_slot7 []).addr ≠ { offset := 1031 }) ∧
      (demo_env.call_load 1 () { offset := 1031 } 0 0).1 = 0) ∧
    ∃ g d2, H5AC_find demo_env (H5AC_find_f demo_env) (demo_with (demo_slot7 []) 0
          { nhits := 0, nmisses := 1, ninits := 1, nflushes := 0 })
          100 { offset := 1031 } 0 0 = .ret 0 g ∧
      H5AC_protect demo_env (demo_with (demo_slot7 []) 0
          { nhits := 0, nmisses := 1, ninits := 1, nflushes := 0 })
          100 { offset := 1031 } 0 0 = .ret 0 g ∧
      g.cache.slot = (demo_with (demo_slot7 []) 0
          { nhits := 0, nmisses := 1, ninits := 1, nflushes := 0 }).cache.slot ∧
      g.cache.nprots = 0 ∧ g.cache.nslots = 16 ∧
      g.cache.diagnostics[H5AC_subid_t.H5AC_BT_ID.val]? = some d2 ∧
      d2.nhits = 0 ∧ d2.nmisses = (1 + 1) % 2 ^ demo_env.uintn_bits ∧
      (1 + 1 < 2 ^ demo_env.uintn_bits → d2.nmisses = 1 + 1) :=
  ⟨⟨by decide, by decide, by decide, by decide, by decide, by decide⟩,
    load_failure demo_env (demo_with (demo_slot7 []) 0
        { nhits := 0, nmisses := 1, ninits := 1, nflushes := 0 })
      100 { offset := 1031 } 0 0 (demo_slot7 [])
      { id := .H5AC_BT_ID, load := 1, flush := 2 }
      { nhits := 0, nmisses := 1, ninits := 1, nflushes := 0 }
      (by decide) (by decide) (by decide) (by decide) (by decide) (by decide)⟩

end H5AC

namespace H5_api_test

/-! ## C14 - C15: `prefix_filename` and `remove_test_file` -/

theorem prefix_filename_valid (max_len : Nat) (malloc : Nat → Option Nat) (p f : List Char)
    (out : CBuffer) (buf : Nat) (hf : f ≠ []) (hm : malloc max_len = some buf) :
    prefix_filename max_len malloc (some p) (some f) (some out) =
      (SUCCEED, some (some (buf, (p ++ f).take (max_len - 1)))) := by
  cases f with
  | nil => exact absurd rfl hf
  | cons c cs => simp [prefix_filename, hm, snprintf_ss]

/-- C14 (as stated, refuted): with a buffer of 1024 bytes, a prefix of 1024 characters
and the filename `f`, the call returns `SUCCEED` but the stored string is the first 1023
characters of the prefix, not the prefix followed by the filename. -/
theorem prefix_filename_truncates :
    prefix_filename 1024 (fun _ => some 4096) (some (List.replicate 1024 'p')) (some ['f'])
        (some none) =
      (SUCCEED, some (some (4096, List.replicate 1023 'p'))) ∧
    List.replicate 1023 'p' ≠ List.replicate 1024 'p' ++ ['f'] := by
  constructor
  · rw [prefix_filename_valid 1024 _ _ ['f'] none 4096 (List.cons_ne_nil _ _) rfl]
    have hle : 1024 - 1 ≤ (List.replicate 1024 'p').length := by
      rw [List.length_replicate]; decide
    rw [List.take_append_of_le_length hle, List.take_replicate]
    have hmin : min (1024 - 1) 1024 = 1023 := by decide
    rw [hmin]
  · intro h
    have hlen := congrArg List.length h
    rw [List.length_append, List.length_replicate, List.length_replicate] at hlen
    exact absurd hlen (by decide)

/-- C14 (amended): for a non-null prefix, a non-empty filename, a non-null
`filename_out` and a successful allocation, `prefix_filename` returns `SUCCEED` and
stores in `*filename_out` the allocated buffer, holding the first
`H5_API_TEST_FILENAME_MAX_LENGTH - 1` characters of the prefix followed by the filename;
that is the full concatenation when its length is below
`H5_API_TEST_FILENAME_MAX_LENGTH`. -/
theorem prefix_filename_ok (max_len : Nat) (malloc : Nat → Option Nat) (p f : List Char)
    (out : CBuffer) (buf : Nat) (hf : f ≠ []) (hm : malloc max_len = some buf) :
    prefix_filename max_len malloc (some p) (some f) (some out) =
      (SUCCEED, some (some (buf, (p ++ f).take (max_len - 1)))) ∧
    (p.length + f.length < max_len → (p ++ f).take (max_len - 1) = p ++ f) := by
  refine ⟨prefix_filename_valid max_len malloc p f out buf hf hm, ?_⟩
  intro h
  exact List.take_of_length_le (by simp; omega)

/-- Witness of `prefix_filename_ok`: prefix `a/`, filename `b.h5`, a buffer of 1024
bytes at address 4096. -/
theorem prefix_filename_ok_witness :
    ((['b', '.', 'h', '5'] : List Char) ≠ [] ∧
      (fun _ : Nat => some 4096) 1024 = some 4096) ∧
    (prefix_filename 1024 (fun _ => some 4096) (some ['a', '/']) (some ['b', '.', 'h', '5'])
        (some none) =
      (SUCCEED, some (some (4096, (['a', '/'] ++ ['b', '.', 'h', '5']).take (1024 - 1)))) ∧
    ((['a', '/'] : List Char).length + (['b', '.', 'h', '5'] : List Char).length < 1024 →
      (['a', '/'] ++ ['b', '.', 'h', '5']).take (1024 - 1) =
        ['a', '/'] ++ ['b', '.', 'h', '5'])) :=
  ⟨⟨by decide, rfl⟩,
    prefix_filename_ok 1024 (fun _ => some 4096) ['a', '/'] ['b', '.', 'h', '5'] none 4096
      (by decide) rfl⟩

/-- C15: `prefix_filename` returns `FAIL` exactly when the prefix is `NULL`, or the
filename is `NULL` or empty, or `filename_out` is `NULL`, or the allocation fails, and
otherwise `SUCCEED`; when it returns `FAIL`, `*filename_out` is as before. Hence
`remove_test_file` with a non-null prefix and an invalid filename returns `FAIL` without
calling `H5Fdelete`, and with a `NULL` prefix its one `H5Fdelete` call is on `filename`
itself. -/
theorem prefix_filename_fail_iff (max_len : Nat) (malloc : Nat → Option Nat)
    (H5Fdelete : CString → Int) (prefix_p filename : CString) (filename_out : Option CBuffer) :
    ((prefix_filename max_len malloc prefix_p filename filename_out).1 = FAIL ↔
      (prefix_p = none ∨ filename = none ∨ filename = some [] ∨ filename_out = none ∨
        malloc max_len = none)) ∧
    ((prefix_filename max_len malloc prefix_p filename filename_out).1 = FAIL ∨
      (prefix_filename max_len malloc prefix_p filename filename_out).1 = SUCCEED) ∧
    ((prefix_filename max_len malloc prefix_p filename filename_out).1 = FAIL →
      (prefix_filename max_len malloc prefix_p filename filename_out).2 = filename_out) ∧
    (∀ p : List Char, filename = none ∨ filename = some [] →
      remove_test_file max_len malloc H5Fdelete (some p) filename = (FAIL, [])) ∧
    (remove_test_file max_len malloc H5Fdelete none filename).2 = [filename] := by
  have hne : SUCCEED ≠ FAIL := by decide
  refine ⟨?_, ?_, ?_, ?_, ?_⟩
  · cases prefix_p with
    | none => simp [prefix_filename]
    | some p =>
      cases filename with
      | none => simp [prefix_filename]
      | some f =>
        cases f with
        | nil => simp [prefix_filename]
        | cons c cs =>
          cases filename_out with
          | none => simp [prefix_filename]
          | some out =>
            cases hm : malloc max_len with
            | none => simp [prefix_filename, hm]
            | some b => simp [prefix_filename, hm, hne]
  · cases prefix_p with
    | none => simp [prefix_filename]
    | some p =>
      cases filename with
      | none => simp [prefix_filename]
      | some f =>
        cases f with
        | nil => simp [prefix_filename]
        | cons c cs =>
          cases filename_out with
          | none => simp [prefix_filename]
          | some out =>
            cases hm : malloc max_len with
            | none => simp [prefix_filename, hm]
            | some b => simp [prefix_filename, hm]
  · cases prefix_p with
    | none => simp [prefix_filename]
    | some p =>
      cases filename with
      | none => simp [prefix_filename]
      | some f =>
        cases f with
        | nil => simp [prefix_filename]
        | cons c cs =>
          cases filename_out with
          | none => simp [prefix_filename]
          | some out =>
            cases hm : malloc max_len with
            | none => simp [prefix_filename, hm]
            | some b => simp [prefix_filename, hm, hne]
  · intro p hf
    rcases hf with hf | hf
    · subst hf
      simp [remove_test_file, prefix_filename, FAIL]
    · subst hf
      simp [remove_test_file, prefix_filename, FAIL]
  · simp only [remove_test_file]
    split <;> rfl

/-! ## C16: `generate_random_parallel_dimensions` -/

theorem fill_dims_spec (e : ParEnv) (hM : 1 ≤ e.MAX_DIM_SIZE) :
    ∀ (k i : Nat) (dims : List Nat) (pos : Nat), dims.length = i →
      ∃ rest, (fill_dims e k i dims pos).1 = dims ++ rest ∧ rest.length = k ∧
        (i = 0 → 0 < k → rest[0]? = some (to_hsize e.mpi_size)) ∧
        (∀ (j v : Nat), rest[j]? = some v → 1 ≤ i + j → 1 ≤ v ∧ v ≤ e.MAX_DIM_SIZE) := by
  intro k
  induction k with
  | zero =>
    intro i dims pos _
    exact ⟨[], by simp [fill_dims], rfl, fun _ h => absurd h (lt_irrefl 0),
      fun j v h _ => by simp at h⟩
  | succ k ih =>
    intro i dims pos hlen
    by_cases hi : i = 0
    · obtain ⟨rest, h1, h2, _, h4⟩ := ih (i + 1) (dims ++ [to_hsize e.mpi_size]) pos
        (by simp [hlen])
      refine ⟨to_hsize e.mpi_size :: rest, ?_, by simp [h2], fun _ _ => by simp, ?_⟩
      · simp only [fill_dims, hi, if_true]
        rw [hi] at h1
        simpa using h1
      · intro j v hv hj
        cases j with
        | zero => omega
        | succ j =>
          simp only [List.getElem?_cons_succ] at hv
          exact h4 j v hv (by omega)
    · obtain ⟨rest, h1, h2, _, h4⟩ := ih (i + 1)
        (dims ++ [e.rand pos % e.MAX_DIM_SIZE + 1]) (pos + 1) (by simp [hlen])
      refine ⟨(e.rand pos % e.MAX_DIM_SIZE + 1) :: rest, ?_, by simp [h2],
        fun h _ => absurd h hi, ?_⟩
      · simp only [fill_dims, hi, if_false]
        simpa using h1
      · intro j v hv hj
        cases j with
        | zero =>
          simp only [List.getElem?_cons_zero, Option.some.injEq] at hv
          subst hv
          have := Nat.mod_lt (e.rand pos) (by omega : 0 < e.MAX_DIM_SIZE)
          omega
        | succ j =>
          simp only [List.getElem?_cons_succ] at hv
          exact h4 j v hv (by omega)

/-- C16: for `space_rank >= 1` (and `MAX_DIM_SIZE >= 1`) the dimensions that the loop
of the main process generates have `space_rank` elements, the first is `mpi_size`
converted to `hsize_t` (which is `mpi_size` itself for a non-negative `mpi_size`), and
every other element lies in `[1, MAX_DIM_SIZE]`; on the main process, when the
allocation succeeds and the broadcast leaves the root buffer as it is, the function
returns 0 and stores exactly these dimensions. For `space_rank <= 0` the function
returns -1, leaves `*dims_out` as it was and calls `rand` not at all. -/
theorem parallel_dimensions (e : ParEnv) (space_rank : Int) (dims_out : Option (List Nat))
    (pos : Nat) :
    (1 ≤ space_rank → 1 ≤ e.MAX_DIM_SIZE →
      (((fill_dims e space_rank.toNat 0 [] pos).1.length : Int) = space_rank ∧
        (fill_dims e space_rank.toNat 0 [] pos).1[0]? = some (to_hsize e.mpi_size) ∧
        (0 ≤ e.mpi_size → e.mpi_size < 2 ^ 64 → (to_hsize e.mpi_size : Int) = e.mpi_size) ∧
        (∀ (i v : Nat), 1 ≤ i → (fill_dims e space_rank.toNat 0 [] pos).1[i]? = some v →
          1 ≤ v ∧ v ≤ e.MAX_DIM_SIZE) ∧
        (e.MAINPROCESS = true → e.malloc_ok = true →
          e.MPI_Bcast (fill_dims e space_rank.toNat 0 [] pos).1 =
            some (fill_dims e space_rank.toNat 0 [] pos).1 →
          generate_random_parallel_dimensions e space_rank dims_out pos =
            (0, some (fill_dims e space_rank.toNat 0 [] pos).1,
              (fill_dims e space_rank.toNat 0 [] pos).2)))) ∧
    (space_rank ≤ 0 →
      generate_random_parallel_dimensions e space_rank dims_out pos = (-1, dims_out, pos)) := by
  constructor
  · intro hr hM
    obtain ⟨rest, h1, h2, h3, h4⟩ := fill_dims_spec e hM space_rank.toNat 0 [] pos rfl
    have hpos : 0 < space_rank.toNat := by omega
    simp only [List.nil_append] at h1
    rw [h1]
    refine ⟨by rw [h2]; omega, h3 rfl hpos, ?_, ?_, ?_⟩
    · intro h0 hlt
      unfold to_hsize
      rw [Int.emod_eq_of_lt h0 hlt]
      exact Int.toNat_of_nonneg h0
    · intro i v hi hv
      exact h4 i v hv (by omega)
    · intro hmain hmal hb
      have hr2 : ¬ (space_rank ≤ 0) := by omega
      have hmal2 : ¬ (e.malloc_ok = false) := by simp [hmal]
      unfold generate_random_parallel_dimensions
      rw [if_neg hr2, if_neg hmal2]
      simp only [hmain, if_true, h1, hb]
  · intro hr
    unfold generate_random_parallel_dimensions
    rw [if_pos hr]

/-- Witness of `parallel_dimensions`: rank 3 on the main process of 4 processes, with
`MAX_DIM_SIZE` 16 and `rand()` returning 37, 5, ...: the dimensions are `[4, 6, 6]`. -/
theorem parallel_dimensions_witness :
    ((1 : Int) ≤ 3 ∧ 1 ≤ (16 : Nat)) ∧
    generate_random_parallel_dimensions
      { rand := fun n => if n = 0 then 37 else 5, MAX_DIM_SIZE := 16, mpi_size := 4,
        MAINPROCESS := true, malloc_ok := true, fresh := [], MPI_Bcast := fun d => some d }
      3 none 0 = (0, some [4, 6, 6], 2) := by
  refine ⟨⟨by decide, by decide⟩, ?_⟩
  have h := (parallel_dimensions
    { rand := fun n => if n = 0 then 37 else 5, MAX_DIM_SIZE := 16, mpi_size := 4,
      MAINPROCESS := true, malloc_ok := true, fresh := [], MPI_Bcast := fun d => some d }
    3 none 0).1 (by decide) (by decide)
  exact h.2.2.2.2 rfl rfl rfl

/-! ## C20: `generate_random_dataspace` -/

theorem space_loop_overflow (e : SpaceEnv) (is_compact : Bool) :
    ∀ (k i : Nat) (dims : List Nat) (out : Option (List Nat)) (pos : Nat),
      i ≤ e.H5S_MAX_RANK → e.H5S_MAX_RANK < i + k →
        space_loop e is_compact k i dims out pos = none := by
  intro k
  induction k with
  | zero =>
    intro i dims out pos h0 h
    exact absurd h (by omega)
  | succ k ih =>
    intro i dims out pos _ h
    unfold space_loop
    by_cases hi : e.H5S_MAX_RANK ≤ i
    · rw [if_pos hi]
    · rw [if_neg hi]
      cases out with
      | none => exact ih (i + 1) _ none _ (by omega) (by omega)
      | some o =>
        simp only
        split
        · rfl
        · exact ih (i + 1) _ _ _ (by omega) (by omega)

theorem space_loop_spec (e : SpaceEnv) (is_compact : Bool) (hM : 1 ≤ e.MAX_DIM_SIZE) :
    ∀ (k i : Nat) (dims : List Nat) (out : Option (List Nat)) (pos : Nat),
      dims.length = i → i + k ≤ e.H5S_MAX_RANK →
      (∀ o, out = some o → i + k ≤ o.length) →
      ∃ rest out2, space_loop e is_compact k i dims out pos =
          some (dims ++ rest, out2, pos + k) ∧ rest.length = k ∧
        (∀ v ∈ rest, 1 ≤ v ∧
          v ≤ (if is_compact then COMPACT_SPACE_MAX_DIM_SIZE else e.MAX_DIM_SIZE)) ∧
        (out = none → out2 = none) ∧
        (∀ o, out = some o → ∃ o2, out2 = some o2 ∧ o2.length = o.length ∧
          (∀ j, j < i → o2[j]? = o[j]?) ∧ (∀ j, j < k → o2[i + j]? = rest[j]?)) := by
  intro k
  induction k with
  | zero =>
    intro i dims out pos _ _ _
    refine ⟨[], out, by simp [space_loop], rfl, by simp, fun h => h, ?_⟩
    intro o ho
    exact ⟨o, ho, rfl, fun _ _ => rfl, fun j hj => absurd hj (by omega)⟩
  | succ k ih =>
    intro i dims out pos hlen hle hout
    have hi : ¬ (e.H5S_MAX_RANK ≤ i) := by omega
    have hv : 1 ≤ (if is_compact = true then e.rand pos % COMPACT_SPACE_MAX_DIM_SIZE + 1
          else e.rand pos % e.MAX_DIM_SIZE + 1) ∧
        (if is_compact = true then e.rand pos % COMPACT_SPACE_MAX_DIM_SIZE + 1
          else e.rand pos % e.MAX_DIM_SIZE + 1) ≤
          (if is_compact = true then COMPACT_SPACE_MAX_DIM_SIZE else e.MAX_DIM_SIZE) := by
      split
      · have := Nat.mod_lt (e.rand pos) (by decide : 0 < COMPACT_SPACE_MAX_DIM_SIZE)
        omega
      · have := Nat.mod_lt (e.rand pos) (by omega : 0 < e.MAX_DIM_SIZE)
        omega
    generalize hvdef : (if is_compact = true then e.rand pos % COMPACT_SPACE_MAX_DIM_SIZE + 1
          else e.rand pos % e.MAX_DIM_SIZE + 1) = v at hv
    cases out with
    | none =>
      obtain ⟨rest, out2, h1, h2, h3, h4, _⟩ := ih (i + 1) (dims ++ [v]) none (pos + 1)
        (by simp [hlen]) (by omega) (fun o ho => by cases ho)
      refine ⟨v :: rest, out2, ?_, by simp [h2], ?_, h4, fun o ho => by cases ho⟩
      · unfold space_loop
        rw [if_neg hi]
        simp only [hvdef, h1, List.append_assoc, List.singleton_append]
        congr 3
        omega
      · intro w hw
        rcases List.mem_cons.1 hw with h | h
        · rw [h]; exact hv
        · exact h3 w h
    | some o =>
      have hol : ¬ (o.length ≤ i) := by
        have := hout o rfl
        omega
      obtain ⟨rest, out2, h1, h2, h3, _, h5⟩ := ih (i + 1) (dims ++ [v]) (some (o.set i v))
        (pos + 1) (by simp [hlen]) (by omega)
        (fun o' ho' => by
          cases ho'
          have := hout o rfl
          simp only [List.length_set]
          omega)
      obtain ⟨o2, ho2, hl2, hpre, hnew⟩ := h5 (o.set i v) rfl
      refine ⟨v :: rest, out2, ?_, by simp [h2], ?_, (fun h => by cases h), ?_⟩
      · unfold space_loop
        rw [if_neg hi]
        simp only [hvdef, if_neg hol, h1, List.append_assoc, List.singleton_append]
        congr 3
        omega
      · intro w hw
        rcases List.mem_cons.1 hw with h | h
        · rw [h]; exact hv
        · exact h3 w h
      · intro o' ho'
        cases ho'
        refine ⟨o2, ho2, by simpa using hl2, ?_, ?_⟩
        · intro j hj
          rw [hpre j (by omega)]
          exact List.getElem?_set_ne (by omega)
        · intro j hj
          cases j with
          | zero =>
            rw [Nat.add_zero, hpre i (by omega)]
            simp only [List.getElem?_cons_zero]
            rw [List.getElem?_set]
            simp only [if_true]
            rw [if_pos (by omega)]
          | succ j =>
            have := hnew j (by omega)
            rw [show i + (j + 1) = i + 1 + j by omega, this, List.getElem?_cons_succ]

/-- C20 (the code departs from it): a request that is not compact with a rank one above
`H5S_MAX_RANK` is not rejected; the loop writes `dataspace_dims[H5S_MAX_RANK]`, past the
end of the array of `H5S_MAX_RANK` elements, which is undefined behaviour. Ranks from 0
to `H5S_MAX_RANK` behave as the claim says (`dataspace_in_range`). -/
theorem dataspace_rank_overflow (e : SpaceEnv) (max_dims dims_out : Option (List Nat))
    (pos : Nat) :
    generate_random_dataspace e ((e.H5S_MAX_RANK : Int) + 1) max_dims dims_out false pos =
      .undefined := by
  have h1 : ¬ ((e.H5S_MAX_RANK : Int) + 1 < 0) := by omega
  have h2 : ¬ (false = true ∧ (e.H5S_MAX_RANK : Int) + 1 > COMPACT_SPACE_MAX_DIMS) := by simp
  unfold generate_random_dataspace
  rw [if_neg h1, if_neg h2,
    space_loop_overflow e false _ 0 [] dims_out pos (Nat.zero_le _) (by omega)]

theorem dataspace_in_range (e : SpaceEnv) (rank : Int) (max_dims dims_out : Option (List Nat))
    (is_compact : Bool) (pos : Nat) (hM : 1 ≤ e.MAX_DIM_SIZE) :
    (rank < 0 ∨ (is_compact = true ∧ rank > COMPACT_SPACE_MAX_DIMS) →
      generate_random_dataspace e rank max_dims dims_out is_compact pos =
        .ret H5I_INVALID_HID dims_out [] pos) ∧
    (0 ≤ rank → ¬ (is_compact = true ∧ rank > COMPACT_SPACE_MAX_DIMS) →
      rank ≤ e.H5S_MAX_RANK → (∀ o, dims_out = some o → rank ≤ o.length) →
      ∃ id dims out2, generate_random_dataspace e rank max_dims dims_out is_compact pos =
          .ret id out2 [(rank, dims, max_dims)] (pos + rank.toNat) ∧
        (dims.length : Int) = rank ∧
        (∀ v ∈ dims, 1 ≤ v ∧
          v ≤ (if is_compact then COMPACT_SPACE_MAX_DIM_SIZE else e.MAX_DIM_SIZE)) ∧
        (dims_out = none → out2 = none) ∧
        (∀ o, dims_out = some o → ∃ o2, out2 = some o2 ∧
          ∀ i : Nat, (i : Int) < rank → o2[i]? = dims[i]?)) := by
  constructor
  · intro h
    unfold generate_random_dataspace
    rcases h with h | h
    · rw [if_pos h]
    · by_cases h0 : rank < 0
      · rw [if_pos h0]
      · rw [if_neg h0, if_pos h]
  · intro h0 hc hmax hout
    have h0' : ¬ (rank < 0) := by omega
    obtain ⟨rest, out2, h1, h2, h3, h4, h5⟩ := space_loop_spec e is_compact hM rank.toNat 0 []
      dims_out pos rfl (by omega) (fun o ho => by have := hout o ho; omega)
    simp only [List.nil_append, Nat.zero_add] at h1 h5
    unfold generate_random_dataspace
    rw [if_neg h0', if_neg hc]
    simp only [h1]
    have hrest : ∀ o, dims_out = some o → ∃ o2, out2 = some o2 ∧
        ∀ i : Nat, (i : Int) < rank → o2[i]? = rest[i]? := by
      intro o ho
      obtain ⟨o2, ho2, _, _, hnew⟩ := h5 o ho
      exact ⟨o2, ho2, fun i hi => hnew i (by omega)⟩
    split
    · exact ⟨_, rest, out2, rfl, by rw [h2]; omega, h3, h4, hrest⟩
    · exact ⟨_, rest, out2, rfl, by rw [h2]; omega, h3, h4, hrest⟩

/-! ## C17 - C19: `generate_random_datatype` -/

variable {L : Type}

theorem Keeps.of_same (s s' : GenState L) (r : Prop) (hd : s'.depth = s.depth)
    (hm : s'.depth_max = s.depth_max) (hl : s'.selected = s.selected) : Keeps s s' r :=
  ⟨fun _ => hd, fun _ h => by rw [hm]; exact h,
    fun h => by unfold GoodLog at *; rw [hl]; exact h⟩

theorem Keeps.of_world (s : GenState L) (w : World L) (r : Prop) :
    Keeps s (s.with_world w) r :=
  Keeps.of_same s _ r rfl rfl rfl

theorem Keeps.trans {s s1 s2 : GenState L} {r1 r2 : Prop} (h1 : Keeps s s1 r1) (hr : r1)
    (h2 : Keeps s1 s2 r2) : Keeps s s2 r2 :=
  ⟨fun h => (h2.depth_eq h).trans (h1.depth_eq hr),
    fun hd hm => h2.max_le (by rw [h1.depth_eq hr]; exact hd) (h1.max_le hd hm),
    fun hl => h2.log_ok (h1.log_ok hl)⟩

theorem Keeps.weaken {s s' : GenState L} {r r' : Prop} (h : Keeps s s' r) (hr : r' → r) :
    Keeps s s' r' :=
  ⟨fun x => h.depth_eq (hr x), h.max_le, h.log_ok⟩

/-- The `switch` hands out only allowed generators, and a recursive one only when
`depth + 1` is within the bound. -/
theorem choose_generator_gen (p : H5T_class_t) (d : Int) (c : Option H5T_class_t)
    (g : generate_datatype_func) (h : choose_generator p d c = .gen g) :
    allowed p g ∧ (g = .compound ∨ g = .array → d + 1 ≤ TYPE_GEN_RECURSION_MAX_DEPTH) := by
  unfold allowed
  rcases c with _ | c
  · simp only [choose_generator] at h
    cases h
  · cases c
    case H5T_NO_CLASS => simp only [choose_generator] at h; cases h
    case H5T_INTEGER =>
      simp only [choose_generator, Choice.gen.injEq] at h
      subst h
      exact ⟨⟨by decide, fun _ => Or.inl rfl⟩, fun hg => by rcases hg with hg | hg <;> cases hg⟩
    case H5T_FLOAT =>
      simp only [choose_generator, Choice.gen.injEq] at h
      subst h
      exact ⟨⟨by decide, fun _ => Or.inr (Or.inl rfl)⟩,
        fun hg => by rcases hg with hg | hg <;> cases hg⟩
    case H5T_TIME => simp only [choose_generator] at h; cases h
    case H5T_STRING =>
      simp only [choose_generator, Choice.gen.injEq] at h
      subst h
      exact ⟨⟨by decide, fun _ => Or.inr (Or.inr rfl)⟩,
        fun hg => by rcases hg with hg | hg <;> cases hg⟩
    case H5T_BITFIELD => simp only [choose_generator] at h; cases h
    case H5T_OPAQUE => simp only [choose_generator] at h; cases h
    case H5T_COMPOUND =>
      simp only [choose_generator] at h
      by_cases hc : p = .H5T_ARRAY ∨ d + 1 > TYPE_GEN_RECURSION_MAX_DEPTH
      · rw [if_pos hc] at h
        cases h
      · rw [if_neg hc, Choice.gen.injEq] at h
        subst h
        rw [not_or] at hc
        exact ⟨⟨by decide, fun hp => absurd hp hc.1⟩, fun _ => not_lt.mp hc.2⟩
    case H5T_REFERENCE => simp only [choose_generator] at h; cases h
    case H5T_ENUM =>
      simp only [choose_generator] at h
      by_cases hc : p = .H5T_ARRAY
      · rw [if_pos hc] at h
        cases h
      · rw [if_neg hc, Choice.gen.injEq] at h
        subst h
        exact ⟨⟨by decide, fun hp => absurd hp hc⟩,
          fun hg => by rcases hg with hg | hg <;> cases hg⟩
    case H5T_VLEN => simp only [choose_generator] at h; cases h
    case H5T_ARRAY =>
      simp only [choose_generator] at h
      by_cases hc : p = .H5T_ARRAY ∨ d + 1 > TYPE_GEN_RECURSION_MAX_DEPTH
      · rw [if_pos hc] at h
        cases h
      · rw [if_neg hc, Choice.gen.injEq] at h
        subst h
        rw [not_or] at hc
        exact ⟨⟨by decide, fun hp => absurd hp hc.1⟩, fun _ => not_lt.mp hc.2⟩

theorem compound_loop_keeps (e : TypeEnv L) (gen : GenState L → Option Int × GenState L)
    (hgen : ∀ s r s', gen s = (r, s') → Keeps s s' (r ≠ none)) (datatype : Int) :
    ∀ (k i csize off : Nat) (members : List Int) (s : GenState L) (r : Option Bool)
      (ms : List Int) (s' : GenState L),
      compound_loop e gen datatype k i csize off members s = (r, ms, s') →
        Keeps s s' (r ≠ none) := by
  intro k
  induction k with
  | zero =>
    intro i csize off members s r ms s' h
    simp only [compound_loop, Prod.mk.injEq] at h
    obtain ⟨_, _, rfl⟩ := h
    exact Keeps.of_same _ _ _ rfl rfl rfl
  | succ k ih =>
    intro i csize off members s r ms s' h
    rw [compound_loop] at h
    rcases hg : gen s with ⟨g, s1⟩
    have hk := hgen s g s1 hg
    rw [hg] at h
    rcases g with _ | m
    · simp only [Prod.mk.injEq] at h
      obtain ⟨rfl, _, rfl⟩ := h
      exact hk.weaken (fun x => absurd rfl x)
    · have hk1 : Keeps s s1 True := ⟨fun _ => hk.depth_eq (by simp), hk.max_le, hk.log_ok⟩
      simp only at h
      split_ifs at h
      · simp only [Prod.mk.injEq] at h
        obtain ⟨_, _, rfl⟩ := h
        exact hk1.weaken (fun _ => trivial)
      · simp only [Prod.mk.injEq] at h
        obtain ⟨_, _, rfl⟩ := h
        exact hk1.weaken (fun _ => trivial)
      · simp only [Prod.mk.injEq] at h
        obtain ⟨_, _, rfl⟩ := h
        exact hk1.trans trivial (Keeps.of_same _ _ _ rfl rfl rfl)
      · simp only [Prod.mk.injEq] at h
        obtain ⟨_, _, rfl⟩ := h
        exact hk1.trans trivial (Keeps.of_same _ _ _ rfl rfl rfl)
      · have h2 := ih _ _ _ _ _ _ _ _ h
        exact hk1.trans trivial
          (Keeps.trans (Keeps.of_world s1 _ True) trivial h2)

theorem compound_keeps (e : TypeEnv L)
    (gen : H5T_class_t → Bool → GenState L → Option Int × GenState L)
    (hgen : ∀ p c s r s', gen p c s = (r, s') → Keeps s s' (r ≠ none))
    (p : H5T_class_t) (c : Bool) (s : GenState L) (r : Option Int) (s' : GenState L)
    (h : generate_random_datatype_compound e gen p c s = (r, s')) : Keeps s s' (r ≠ none) := by
  unfold generate_random_datatype_compound at h
  simp only at h
  split_ifs at h
  · simp only [Prod.mk.injEq] at h
    obtain ⟨_, rfl⟩ := h
    exact Keeps.of_world _ _ _
  · split at h
    · rename_i ms s1 hl
      simp only [Prod.mk.injEq] at h
      obtain ⟨rfl, rfl⟩ := h
      have h2 := compound_loop_keeps e (gen .H5T_COMPOUND c) (hgen _ _) _ _ _ _ _ _ _ _ _ _ hl
      exact (Keeps.trans (Keeps.of_world s _ True) trivial h2).weaken (fun x => absurd rfl x)
    · rename_i ms s1 hl
      simp only [Prod.mk.injEq] at h
      obtain ⟨_, rfl⟩ := h
      have h2 := compound_loop_keeps e (gen .H5T_COMPOUND c) (hgen _ _) _ _ _ _ _ _ _ _ _ _ hl
      exact Keeps.trans (Keeps.trans (Keeps.of_world s _ True) trivial h2) (by simp)
        (Keeps.of_world _ _ _)
    · rename_i ms s1 hl
      simp only [Prod.mk.injEq] at h
      obtain ⟨_, rfl⟩ := h
      have h2 := compound_loop_keeps e (gen .H5T_COMPOUND c) (hgen _ _) _ _ _ _ _ _ _ _ _ _ hl
      exact Keeps.trans (Keeps.trans (Keeps.of_world s _ True) trivial h2) (by simp)
        (Keeps.of_world _ _ _)

theorem array_keeps (e : TypeEnv L)
    (gen : H5T_class_t → Bool → GenState L → Option Int × GenState L)
    (hgen : ∀ p c s r s', gen p c s = (r, s') → Keeps s s' (r ≠ none))
    (p : H5T_class_t) (c : Bool) (s : GenState L) (r : Option Int) (s' : GenState L)
    (h : generate_random_datatype_array e gen p c s = (r, s')) : Keeps s s' (r ≠ none) := by
  unfold generate_random_datatype_array at h
  simp only at h
  split_ifs at h
  · simp only [Prod.mk.injEq] at h
    obtain ⟨_, rfl⟩ := h
    exact Keeps.of_world _ _ _
  · split at h
    · rename_i s1 hl
      simp only [Prod.mk.injEq] at h
      obtain ⟨rfl, rfl⟩ := h
      have h2 := hgen _ _ _ _ _ hl
      exact (Keeps.trans (Keeps.of_world s _ True) trivial h2).weaken (fun x => absurd rfl x)
    · rename_i base s1 hl
      have h2 := hgen _ _ _ _ _ hl
      have h3 : Keeps s s1 True :=
        (Keeps.trans (Keeps.of_world s _ True) trivial h2).weaken (fun _ => by simp)
      split_ifs at h
      · simp only [Prod.mk.injEq] at h
        obtain ⟨_, rfl⟩ := h
        exact h3.weaken (fun _ => trivial)
      · simp only [Prod.mk.injEq] at h
        obtain ⟨_, rfl⟩ := h
        exact h3.trans trivial (Keeps.of_world _ _ _)
      · simp only [Prod.mk.injEq] at h
        obtain ⟨_, rfl⟩ := h
        exact h3.trans trivial (Keeps.of_world _ _ _)

/-- The call of line 175 returns with `depth` as it was; a leaf generator does not touch
the counter at all, a recursive one keeps it within the bound when entered with `depth`
at most 2. -/
theorem call_generator_keeps (e : TypeEnv L)
    (gen : H5T_class_t → Bool → GenState L → Option Int × GenState L)
    (hgen : ∀ p c s r s', gen p c s = (r, s') → Keeps s s' (r ≠ none))
    (fuel : Nat) (g : generate_datatype_func) (p : H5T_class_t) (c : Bool) (s : GenState L)
    (r : Option Int) (s' : GenState L) (h : call_generator e gen fuel g p c s = (r, s')) :
    (r ≠ none → s'.depth = s.depth) ∧
    (s.depth_max ≤ TYPE_GEN_RECURSION_MAX_DEPTH →
      (g = .compound ∨ g = .array → s.depth ≤ 2) →
      s'.depth_max ≤ TYPE_GEN_RECURSION_MAX_DEPTH) ∧
    (GoodLog s → GoodLog s') := by
  cases g
  case compound =>
    have hk := compound_keeps e gen hgen p c s r s' h
    exact ⟨hk.depth_eq, fun hm hd => hk.max_le (hd (Or.inl rfl)) hm, hk.log_ok⟩
  case array =>
    have hk := array_keeps e gen hgen p c s r s' h
    exact ⟨hk.depth_eq, fun hm hd => hk.max_le (hd (Or.inr rfl)) hm, hk.log_ok⟩
  all_goals
    simp only [call_generator, Prod.mk.injEq] at h
    obtain ⟨_, rfl⟩ := h
    exact ⟨fun _ => rfl, fun hm _ => hm, fun hl => hl⟩

theorem GoodLog.append {s : GenState L} (hl : GoodLog s) (w : World L) (p : H5T_class_t)
    (g : generate_datatype_func) (ha : allowed p g) :
    GoodLog { s with world := w, selected := s.selected ++ [(p, g)] } := by
  intro x hx
  simp only [List.mem_append, List.mem_singleton] at hx
  rcases hx with hx | hx
  · exact hl x hx
  · rw [hx]
    exact ha

/-- The body of `generate_random_datatype` from `roll_datatype` on, entered with the
counter already raised: it returns with the counter lowered by one, keeps it within the
bound if it was on entry, and calls allowed generators only. -/
theorem roll_datatype_keeps (e : TypeEnv L)
    (gen : H5T_class_t → Bool → GenState L → Option Int × GenState L)
    (hgen : ∀ p c s r s', gen p c s = (r, s') → Keeps s s' (r ≠ none))
    (p : H5T_class_t) (c : Bool) :
    ∀ (fuel : Nat) (s : GenState L) (r : Option Int) (s' : GenState L),
      roll_datatype e gen p c fuel s = (r, s') →
        (r ≠ none → s'.depth = s.depth - 1) ∧
        (s.depth ≤ TYPE_GEN_RECURSION_MAX_DEPTH →
          s.depth_max ≤ TYPE_GEN_RECURSION_MAX_DEPTH →
          s'.depth_max ≤ TYPE_GEN_RECURSION_MAX_DEPTH) ∧
        (GoodLog s → GoodLog s') := by
  intro fuel
  induction fuel with
  | zero =>
    intro s r s' h
    simp only [roll_datatype, Prod.mk.injEq] at h
    obtain ⟨rfl, rfl⟩ := h
    exact ⟨fun x => absurd rfl x, fun _ hm => hm, fun hl => hl⟩
  | succ fuel ih =>
    intro s r s' h
    rw [roll_datatype] at h
    split at h
    · have h2 := ih _ _ _ h
      exact h2
    · simp only [Prod.mk.injEq] at h
      obtain ⟨_, rfl⟩ := h
      exact ⟨fun _ => rfl, fun _ hm => hm, fun hl => hl⟩
    · rename_i g hc
      obtain ⟨hal, hrec⟩ := choose_generator_gen _ _ _ _ hc
      have hrec2 : g = .compound ∨ g = .array → s.depth ≤ 2 := by
        intro hg
        have := hrec hg
        unfold TYPE_GEN_RECURSION_MAX_DEPTH at this
        omega
      split at h
      · rename_i s1 hcg
        simp only [Prod.mk.injEq] at h
        obtain ⟨rfl, rfl⟩ := h
        have hk := call_generator_keeps e gen hgen _ _ _ _ _ _ _ hcg
        exact ⟨fun x => absurd rfl x, fun _ hm => hk.2.1 hm hrec2,
          fun hl => hk.2.2 (hl.append _ _ _ hal)⟩
      · rename_i dt s1 hcg
        have hk := call_generator_keeps e gen hgen _ _ _ _ _ _ _ hcg
        have hde : s1.depth = s.depth := hk.1 (by simp)
        have hfin : (leave s1).depth = s.depth - 1 ∧
            (s.depth_max ≤ TYPE_GEN_RECURSION_MAX_DEPTH →
              (leave s1).depth_max ≤ TYPE_GEN_RECURSION_MAX_DEPTH) ∧
            (GoodLog s → GoodLog (leave s1)) :=
          ⟨by simp only [leave, hde], fun hm => hk.2.1 hm hrec2,
            fun hl => hk.2.2 (hl.append _ _ _ hal)⟩
        split_ifs at h
        · simp only [Prod.mk.injEq] at h
          obtain ⟨_, rfl⟩ := h
          exact ⟨fun _ => hfin.1, fun _ => hfin.2.1, hfin.2.2⟩
        · simp only [Prod.mk.injEq] at h
          obtain ⟨_, rfl⟩ := h
          exact ⟨fun _ => hfin.1, fun _ => hfin.2.1, hfin.2.2⟩
        · have h2 := ih _ _ _ h
          exact ⟨fun x => (h2.1 x).trans (by simp only [GenState.with_world, hde]),
            fun hd hm => h2.2.1 (by simp only [GenState.with_world, hde]; exact hd)
              (hfin.2.1 hm),
            fun hl => h2.2.2 (hfin.2.2 hl)⟩
        · simp only [Prod.mk.injEq] at h
          obtain ⟨_, rfl⟩ := h
          exact ⟨fun _ => hfin.1, fun _ => hfin.2.1, hfin.2.2⟩
        · simp only [Prod.mk.injEq] at h
          obtain ⟨_, rfl⟩ := h
          exact ⟨fun _ => hfin.1, fun _ => hfin.2.1, hfin.2.2⟩

/-- The three properties kept by every call of `generate_random_datatype`, whatever the
fuel. -/
theorem generate_random_datatype_keeps (e : TypeEnv L) :
    ∀ (fuel : Nat) (p : H5T_class_t) (c : Bool) (s : GenState L) (r : Option Int)
      (s' : GenState L),
      generate_random_datatype e fuel p c s = (r, s') → Keeps s s' (r ≠ none) := by
  intro fuel
  induction fuel with
  | zero =>
    intro p c s r s' h
    simp only [generate_random_datatype, Prod.mk.injEq] at h
    obtain ⟨rfl, rfl⟩ := h
    exact Keeps.of_same _ _ _ rfl rfl rfl
  | succ fuel ih =>
    intro p c s r s' h
    rw [generate_random_datatype] at h
    have h2 := roll_datatype_keeps e _ ih p c fuel _ r s' h
    refine ⟨fun hr => ?_, fun hd hm => ?_, h2.2.2⟩
    · rw [h2.1 hr]
      simp only [add_sub_cancel_right]
    · refine h2.2.1 ?_ ?_
      · simp only [TYPE_GEN_RECURSION_MAX_DEPTH]
        omega
      · simp only [TYPE_GEN_RECURSION_MAX_DEPTH] at hm ⊢
        omega

/-! ### C18: the recursion bound -/

/-- C18: in a call of `generate_random_datatype` entered with the static `depth` at 0,
the counter never exceeds `TYPE_GEN_RECURSION_MAX_DEPTH` = 3, also in a run that is cut
off by the fuel (`depth_max` records the largest value taken); the `switch` hands out
the compound and the array generator only when `depth + 1 <= 3`, so with `depth` at 3 or
more neither is chosen; and whenever a call entered with `depth` at 0, 1 or 2 (the
values at which calls are made in a run that starts at 0) returns, with a datatype or
with `H5I_INVALID_HID`, `depth` is back at its value on entry. -/
theorem recursion_depth_bounded (e : TypeEnv L) (fuel : Nat) (parent_class : H5T_class_t)
    (is_compact : Bool) (s : GenState L) :
    (s.depth = 0 → s.depth_max ≤ TYPE_GEN_RECURSION_MAX_DEPTH →
      (generate_random_datatype e fuel parent_class is_compact s).2.depth_max ≤
        TYPE_GEN_RECURSION_MAX_DEPTH) ∧
    (∀ (d : Int) (c : Option H5T_class_t) (g : generate_datatype_func),
      choose_generator parent_class d c = .gen g →
        (g = .compound ∨ g = .array → d + 1 ≤ TYPE_GEN_RECURSION_MAX_DEPTH) ∧
        (TYPE_GEN_RECURSION_MAX_DEPTH ≤ d → g ≠ .compound ∧ g ≠ .array)) ∧
    (0 ≤ s.depth → s.depth ≤ 2 → ∀ (d : Int) (s' : GenState L),
      generate_random_datatype e fuel parent_class is_compact s = (some d, s') →
        s'.depth = s.depth) := by
  refine ⟨fun h0 hm => ?_, fun d c g hc => ?_, fun _ _ d s' h => ?_⟩
  · exact (generate_random_datatype_keeps e fuel parent_class is_compact s _ _ rfl).max_le
      (by rw [h0]; decide) hm
  · have h := (choose_generator_gen parent_class d c g hc).2
    refine ⟨h, fun hd => ⟨fun hg => ?_, fun hg => ?_⟩⟩
    · have := h (Or.inl hg)
      omega
    · have := h (Or.inr hg)
      omega
  · exact (generate_random_datatype_keeps e fuel parent_class is_compact s _ _ h).depth_eq
      (by simp)

/-- Witness of `recursion_depth_bounded`: with `rand()` returning 6, 0, 6, 0, 6, 10, 6,
8, 2, 1, 2, 3 the example library builds a compound holding a compound holding an
enumeration; the counter reaches 3, where the compound and array rolls are rejected, and
is back at 0 when the call returns the outer compound (identifier 1). -/
theorem recursion_depth_bounded_witness :
    (demo_start.depth = 0 ∧ demo_start.depth_max ≤ TYPE_GEN_RECURSION_MAX_DEPTH) ∧
    (generate_random_datatype (demo_types [6, 0, 6, 0, 6, 10, 6, 8, 2, 1, 2, 3]) 8
      .H5T_NO_CLASS false demo_start).1 = some 1 ∧
    (generate_random_datatype (demo_types [6, 0, 6, 0, 6, 10, 6, 8, 2, 1, 2, 3]) 8
      .H5T_NO_CLASS false demo_start).2.depth_max = 3 ∧
    (generate_random_datatype (demo_types [6, 0, 6, 0, 6, 10, 6, 8, 2, 1, 2, 3]) 8
      .H5T_NO_CLASS false demo_start).2.depth_max ≤ TYPE_GEN_RECURSION_MAX_DEPTH ∧
    (2 : Int) + 1 ≤ TYPE_GEN_RECURSION_MAX_DEPTH ∧
    (generate_datatype_func.enum ≠ .compound ∧ generate_datatype_func.enum ≠ .array) ∧
    (generate_random_datatype (demo_types [6, 0, 6, 0, 6, 10, 6, 8, 2, 1, 2, 3]) 8
      .H5T_NO_CLASS false demo_start).2.depth = demo_start.depth :=
  ⟨⟨rfl, by decide⟩, rfl, rfl,
    (recursion_depth_bounded (demo_types [6, 0, 6, 0, 6, 10, 6, 8, 2, 1, 2, 3]) 8
      .H5T_NO_CLASS false demo_start).1 rfl (by decide),
    ((recursion_depth_bounded (demo_types [6, 0, 6, 0, 6, 10, 6, 8, 2, 1, 2, 3]) 8
      .H5T_NO_CLASS false demo_start).2.1 2 (some .H5T_COMPOUND) .compound rfl).1 (Or.inl rfl),
    ((recursion_depth_bounded (demo_types [6, 0, 6, 0, 6, 10, 6, 8, 2, 1, 2, 3]) 8
      .H5T_NO_CLASS false demo_start).2.1 3 (some .H5T_ENUM) .enum rfl).2 (by decide),
    (recursion_depth_bounded (demo_types [6, 0, 6, 0, 6, 10, 6, 8, 2, 1, 2, 3]) 8
      .H5T_NO_CLASS false demo_start).2.2 (by decide) (by decide) 1 _ rfl⟩

/-! ### C17: the size of a generated datatype -/

theorem roll_datatype_size (e : TypeEnv L)
    (gen : H5T_class_t → Bool → GenState L → Option Int × GenState L)
    (hgen : ∀ p c s r s', gen p c s = (r, s') → Keeps s s' (r ≠ none))
    (p : H5T_class_t) (c : Bool) :
    ∀ (fuel : Nat) (s : GenState L) (d : Int) (s' : GenState L), s.depth = 1 →
      roll_datatype e gen p c fuel s = (some d, s') → 0 ≤ d →
        1 ≤ e.H5Tget_size s'.world.lib d ∧
        e.H5Tget_size s'.world.lib d ≤ GENERATED_DATATYPE_MAX_SIZE ∧
        (c = true → e.H5Tget_size s'.world.lib d ≤ COMPACT_DATATYPE_MAX_SIZE) := by
  intro fuel
  induction fuel with
  | zero =>
    intro s d s' _ h
    simp only [roll_datatype, Prod.mk.injEq] at h
    exact absurd h.1 (by simp)
  | succ fuel ih =>
    intro s d s' h1 h hd
    rw [roll_datatype] at h
    split at h
    · exact ih _ _ _ (by exact h1) h hd
    · simp only [Prod.mk.injEq, Option.some.injEq] at h
      rw [← h.1] at hd
      exact absurd hd (by decide)
    · split at h
      · simp only [Prod.mk.injEq] at h
        exact absurd h.1 (by simp)
      · rename_i dt s1 hcg
        have hde : s1.depth = 1 :=
          ((call_generator_keeps e gen hgen _ _ _ _ _ _ _ hcg).1 (by simp)).trans h1
        split_ifs at h with hneg hz hbig
        · simp only [Prod.mk.injEq, Option.some.injEq] at h
          rw [← h.1] at hd
          exact absurd hd (by decide)
        · simp only [Prod.mk.injEq, Option.some.injEq] at h
          rw [← h.1] at hd
          exact absurd hd (by decide)
        · exact ih _ _ _ (by exact hde) h hd
        · simp only [Prod.mk.injEq, Option.some.injEq] at h
          obtain ⟨rfl, rfl⟩ := h
          rw [not_or, not_and] at hbig
          exact ⟨Nat.pos_of_ne_zero hz, not_lt.mp hbig.1, fun hc => not_lt.mp (hbig.2 hc)⟩

/-- C17: a datatype (`d >= 0`) returned by a call of `generate_random_datatype` entered
with the static `depth` at 0 has, in the library state of the return, a size between 1
and `GENERATED_DATATYPE_MAX_SIZE` = 65536, and of at most `COMPACT_DATATYPE_MAX_SIZE` =
1024 when `is_compact` is true, for every `rand()` stream and library; and a candidate
that a generator returns at depth 1 with a size over the limit is closed with `H5Tclose`
and the body goes back to `roll_datatype`. -/
theorem generated_size_bounded (e : TypeEnv L) (fuel : Nat) (parent_class : H5T_class_t)
    (is_compact : Bool) (s : GenState L) (h0 : s.depth = 0) :
    (∀ (d : Int) (s' : GenState L),
      generate_random_datatype e fuel parent_class is_compact s = (some d, s') → 0 ≤ d →
        1 ≤ e.H5Tget_size s'.world.lib d ∧
        e.H5Tget_size s'.world.lib d ≤ GENERATED_DATATYPE_MAX_SIZE ∧
        (is_compact = true → e.H5Tget_size s'.world.lib d ≤ COMPACT_DATATYPE_MAX_SIZE)) ∧
    (∀ (gen : H5T_class_t → Bool → GenState L → Option Int × GenState L) (n : Nat)
      (s0 s1 : GenState L) (g : generate_datatype_func) (dt : Int),
      choose_generator parent_class s0.depth (e.roll_class (s0.world.rand e).1) = .gen g →
      call_generator e gen n g parent_class is_compact
        { s0 with world := (s0.world.rand e).2,
                  selected := s0.selected ++ [(parent_class, g)] } = (some dt, s1) →
      0 ≤ dt → s1.depth = 1 →
      (e.H5Tget_size s1.world.lib dt > GENERATED_DATATYPE_MAX_SIZE ∨
        (is_compact = true ∧ e.H5Tget_size s1.world.lib dt > COMPACT_DATATYPE_MAX_SIZE)) →
      roll_datatype e gen parent_class is_compact (n + 1) s0 =
        roll_datatype e gen parent_class is_compact n
          (s1.with_world (s1.world.call e (.H5Tclose dt)).2)) := by
  constructor
  · intro d s' h hd
    cases fuel with
    | zero =>
      simp only [generate_random_datatype, Prod.mk.injEq] at h
      exact absurd h.1 (by simp)
    | succ fuel =>
      rw [generate_random_datatype] at h
      exact roll_datatype_size e _ (generate_random_datatype_keeps e fuel) parent_class
        is_compact fuel _ d s' (by simp only [h0]; rfl) h hd
  · intro gen n s0 s1 g dt hc hcg hd hdep hbig
    have hz : ¬ (e.H5Tget_size s1.world.lib dt = 0) := by
      intro hz
      rw [hz] at hbig
      rcases hbig with hb | hb
      · exact absurd hb (by decide)
      · exact absurd hb.2 (by decide)
    rw [roll_datatype]
    simp only [hc, hcg]
    rw [if_neg (not_lt.mpr hd), if_pos hdep, if_neg hz, if_pos hbig]

/-- Witness of `generated_size_bounded`: a compact request with `rand()` returning 6, 1,
3, 999, 3, 999, 0, 4. The first candidate is a compound of two strings of 1000 bytes
(identifiers 1, 2, 3); its 2000 bytes exceed the compact limit, so it is closed and the
next roll returns an integer type of 8 bytes (identifier 4). -/
theorem generated_size_bounded_witness :
    demo_start.depth = 0 ∧
    generate_random_datatype (demo_types demo_oversized) 5 .H5T_NO_CLASS true demo_start =
      (some 4, (generate_random_datatype (demo_types demo_oversized) 5 .H5T_NO_CLASS true
        demo_start).2) ∧
    (generate_random_datatype (demo_types demo_oversized) 5 .H5T_NO_CLASS true
      demo_start).2.world.lib = { sizes := [2000, 1000, 1000, 8], closed := [2, 3, 1] } ∧
    (1 ≤ demo_size (generate_random_datatype (demo_types demo_oversized) 5 .H5T_NO_CLASS true
        demo_start).2.world.lib 4 ∧
      demo_size (generate_random_datatype (demo_types demo_oversized) 5 .H5T_NO_CLASS true
        demo_start).2.world.lib 4 ≤ GENERATED_DATATYPE_MAX_SIZE ∧
      demo_size (generate_random_datatype (demo_types demo_oversized) 5 .H5T_NO_CLASS true
        demo_start).2.world.lib 4 ≤ COMPACT_DATATYPE_MAX_SIZE) ∧
    roll_datatype (demo_types demo_oversized)
        (generate_random_datatype (demo_types demo_oversized) 4) .H5T_NO_CLASS true (4 + 1)
        demo_entered =
      roll_datatype (demo_types demo_oversized)
        (generate_random_datatype (demo_types demo_oversized) 4) .H5T_NO_CLASS true 4
        { world := { nrand := 6,
                     lib := { sizes := [2000, 1000, 1000], closed := [2, 3, 1] } },
          depth := 1, depth_max := 2,
          selected := [(.H5T_NO_CLASS, .compound), (.H5T_COMPOUND, .string),
            (.H5T_COMPOUND, .string)] } :=
  have h := generated_size_bounded (demo_types demo_oversized) 5 .H5T_NO_CLASS true
    demo_start rfl
  ⟨rfl, rfl, rfl,
    (fun x => ⟨x.1, x.2.1, x.2.2 rfl⟩) (h.1 4 _ rfl (by decide)),
    h.2 (generate_random_datatype (demo_types demo_oversized) 4) 4 demo_entered
      { world := { nrand := 6, lib := { sizes := [2000, 1000, 1000], closed := [2, 3] } },
        depth := 1, depth_max := 2,
        selected := [(.H5T_NO_CLASS, .compound), (.H5T_COMPOUND, .string),
          (.H5T_COMPOUND, .string)] }
      .compound 1 rfl rfl (by decide) rfl (Or.inr ⟨rfl, by decide⟩)⟩

/-! ### C19: the generators that are selected -/

/-- C19: for every value of `depth` the `switch` of `generate_random_datatype` goes back
to `roll_datatype` on the time, bitfield, opaque, reference and variable-length labels,
so the generator it hands out is never the reference one (the other four classes have
no generator); with `H5T_ARRAY` as parent class it hands out only the integer, float or
string generator. In a run, for every `rand()` stream and library, every call
`(gen_func)(parent_class, is_compact)` made, at any depth, obeys both rules (`selected`
records the calls); and the array generator obtains its base type from
`generate_random_datatype` with `H5T_ARRAY` as parent class only. -/
theorem generator_selection (e : TypeEnv L) (fuel : Nat) (parent_class : H5T_class_t)
    (is_compact : Bool) (s : GenState L) :
    (∀ (d : Int) (c : H5T_class_t),
      c = .H5T_TIME ∨ c = .H5T_BITFIELD ∨ c = .H5T_OPAQUE ∨ c = .H5T_REFERENCE ∨
        c = .H5T_VLEN →
      choose_generator parent_class d (some c) = .reroll) ∧
    (∀ (d : Int) (c : Option H5T_class_t) (g : generate_datatype_func),
      choose_generator parent_class d c = .gen g →
        g ≠ .reference ∧
        (parent_class = .H5T_ARRAY → g = .integer ∨ g = .float ∨ g = .string)) ∧
    (GoodLog s →
      ∀ x ∈ (generate_random_datatype e fuel parent_class is_compact s).2.selected,
        x.2 ≠ .reference ∧
        (x.1 = .H5T_ARRAY → x.2 = .integer ∨ x.2 = .float ∨ x.2 = .string)) ∧
    (∀ (gen gen2 : H5T_class_t → Bool → GenState L → Option Int × GenState L),
      (∀ x, gen .H5T_ARRAY is_compact x = gen2 .H5T_ARRAY is_compact x) →
      generate_random_datatype_array e gen parent_class is_compact s =
        generate_random_datatype_array e gen2 parent_class is_compact s) := by
  refine ⟨fun d c hc => ?_, fun d c g hc => ?_, fun hl x hx => ?_, fun gen gen2 hg => ?_⟩
  · rcases hc with hc | hc | hc | hc | hc <;> subst hc <;> rfl
  · exact (choose_generator_gen parent_class d c g hc).1
  · exact (generate_random_datatype_keeps e fuel parent_class is_compact s _ _ rfl).log_ok
      hl x hx
  · unfold generate_random_datatype_array
    simp only [hg]

/-- Witness of `generator_selection`: with `rand()` returning 10, 1, 5, 5, 6, 10, 8, 3,
7 the array generator is selected at the top; for its base type the compound, array and
enumeration rolls are rejected and the string generator is called. -/
theorem generator_selection_witness :
    GoodLog demo_start ∧
    (generate_random_datatype (demo_types demo_array_rolls) 6 .H5T_NO_CLASS false
      demo_start).1 = some 2 ∧
    (generate_random_datatype (demo_types demo_array_rolls) 6 .H5T_NO_CLASS false
      demo_start).2.selected = [(.H5T_NO_CLASS, .array), (.H5T_ARRAY, .string)] ∧
    (∀ x ∈ (generate_random_datatype (demo_types demo_array_rolls) 6 .H5T_NO_CLASS false
        demo_start).2.selected,
      x.2 ≠ .reference ∧
      (x.1 = .H5T_ARRAY → x.2 = .integer ∨ x.2 = .float ∨ x.2 = .string)) ∧
    choose_generator .H5T_ARRAY 2 (some .H5T_REFERENCE) = .reroll ∧
    (generate_datatype_func.string = .integer ∨ generate_datatype_func.string = .float ∨
      generate_datatype_func.string = .string) ∧
    generate_random_datatype_array (demo_types demo_array_rolls)
        (generate_random_datatype (demo_types demo_array_rolls) 5) .H5T_ARRAY false
        demo_entered =
      generate_random_datatype_array (demo_types demo_array_rolls)
        (fun _ c x => generate_random_datatype (demo_types demo_array_rolls) 5 .H5T_ARRAY c x)
        .H5T_ARRAY false demo_entered :=
  have hl : GoodLog demo_start := fun x hx => absurd hx (List.not_mem_nil x)
  ⟨hl, rfl, rfl,
    (generator_selection (demo_types demo_array_rolls) 6 .H5T_NO_CLASS false
      demo_start).2.2.1 hl,
    (generator_selection (demo_types demo_array_rolls) 6 .H5T_ARRAY false
      demo_start).1 2 .H5T_REFERENCE (Or.inr (Or.inr (Or.inr (Or.inl rfl)))),
    ((generator_selection (demo_types demo_array_rolls) 6 .H5T_ARRAY false
      demo_start).2.1 2 (some .H5T_STRING) .string rfl).2 rfl,
    (generator_selection (demo_types demo_array_rolls) 6 .H5T_ARRAY false
      demo_entered).2.2.2 _ _ (fun _ => rfl)⟩

/-! ## C21: `H5_api_test_name_to_type` and the selection of tests -/

theorem strcmp_eq_zero (a b : List Char) : strcmp a b = 0 ↔ a = b := by
  induction a generalizing b with
  | nil =>
    cases b with
    | nil => simp [strcmp]
    | cons y ys => simp [strcmp]
  | cons x xs ih =>
    cases b with
    | nil => simp [strcmp]
    | cons y ys =>
      simp only [strcmp]
      by_cases hxy : x = y
      · rw [if_pos hxy, ih ys]
        simp [hxy]
      · rw [if_neg hxy]
        constructor
        · intro h
          split_ifs at h
          all_goals exact absurd h (by decide)
        · intro h
          exact absurd (List.cons.inj h).1 hxy

/-- The loop stops at the first index from `i` on whose name is `test_name`, or at
`max`; it reads the table at the indices from `i` up to that one and nowhere else. -/
theorem name_loop_spec (names : List (List Char)) (max : Nat) (s : List Char)
    (hlen : names.length = max + 1) :
    ∀ (fuel i : Nat) (reads : List Nat), i ≤ max → max < i + fuel →
      ∃ j, i ≤ j ∧ j ≤ max ∧
        name_loop names max s fuel i reads =
          some (.ret (j, reads ++ List.range' i (j + 1 - i))) ∧
        (j ≠ max → names[j]? = some s) ∧
        (∀ t, i ≤ t → t < j → names[t]? ≠ some s) := by
  intro fuel
  induction fuel with
  | zero =>
    intro i reads hi hf
    omega
  | succ fuel ih =>
    intro i reads hi hf
    have hin : i < names.length := by omega
    rw [name_loop, List.getElem?_eq_getElem hin]
    simp only
    by_cases hc : strcmp names[i] s ≠ 0 ∧ i ≠ max
    · rw [if_pos hc]
      obtain ⟨j, hj1, hj2, hj3, hj4, hj5⟩ := ih (i + 1) (reads ++ [i]) (by omega) (by omega)
      refine ⟨j, by omega, hj2, ?_, hj4, ?_⟩
      · rw [hj3, show j + 1 - i = (j + 1 - (i + 1)) + 1 by omega, List.range'_succ,
          List.append_assoc]
        rfl
      · intro t ht1 ht2
        by_cases hti : t = i
        · subst hti
          rw [List.getElem?_eq_getElem hin]
          intro h
          exact hc.1 ((strcmp_eq_zero _ _).mpr (Option.some.inj h))
        · exact hj5 t (by omega) ht2
    · rw [if_neg hc]
      refine ⟨i, le_refl i, hi, ?_, ?_, ?_⟩
      · rw [show i + 1 - i = 1 by omega]
        rfl
      · intro hne
        rw [List.getElem?_eq_getElem hin]
        by_cases h0 : strcmp names[i] s = 0
        · rw [(strcmp_eq_zero _ _).mp h0]
        · exact absurd ⟨h0, hne⟩ hc
      · intro t ht1 ht2
        omega

theorem enum_values (have_async : Bool) :
    H5_API_TEST_NULL have_async = 0 ∧ H5_API_TEST_FILE have_async = 1 ∧
    H5_API_TEST_MAX have_async = (if have_async then 10 else 9) ∧
    (H5_api_test_name have_async).length = H5_API_TEST_MAX have_async + 1 ∧
    (H5_api_test_enabled have_async).length = H5_API_TEST_MAX have_async + 1 := by
  cases have_async <;> decide

/-- The names of the tests are pairwise different and none is empty. -/
theorem test_names_distinct (have_async : Bool) (j t : Nat)
    (h2 : t < H5_API_TEST_MAX have_async) (hjt : j ≤ t)
    (h : (H5_api_test_name have_async)[j]? = (H5_api_test_name have_async)[t]?) : j = t := by
  have hN : ((H5_api_test_name have_async).take (H5_API_TEST_MAX have_async)).Nodup := by
    cases have_async <;> decide
  have hlen := (enum_values have_async).2.2.2.1
  by_contra hne
  have hlt : j < t := by omega
  have h3 := List.nodup_iff_getElem?_ne_getElem?.mp hN j t hlt
    (by rw [List.length_take]; omega)
  rw [List.getElem?_take_of_lt (by omega), List.getElem?_take_of_lt h2] at h3
  exact h3 h

/-- Every test between `H5_API_TEST_FILE` and `H5_API_TEST_MAX` has a test function. -/
theorem test_func_present (have_async : Bool) (t : Nat) (h1 : H5_API_TEST_FILE have_async ≤ t)
    (h2 : t < H5_API_TEST_MAX have_async) :
    ∃ f, (H5_api_test_func have_async)[t]? = some (some f) := by
  have key : ∀ t < 10, H5_API_TEST_FILE have_async ≤ t → t < H5_API_TEST_MAX have_async →
      ((H5_api_test_func have_async)[t]?.bind id).isSome = true := by
    cases have_async <;> decide
  have h3 : t < 10 := by
    have := (enum_values have_async).2.2.1
    cases have_async <;> simp at this <;> omega
  have h4 := key t h3 h1 h2
  rcases hx : (H5_api_test_func have_async)[t]? with _ | x
  · rw [hx] at h4
    exact absurd h4 (by simp)
  · rcases x with _ | f
    · rw [hx] at h4
      exact absurd h4 (by simp)
    · exact ⟨f, rfl⟩

theorem run_loop_defined (have_async : Bool) (enabled : List Int) :
    ∀ (k i : Nat) (calls : List String), H5_API_TEST_FILE have_async ≤ i →
      i + k ≤ H5_API_TEST_MAX have_async → H5_API_TEST_MAX have_async < enabled.length →
      ∃ calls2, run_loop have_async enabled k i calls = .ret calls2 := by
  intro k
  induction k with
  | zero =>
    intro i calls _ _ _
    exact ⟨calls, rfl⟩
  | succ k ih =>
    intro i calls h1 h2 h3
    have hin : i < enabled.length := by omega
    obtain ⟨f, hf⟩ := test_func_present have_async i h1 (by omega)
    rw [run_loop, List.getElem?_eq_getElem hin]
    simp only [hf]
    split_ifs
    · exact ih (i + 1) _ (by omega) (by omega) h3
    · exact ih (i + 1) _ (by omega) (by omega) h3

/-- C21: for every string `s` and both variants of the table, `H5_api_test_name_to_type`
terminates (any fuel above `H5_API_TEST_MAX` is enough) without undefined behaviour; it
reads the name table only at indices up to `H5_API_TEST_MAX`, all inside the table; the
value `v` it returns is never `H5_API_TEST_MAX`, is the enumeration value of the test
named `s` when there is one, and `H5_API_TEST_NULL` when there is none (the empty string
included). With `s` as first argument `main` leaves `H5_api_test_enabled` as initialised
when `v` is `H5_API_TEST_NULL` and else clears it and enables test `v` alone; without an
argument it leaves it as initialised; and whatever the array holds, `H5_api_test_run`
has no undefined behaviour: it reads inside the arrays and calls no `NULL` pointer. -/
theorem name_to_type_spec (have_async : Bool) (s : List Char) (fuel : Nat)
    (hf : H5_API_TEST_MAX have_async < fuel) :
    ∃ v reads,
      H5_api_test_name_to_type have_async s fuel = some (.ret (v, reads)) ∧
      (∀ r ∈ reads, r ≤ H5_API_TEST_MAX have_async ∧
        r < (H5_api_test_name have_async).length) ∧
      v ≠ H5_API_TEST_MAX have_async ∧
      (∀ t, H5_API_TEST_FILE have_async ≤ t → t < H5_API_TEST_MAX have_async →
        (H5_api_test_name have_async)[t]? = some s → v = t) ∧
      ((∀ t, H5_API_TEST_FILE have_async ≤ t → t < H5_API_TEST_MAX have_async →
        (H5_api_test_name have_async)[t]? ≠ some s) → v = H5_API_TEST_NULL have_async) ∧
      (s = [] → v = H5_API_TEST_NULL have_async) ∧
      (∀ prog rest, main_select have_async fuel (prog :: s :: rest) =
        some (.ret (if v = H5_API_TEST_NULL have_async then H5_api_test_enabled have_async
          else ((H5_api_test_enabled have_async).map (fun _ => 0)).set v 1))) ∧
      (∀ prog, main_select have_async fuel [prog] =
        some (.ret (H5_api_test_enabled have_async))) ∧
      (∀ enabled : List Int, enabled.length = (H5_api_test_enabled have_async).length →
        ∃ calls, H5_api_test_run have_async enabled = .ret calls) := by
  obtain ⟨hnull, hfile, hmax, hlen, hlen2⟩ := enum_values have_async
  obtain ⟨j, _, hj2, hj3, hj4, hj5⟩ := name_loop_spec (H5_api_test_name have_async)
    (H5_API_TEST_MAX have_async) s hlen fuel 0 [] (Nat.zero_le _) (by omega)
  have hmax0 : H5_API_TEST_MAX have_async ≠ 0 := by
    rw [hmax]
    cases have_async <;> decide
  have hres : H5_api_test_name_to_type have_async s fuel =
      some (.ret (if j = H5_API_TEST_MAX have_async then H5_API_TEST_NULL have_async else j,
        List.range' 0 (j + 1))) := by
    unfold H5_api_test_name_to_type
    rw [hj3]
    simp only [List.nil_append, Nat.sub_zero]
  have hv : (if j = H5_API_TEST_MAX have_async then H5_API_TEST_NULL have_async else j) ≤
      H5_API_TEST_MAX have_async := by
    split_ifs
    · omega
    · exact hj2
  have hnone : (∀ t, H5_API_TEST_FILE have_async ≤ t → t < H5_API_TEST_MAX have_async →
      (H5_api_test_name have_async)[t]? ≠ some s) →
      (if j = H5_API_TEST_MAX have_async then H5_API_TEST_NULL have_async else j) =
        H5_API_TEST_NULL have_async := by
    intro hall
    split_ifs with hjm
    · rfl
    · by_cases hj0 : j = 0
      · rw [hj0, hnull]
      · exact absurd (hj4 hjm) (hall j (by omega) (by omega))
  refine ⟨_, _, hres, ?_, ?_, ?_, hnone, ?_, ?_, ?_, ?_⟩
  · intro r hr
    rw [List.mem_range'_1] at hr
    omega
  · split_ifs with hjm
    · rw [hnull]
      exact fun h => hmax0 h.symm
    · exact hjm
  · intro t ht1 ht2 hts
    have hjt : j ≤ t := by
      by_contra hlt
      exact hj5 t (Nat.zero_le _) (by omega) hts
    have hjm : j ≠ H5_API_TEST_MAX have_async := by omega
    rw [if_neg hjm]
    exact test_names_distinct have_async j t ht2 hjt ((hj4 hjm).trans hts.symm)
  · intro hs
    have hj0 : j = 0 := by
      by_contra hne
      have h0 : (H5_api_test_name have_async)[0]? = some s := by
        rw [hs]
        cases have_async <;> rfl
      exact hj5 0 (Nat.zero_le _) (by omega) h0
    rw [hj0, if_neg (fun h => hmax0 h.symm), hnull]
  · intro prog rest
    simp only [main_select, hres]
    by_cases hv0 : (if j = H5_API_TEST_MAX have_async then H5_API_TEST_NULL have_async
        else j) = H5_API_TEST_NULL have_async
    · rw [if_pos hv0]
      simp only [hv0, ne_eq, not_true_eq_false, if_false]
    · rw [if_neg hv0, if_pos hv0, if_pos (by omega)]
  · intro prog
    rfl
  · intro enabled hen
    unfold H5_api_test_run
    exact run_loop_defined have_async enabled _ _ [] (le_refl _) (by omega) (by omega)

/-- Witness of `name_to_type_spec`: without async, `"dataset"` is found at index 3
after reading indices 0 to 3, and `main` then enables the dataset test alone. -/
theorem name_to_type_spec_witness :
    H5_API_TEST_MAX false < 10 ∧
    H5_api_test_name_to_type false ['d', 'a', 't', 'a', 's', 'e', 't'] 10 =
      some (.ret (3, [0, 1, 2, 3])) ∧
    main_select false 10 [['p'], ['d', 'a', 't', 'a', 's', 'e', 't']] =
      some (.ret [0, 0, 0, 1, 0, 0, 0, 0, 0, 0]) ∧
    H5_api_test_run false [0, 0, 0, 1, 0, 0, 0, 0, 0, 0] =
      .ret ["H5_api_dataset_test_parallel"] ∧
    ∃ v reads,
      H5_api_test_name_to_type false ['d', 'a', 't', 'a', 's', 'e', 't'] 10 =
        some (.ret (v, reads)) ∧
      (∀ r ∈ reads, r ≤ H5_API_TEST_MAX false ∧ r < (H5_api_test_name false).length) ∧
      v ≠ H5_API_TEST_MAX false ∧ v = 3 ∧
      ∃ calls, H5_api_test_run false [0, 0, 0, 1, 0, 0, 0, 0, 0, 0] = .ret calls :=
  ⟨by decide, by decide, by decide, by decide,
    (fun ⟨v, reads, h1, h2, h3, h4, _, _, _, _, h9⟩ =>
      ⟨v, reads, h1, h2, h3, h4 3 (by decide) (by decide) (by decide), h9 _ (by decide)⟩)
      (name_to_type_spec false ['d', 'a', 't', 'a', 's', 'e', 't'] 10 (by decide))⟩

end H5_api_test

namespace H5AC

variable {σ : Type}

/-! ## C22: what a hit leaves unchanged -/

/-- C22 (amended): when `slot[H5AC_HASH(f,a)]` holds type `T` and address `a`, with `T` a
registered descriptor, `H5AC_find` returns on the fast path, whatever `H5AC_find_f` is,
and leaves the container, the slot array (type, address, thing and protection records
of every slot), `nslots`, `nprots`, the number of diagnostics records, the records of
every other kind and the `nmisses`, `ninits` and `nflushes` counters of kind `T.id`
unchanged; `nhits` of kind `T.id` becomes its old value plus one modulo `2^uintn_bits`,
which is the old value plus one unless the counter was at its maximum. -/
theorem find_hit_frame (env : Env σ) (f : H5F_t σ) (T : ClassPtr) (a : haddr_t) (u1 u2 : Nat)
    (s : H5AC_slot_t)
    (hreg : env.registered T = true)
    (hlen : f.cache.diagnostics.length = H5AC_subid_t.H5AC_NTYPES.val)
    (hs : f.cache.slot[H5AC_HASH env f a]? = some s) (hT : s.type = T) (ha : s.addr = a) :
    ∃ k g, env.class_of T = some k ∧
      (∀ find_f : FindF σ, H5AC_find env find_f f T a u1 u2 = .ret s.thing g) ∧
      g.disk = f.disk ∧ g.cache.slot = f.cache.slot ∧ g.cache.nslots = f.cache.nslots ∧
      g.cache.nprots = f.cache.nprots ∧
      g.cache.diagnostics.length = f.cache.diagnostics.length ∧
      (∀ j, j ≠ k.id.val → g.cache.diagnostics[j]? = f.cache.diagnostics[j]?) ∧
      ∃ d d2, f.cache.diagnostics[k.id.val]? = some d ∧
        g.cache.diagnostics[k.id.val]? = some d2 ∧
        d2.nhits = (d.nhits + 1) % 2 ^ env.uintn_bits ∧
        (d.nhits + 1 < 2 ^ env.uintn_bits → d2.nhits = d.nhits + 1) ∧
        d2.nmisses = d.nmisses ∧ d2.ninits = d.ninits ∧ d2.nflushes = d.nflushes := by
  obtain ⟨k, hk, hlt⟩ := registered_class env T hreg
  have hin : k.id.val < f.cache.diagnostics.length := by omega
  have hd := List.getElem?_eq_getElem hin
  refine ⟨k, _, hk,
    fun find_f => find_hit_eq env find_f f T a u1 u2 s k _ hs hT ha hk hd,
    rfl, rfl, rfl, rfl, List.length_set _ _ _, fun j hj => ?_,
    f.cache.diagnostics[k.id.val],
    { f.cache.diagnostics[k.id.val] with
      nhits := uintn_incr env f.cache.diagnostics[k.id.val].nhits },
    hd, ?_, rfl, fun h => ?_, rfl, rfl, rfl⟩
  · exact List.getElem?_set_ne (fun h => hj h.symm)
  · simp only [List.getElem?_set_self hin]
  · exact Nat.mod_eq_of_lt h

/-- Witness of `find_hit_frame` on the warm hit of scenario 2. -/
theorem find_hit_frame_witness :
    (demo_env.registered 100 = true ∧
      demo_file.cache.diagnostics.length = H5AC_subid_t.H5AC_NTYPES.val ∧
      demo_file.cache.slot[H5AC_HASH demo_env demo_file { offset := 5 }]? =
        some { type := 100, addr := { offset := 5 }, thing := 1005, prot := [] }) ∧
    ∃ k g, demo_env.class_of 100 = some k ∧
      (∀ find_f : FindF Unit, H5AC_find demo_env find_f demo_file 100 { offset := 5 } 0 0 =
        .ret 1005 g) ∧
      g.disk = demo_file.disk ∧ g.cache.slot = demo_file.cache.slot ∧
      g.cache.nslots = demo_file.cache.nslots ∧ g.cache.nprots = demo_file.cache.nprots ∧
      g.cache.diagnostics.length = demo_file.cache.diagnostics.length ∧
      (∀ j, j ≠ k.id.val → g.cache.diagnostics[j]? = demo_file.cache.diagnostics[j]?) ∧
      ∃ d d2, demo_file.cache.diagnostics[k.id.val]? = some d ∧
        g.cache.diagnostics[k.id.val]? = some d2 ∧
        d2.nhits = (d.nhits + 1) % 2 ^ demo_env.uintn_bits ∧
        (d.nhits + 1 < 2 ^ demo_env.uintn_bits → d2.nhits = d.nhits + 1) ∧
        d2.nmisses = d.nmisses ∧ d2.ninits = d.ninits ∧ d2.nflushes = d.nflushes :=
  ⟨⟨by decide, by decide, by decide⟩,
    find_hit_frame demo_env demo_file 100 { offset := 5 } 0 0
      { type := 100, addr := { offset := 5 }, thing := 1005, prot := [] }
      (by decide) (by decide) (by decide) rfl rfl⟩

/-- C22 as stated fails when the counter is at its maximum: in `demo_hits` the hit on
`(K, 5)` takes the fast path and leaves everything but `diagnostics[0].nhits` as it was,
and that counter goes from `2^32 - 1` to `0`, which is not the old value plus one. -/
theorem find_hit_frame_wraps :
    demo_env.registered 100 = true ∧
    demo_hits.cache.slot[H5AC_HASH demo_env demo_hits { offset := 5 }]? =
      some { type := 100, addr := { offset := 5 }, thing := 1005, prot := [] } ∧
    demo_hits.cache.diagnostics[0]? =
      some { nhits := 4294967295, nmisses := 1, ninits := 1, nflushes := 0 } ∧
    H5AC_find demo_env (H5AC_find_f demo_env) demo_hits 100 { offset := 5 } 0 0 =
      .ret 1005 { demo_hits with cache := { demo_hits.cache with diagnostics :=
        (demo_hits.cache.diagnostics.set 0
          { nhits := 0, nmisses := 1, ninits := 1, nflushes := 0 }) } } ∧
    (0 : Nat) ≠ 4294967295 + 1 := by
  refine ⟨by decide, by decide, by decide, by decide, by decide⟩

end H5AC
